import Mathlib

/-!
# USemLog event monitors: grasp event handler, pick-and-place and reach listeners,
event data logger

A shallow embedding of

* `Source/USemLog/Private/Events/SLGraspEventHandler.cpp`
* `Source/USemLog/Private/Monitors/SLPickAndPlaceListener.cpp`
* `Source/USemLog/Private/Monitors/SLReachListener.cpp`
* `Source/USemLog/Private/SLEventDataLogger.cpp`

Conventions of the embedding.

* Timestamps, coordinates and thresholds are C++ `float`s (IEEE-754 single precision)
  in the source.  A finite `float` is embedded as the integer number of units of
  `2 ^ (-149)`, the smallest positive `float`, that it equals; `F32.ofInt n` is the
  `float` of integer value `n`.  The arithmetic operators on `float` round to nearest,
  ties to even (`F32.Sub`, `F32.Add`, `F32.Mul`, `F32.Sqrt`); a result beyond the
  largest finite `float` is infinity, embedded as `F32.Infinity`.  Comparison is
  exact.  Values read from the engine are finite.
* An engine object pointer (`UObject*`, `AActor*`) is embedded as the object it
  points to, identified by its engine unique id; a pointer that may be `nullptr`
  is an `Option`.
* A delegate call (`ExecuteIfBound`, `Broadcast`) is embedded as an element appended
  to the list of published events returned by the operation.
* Values read from the engine during a call (world time, actor location, support
  state of a contact shape) are explicit inputs of the operation.
-/

namespace USemLog

/-! ## Shared data types -/

/-- Engine object behind a `UObject*` / `AActor*`, identified by `GetUniqueID()`. -/
structure UObject where
  UniqueID : Nat
  deriving DecidableEq, Repr

/-- Record `FSLEntity`: the engine object together with its semantic id and class. -/
structure FSLEntity where
  Obj : UObject
  Id : String
  Class : String
  deriving DecidableEq, Repr

/-- Modelled from the spec: `FIds::PairEncodeCantor` lives in the UUtils header
`Ids.h`, which is not among the sources.  The spec describes the pair key as a
deterministic, order-independent pairing of two unsigned identities that is unique
for the unordered pair: the Cantor pairing of the two `uint32` ids taken in
ascending order, returned as a `uint64`. -/
def PairEncodeCantor (X Y : Nat) : Nat :=
  let A := min (X % 2 ^ 32) (Y % 2 ^ 32)
  let B := max (X % 2 ^ 32) (Y % 2 ^ 32)
  ((A + B) * (A + B + 1) / 2 + B) % 2 ^ 64

/-! ## Single-precision arithmetic -/

namespace F32

/-- The `float` of integer value `n`, in units of `2 ^ (-149)`, for an `n` that a `float`
can hold: every `n` below `2 ^ 24` in size, and beyond that the `n` with at most 24
significant bits. -/
def ofInt (n : Int) : Int := n * ((2 ^ 149 : Nat) : Int)

/-- Positive infinity, `2 ^ 128` in units of `2 ^ (-149)`: the value every result beyond
the largest finite `float` rounds to. -/
def Infinity : Nat := 2 ^ 128 * 2 ^ 149

/-- The least shift `k'` from `k` on for which `N >>> k'` fits the 24-bit significand. -/
def ShiftFor : Nat → Nat → Nat → Nat
  | 0, _, k => k
  | Fuel + 1, N, k => if N >>> k < 2 ^ 24 then k else ShiftFor Fuel N (k + 1)

/-- The `float` nearest to `N / 2 ^ s` units, ties to even: the significand keeps 24
bits, the spacing is never finer than one unit (subnormal range), and the result
saturates at infinity. -/
def RoundScaled (N s : Nat) : Nat :=
  let k := ShiftFor N N s
  let q := N >>> k
  let r := N - (q <<< k)
  let q2 := if 1 <<< k < 2 * r ∨ (2 * r = 1 <<< k ∧ q % 2 = 1) then q + 1 else q
  let v := q2 <<< (k - s)
  if Infinity ≤ v then Infinity else v

/-- The multiple of `2 ^ (k - s)` units nearest to `N / 2 ^ s` units, ties to even,
written with division: what `RoundScaled` computes with shifts before it saturates. -/
def Nearest (N k s : Nat) : Nat :=
  (if 2 ^ k < 2 * (N % 2 ^ k) ∨ (2 * (N % 2 ^ k) = 2 ^ k ∧ (N / 2 ^ k) % 2 = 1)
    then N / 2 ^ k + 1 else N / 2 ^ k) * 2 ^ (k - s)

/-- The `float` nearest to `x` units, ties to even. -/
def Round (x : Int) : Int :=
  if 0 ≤ x then (RoundScaled x.toNat 0 : Nat) else -((RoundScaled (-x).toNat 0 : Nat) : Int)

/-- Operator `a - b` on `float`. -/
def Sub (a b : Int) : Int := Round (a - b)

/-- Operator `a + b` on `float`. -/
def Add (a b : Int) : Int := Round (a + b)

/-- Operator `a * b` on `float`: the exact product is `a * b / 2 ^ 149` units. -/
def Mul (a b : Int) : Int :=
  if 0 ≤ a * b then (RoundScaled (a * b).toNat 149 : Nat)
  else -((RoundScaled (-(a * b)).toNat 149 : Nat) : Int)

/-- The least `b'` from `b` on with `M < 4 ^ b'`. -/
def HalfBits : Nat → Nat → Nat → Nat
  | 0, _, b => b
  | Fuel + 1, M, b => if M >>> (2 * b) = 0 then b else HalfBits Fuel M (b + 1)

/-- Bit-by-bit integer square root: the bits below `i` of the root are decided, from
the highest down. -/
def ISqrtLoop : Nat → Nat → Nat → Nat
  | 0, _, acc => acc
  | i + 1, M, acc =>
    if (acc + 1 <<< i) * (acc + 1 <<< i) ≤ M then ISqrtLoop i M (acc + 1 <<< i)
    else ISqrtLoop i M acc

/-- Integer square root (rounded down). -/
def ISqrt (M : Nat) : Nat := ISqrtLoop (HalfBits M M 0) M 0

/-- Function `FMath::Sqrt` (`sqrtf`) on a non-negative `float`, correctly rounded: the
exact root of `a` units is the root of `a * 2 ^ 149`, in units; its integer part and
one sticky bit decide the rounding. -/
def Sqrt (a : Int) : Int :=
  if (Infinity : Int) ≤ a then Infinity
  else if a ≤ 0 then 0
  else
    let M := a.toNat <<< 149
    let T := ISqrt M
    (RoundScaled (2 * T + (if T * T = M then 0 else 1)) 1 : Nat)

end F32

/-! ## Grasp event handler (`SLGraspEventHandler.cpp`) -/

/-- Event `FSLGraspEvent` (an `ISLEvent` with `Id`, `Start`, `End`), as built by the
constructor call in `AddNewEvent`; `End` is unset until the event is finished. -/
structure FSLGraspEvent where
  Id : String
  Start : Int
  End : Option Int
  PairId : Nat
  Manipulator : FSLEntity
  Item : FSLEntity
  GraspType : String
  deriving DecidableEq, Repr

/-- State of `FSLGraspEventHandler`.  `GraspEventMin` is the configured minimum
duration.  The `Parent` pointer is set by the same branch of `Init` that sets
`bIsInit`, and is dereferenced only behind the flag guards; the parent itself is
represented by what it reports and delivers during `Finish`. -/
structure FSLGraspEventHandler where
  bIsInit : Bool
  bIsStarted : Bool
  bIsFinished : Bool
  GraspEventMin : Int
  StartedEvents : List FSLGraspEvent
  deriving DecidableEq, Repr

/-- Callbacks the parent manipulator listener delivers through the two delegates the
handler binds in `Start` (`OnBeginManipulatorGrasp`, `OnEndManipulatorGrasp`).  For a
grasp-begin, `OtherItem` is the entity the entities manager returns for the grasped
actor (`none` when it is not set) and `Guid` the id drawn for the new event. -/
inductive GraspSignal where
  | GraspBegin (Self : FSLEntity) (OtherItem : Option FSLEntity) (Time : Int)
      (GraspType : String) (Guid : String)
  | GraspEnd (Self : FSLEntity) (Other : UObject) (Time : Int)
  deriving DecidableEq, Repr

namespace FSLGraspEventHandler

/-- Handler as constructed: no flag set, no open event. -/
def New (GraspEventMin : Int) : FSLGraspEventHandler :=
  { bIsInit := false, bIsStarted := false, bIsFinished := false,
    GraspEventMin := GraspEventMin, StartedEvents := [] }

/-- Method `FSLGraspEventHandler::Init`; `IsManipulatorListener` is whether the cast of
`InParent` succeeds. -/
def Init (h : FSLGraspEventHandler) (IsManipulatorListener : Bool) : FSLGraspEventHandler :=
  if !h.bIsInit then
    if IsManipulatorListener then { h with bIsInit := true } else h
  else h

/-- Method `FSLGraspEventHandler::Start`. -/
def Start (h : FSLGraspEventHandler) : FSLGraspEventHandler :=
  if !h.bIsStarted && h.bIsInit then { h with bIsStarted := true } else h

/-- Method `FSLGraspEventHandler::AddNewEvent`; `Guid` is the value returned by
`FIds::NewGuidInBase64Url()`. -/
def AddNewEvent (h : FSLGraspEventHandler) (Self Other : FSLEntity) (StartTime : Int)
    (InType : String) (Guid : String) : FSLGraspEventHandler :=
  let Event : FSLGraspEvent :=
    { Id := Guid, Start := StartTime, End := none,
      PairId := PairEncodeCantor Self.Obj.UniqueID Other.Obj.UniqueID,
      Manipulator := Self, Item := Other, GraspType := InType }
  { h with StartedEvents := h.StartedEvents ++ [Event] }

/-- The iterator loop of `FinishEvent` over the open events: returns the value
returned, the open events left, and the events published. -/
def FinishEventLoop (GraspEventMin : Int) (Other : UObject) (EndTime : Int) :
    List FSLGraspEvent → Bool × List FSLGraspEvent × List FSLGraspEvent
  | [] => (false, [], [])
  | Ev :: Rest =>
    if Ev.Item.Obj = Other then
      (true, Rest,
        if F32.Sub EndTime Ev.Start > GraspEventMin then [{ Ev with End := some EndTime }]
        else [])
    else
      let r := FinishEventLoop GraspEventMin Other EndTime Rest
      (r.1, Ev :: r.2.1, r.2.2)

/-- Method `FSLGraspEventHandler::FinishEvent`: return value, new state, published events. -/
def FinishEvent (h : FSLGraspEventHandler) (Other : UObject) (EndTime : Int) :
    Bool × FSLGraspEventHandler × List FSLGraspEvent :=
  let r := FinishEventLoop h.GraspEventMin Other EndTime h.StartedEvents
  (r.1, { h with StartedEvents := r.2.1 }, r.2.2)

/-- The range-for loop of `FinishAllEvents`: the events published, in list order. -/
def FinishAllEventsLoop (GraspEventMin : Int) (EndTime : Int) :
    List FSLGraspEvent → List FSLGraspEvent
  | [] => []
  | Ev :: Rest =>
    if F32.Sub EndTime Ev.Start > GraspEventMin then
      { Ev with End := some EndTime } :: FinishAllEventsLoop GraspEventMin EndTime Rest
    else
      FinishAllEventsLoop GraspEventMin EndTime Rest

/-- Method `FSLGraspEventHandler::FinishAllEvents`: new state and published events. -/
def FinishAllEvents (h : FSLGraspEventHandler) (EndTime : Int) :
    FSLGraspEventHandler × List FSLGraspEvent :=
  ({ h with StartedEvents := [] }, FinishAllEventsLoop h.GraspEventMin EndTime h.StartedEvents)

/-- Method `FSLGraspEventHandler::OnSLGraspBegin`. -/
def OnSLGraspBegin (h : FSLGraspEventHandler) (Self : FSLEntity) (OtherItem : Option FSLEntity)
    (Time : Int) (GraspType : String) (Guid : String) : FSLGraspEventHandler :=
  match OtherItem with
  | some Item => h.AddNewEvent Self Item Time GraspType Guid
  | none => h

/-- Method `FSLGraspEventHandler::OnSLGraspEnd`: new state and published events. -/
def OnSLGraspEnd (h : FSLGraspEventHandler) (_Self : FSLEntity) (Other : UObject) (Time : Int) :
    FSLGraspEventHandler × List FSLGraspEvent :=
  (h.FinishEvent Other Time).2

/-- Delivery of one parent callback to the handler. -/
def Deliver (h : FSLGraspEventHandler) : GraspSignal → FSLGraspEventHandler × List FSLGraspEvent
  | .GraspBegin Self OtherItem Time GraspType Guid =>
    (h.OnSLGraspBegin Self OtherItem Time GraspType Guid, [])
  | .GraspEnd Self Other Time => h.OnSLGraspEnd Self Other Time

/-- Delivery of the callbacks the parent sends while it finishes, in order. -/
def DeliverAll (h : FSLGraspEventHandler) :
    List GraspSignal → FSLGraspEventHandler × List FSLGraspEvent
  | [] => (h, [])
  | s :: rest =>
    let r := h.Deliver s
    let r2 := DeliverAll r.1 rest
    (r2.1, r.2 ++ r2.2)

/-- Method `FSLGraspEventHandler::Finish`.  `ParentIsFinished` is the value of
`Parent->IsFinished()`; `ParentPending` are the pending grasp callbacks which
`Parent->Finish()` delivers to this handler before `FinishAllEvents` runs. -/
def Finish (h : FSLGraspEventHandler) (EndTime : Int) (_bForced : Bool)
    (ParentIsFinished : Bool) (ParentPending : List GraspSignal) :
    FSLGraspEventHandler × List FSLGraspEvent :=
  if !h.bIsFinished && (h.bIsInit || h.bIsStarted) then
    let r := if !ParentIsFinished then h.DeliverAll ParentPending else (h, [])
    let r2 := r.1.FinishAllEvents EndTime
    ({ r2.1 with bIsStarted := false, bIsInit := false, bIsFinished := true }, r.2 ++ r2.2)
  else (h, [])

end FSLGraspEventHandler

/-- Calls on the grasp event handler considered by the publication invariant. -/
inductive GraspOp where
  | AddNewEvent (Self Other : FSLEntity) (StartTime : Int) (InType : String) (Guid : String)
  | FinishEvent (Other : UObject) (EndTime : Int)
  | FinishAllEvents (EndTime : Int)
  deriving DecidableEq, Repr

/-- One call: new state and the events it publishes. -/
def GraspOp.apply (h : FSLGraspEventHandler) : GraspOp → FSLGraspEventHandler × List FSLGraspEvent
  | .AddNewEvent Self Other StartTime InType Guid =>
    (h.AddNewEvent Self Other StartTime InType Guid, [])
  | .FinishEvent Other EndTime => (h.FinishEvent Other EndTime).2
  | .FinishAllEvents EndTime => h.FinishAllEvents EndTime

/-- A sequence of calls: final state and everything published, in order. -/
def GraspOp.run (h : FSLGraspEventHandler) : List GraspOp → FSLGraspEventHandler × List FSLGraspEvent
  | [] => (h, [])
  | op :: rest =>
    let r := GraspOp.apply h op
    let r2 := GraspOp.run r.1 rest
    (r2.1, r.2 ++ r2.2)

/-- The fresh ids drawn by the `AddNewEvent` calls of a sequence. -/
def GraspOp.guids : List GraspOp → List String
  | [] => []
  | .AddNewEvent _ _ _ _ Guid :: rest => Guid :: GraspOp.guids rest
  | _ :: rest => GraspOp.guids rest

/-- Ids of a list of grasp events. -/
def GraspIds (l : List FSLGraspEvent) : List String := l.map (fun e => e.Id)

/-- A sequence of `AddNewEvent` calls, each given by its arguments. -/
def AddNewEvents (h : FSLGraspEventHandler) :
    List (FSLEntity × FSLEntity × Int × String × String) → FSLGraspEventHandler
  | [] => h
  | a :: rest => AddNewEvents (h.AddNewEvent a.1 a.2.1 a.2.2.1 a.2.2.2.1 a.2.2.2.2) rest

/-! ## Pick-and-place listener (`SLPickAndPlaceListener.cpp`) -/

/-- Engine vector `FVector`. -/
structure FVector where
  X : Int
  Y : Int
  Z : Int
  deriving DecidableEq, Repr

namespace FVector

/-- The vector of `float`s whose coordinates have the integer values of `V`. -/
def ofInt (V : FVector) : FVector := ⟨F32.ofInt V.X, F32.ofInt V.Y, F32.ofInt V.Z⟩

/-- Engine function `FVector::DistSquaredXY(V1, V2)`, in the engine header `Vector.h`
`FMath::Square(V2.X-V1.X) + FMath::Square(V2.Y-V1.Y)`, where `Square(A)` is `A*A`. -/
def DistSquaredXY (V1 V2 : FVector) : Int :=
  F32.Add (F32.Mul (F32.Sub V2.X V1.X) (F32.Sub V2.X V1.X))
    (F32.Mul (F32.Sub V2.Y V1.Y) (F32.Sub V2.Y V1.Y))

/-- Engine function `FVector::DistSquared(V1, V2)`, in `Vector.h`
`FMath::Square(V2.X-V1.X) + FMath::Square(V2.Y-V1.Y) + FMath::Square(V2.Z-V1.Z)`. -/
def DistSquared (V1 V2 : FVector) : Int :=
  F32.Add
    (F32.Add (F32.Mul (F32.Sub V2.X V1.X) (F32.Sub V2.X V1.X))
      (F32.Mul (F32.Sub V2.Y V1.Y) (F32.Sub V2.Y V1.Y)))
    (F32.Mul (F32.Sub V2.Z V1.Z) (F32.Sub V2.Z V1.Z))

/-- Engine function `FVector::DistXY(V1, V2)`, `FMath::Sqrt(DistSquaredXY(V1, V2))`. -/
def DistXY (V1 V2 : FVector) : Int := F32.Sqrt (DistSquaredXY V1 V2)

/-- Engine function `FVector::Distance(V1, V2)`, `FMath::Sqrt(DistSquared(V1, V2))`. -/
def Distance (V1 V2 : FVector) : Int := F32.Sqrt (DistSquared V1 V2)

/-- The comparison `FVector::DistXY(A, B) > D`. -/
def DistXYGreater (A B : FVector) (D : Int) : Bool :=
  decide (DistXY A B > D)

/-- The comparison `FVector::Distance(A, B) > D`. -/
def DistanceGreater (A B : FVector) (D : Int) : Bool :=
  decide (Distance A B > D)

end FVector

/-- Values of `ESLPaPStateCheck`. -/
inductive ESLPaPStateCheck where
  | NONE
  | Slide
  | PickUp
  | TransportOrPutDown
  deriving DecidableEq, Repr

/-- Targets of the member-function pointer `UpdateFunctionPtr`. -/
inductive EPaPUpdateFunction where
  | Update_NONE
  | Update_Slide
  | Update_PickUp
  | Update_TransportOrPutDown
  deriving DecidableEq, Repr

/-- The four multicast delegates of the listener. -/
inductive EPaPDelegate where
  | OnManipulatorSlideEvent
  | OnManipulatorPickUpEvent
  | OnManipulatorTransportEvent
  | OnManipulatorPutDownEvent
  deriving DecidableEq, Repr

/-- One `Broadcast(SemanticOwner, CurrGraspedObj, StartTime, EndTime)` call. -/
structure FPaPBroadcast where
  Delegate : EPaPDelegate
  Self : FSLEntity
  Other : Option UObject
  StartTime : Int
  EndTime : Int
  deriving DecidableEq, Repr

/-- Numeric members of the listener that are declared in its header (not among the
sources) and never assigned in the `.cpp`; they are parameters of the embedding. -/
structure FPaPConstants where
  UpdateRate : Int
  MinSlideDistXY : Int
  MinSlideDuration : Int
  MinPickUpHeight : Int
  MaxPickUpHeight : Int
  MaxPickUpDistXY : Int
  MinPutDownHeight : Int
  MaxPutDownHeight : Int
  MaxPutDownDistXY : Int
  RecentMovementBufferSize : Nat
  RecentMovementBufferDuration : Int
  PutDownMovementBacktrackDuration : Int
  deriving DecidableEq, Repr

/-- A component of an actor, as far as `GetContactShapeComponent` inspects it:
whether it implements the contact shape interface and whether the cast to the
interface succeeds. -/
structure FActorComponent where
  Id : Nat
  bImplementsContactShape : Bool
  bCastsToContactShape : Bool
  deriving DecidableEq, Repr

/-- What the listener reads from the engine during one call: the world time, actor
locations and components, and per contact shape (by component id) the list
`IsSupportedByPariIds` and the value of `GetLastSupportedByEndTime()`. -/
structure FWorld where
  TimeSeconds : Int
  ActorLocation : UObject → FVector
  Components : UObject → List FActorComponent
  IsSupportedByPariIds : Nat → List Nat
  LastSupportedByEndTime : Nat → Int

namespace FWorld

/-- Method `ISLContactShapeInterface::IsSupportedBySomething` of the shape `CSI`. -/
def IsSupportedBySomething (w : FWorld) (CSI : Nat) : Bool :=
  (w.IsSupportedByPariIds CSI).length != 0

end FWorld

/-- State of `USLPickAndPlaceListener`.  `bUpdateTimerPaused` is the paused state of
`UpdateTimerHandle` in the timer manager. -/
structure USLPickAndPlaceListener where
  bIgnore : Bool
  bIsInit : Bool
  bIsStarted : Bool
  bIsFinished : Bool
  SemanticOwner : FSLEntity
  CurrGraspedObj : Option UObject
  GraspedObjectContactShape : Option Nat
  EventCheck : ESLPaPStateCheck
  UpdateFunctionPtr : EPaPUpdateFunction
  PrevRelevantLocation : FVector
  PrevRelevantTime : Int
  bLiftOffHappened : Bool
  LiftOffLocation : FVector
  RecentMovementBuffer : List (Int × FVector)
  bUpdateTimerPaused : Bool
  deriving DecidableEq, Repr

namespace USLPickAndPlaceListener

/-- The constructor: it assigns the members below and leaves the others as they are
in the memory `Uninit` the object is built in. -/
def New (Uninit : USLPickAndPlaceListener) : USLPickAndPlaceListener :=
  { Uninit with
    bIgnore := false, bIsInit := false, bIsStarted := false, bIsFinished := false,
    CurrGraspedObj := none, EventCheck := .NONE, UpdateFunctionPtr := .Update_NONE,
    bLiftOffHappened := false, RecentMovementBuffer := [] }

/-- Method `USLPickAndPlaceListener::Init`; `Owner` is the entity the entities manager
returns for the owner and `bOwnerIsSet` its `IsSet()`.  Returns the value returned
and the new state. -/
def Init (s : USLPickAndPlaceListener) (Owner : FSLEntity) (bOwnerIsSet : Bool) :
    Bool × USLPickAndPlaceListener :=
  if s.bIgnore then (false, s)
  else if !s.bIsInit then
    if !bOwnerIsSet then (false, { s with SemanticOwner := Owner })
    else
      (true, { s with SemanticOwner := Owner, EventCheck := .NONE,
                      UpdateFunctionPtr := .Update_NONE, bIsInit := true })
  else (false, s)

/-- Method `USLPickAndPlaceListener::Start`; `bSubscribed` is the value returned by
`SubscribeForGraspEvents()`. -/
def Start (s : USLPickAndPlaceListener) (bSubscribed : Bool) : USLPickAndPlaceListener :=
  if !s.bIsStarted && s.bIsInit then
    if bSubscribed then { s with bUpdateTimerPaused := true, bIsStarted := true } else s
  else s

/-- Method `USLPickAndPlaceListener::GetContactShapeComponent`: the id of the first
component of the actor that implements the interface and casts to it. -/
def GetContactShapeComponent (w : FWorld) (Actor : Option UObject) : Option Nat :=
  match Actor with
  | some A =>
    ((w.Components A).find? (fun C => C.bImplementsContactShape && C.bCastsToContactShape)).map
      (fun C => C.Id)
  | none => none

/-- Method `USLPickAndPlaceListener::OnSLGraspBegin`. -/
def OnSLGraspBegin (s : USLPickAndPlaceListener) (w : FWorld) (_Self : FSLEntity)
    (Other : UObject) (_Time : Int) (_GraspType : String) : USLPickAndPlaceListener :=
  if s.CurrGraspedObj.isSome then s
  else
    match GetContactShapeComponent w (some Other) with
    | some CSI =>
      let s1 := { s with CurrGraspedObj := some Other, GraspedObjectContactShape := some CSI,
                         PrevRelevantLocation := w.ActorLocation Other,
                         PrevRelevantTime := w.TimeSeconds }
      if w.IsSupportedBySomething CSI then
        let s2 := { s1 with EventCheck := .Slide, UpdateFunctionPtr := .Update_Slide }
        if s2.bUpdateTimerPaused then { s2 with bUpdateTimerPaused := false } else s2
      else
        { s1 with CurrGraspedObj := none, GraspedObjectContactShape := none,
                  EventCheck := .NONE, UpdateFunctionPtr := .Update_NONE }
    | none => s

/-- Method `USLPickAndPlaceListener::FinishActiveEvent`: new state and broadcasts. -/
def FinishActiveEvent (s : USLPickAndPlaceListener) (CurrTime : Int) :
    USLPickAndPlaceListener × List FPaPBroadcast :=
  let r : USLPickAndPlaceListener × List FPaPBroadcast :=
    if s.EventCheck = .Slide then
      (s, [⟨.OnManipulatorSlideEvent, s.SemanticOwner, s.CurrGraspedObj, s.PrevRelevantTime,
            CurrTime⟩])
    else if s.EventCheck = .PickUp then
      if s.bLiftOffHappened then
        ({ s with bLiftOffHappened := false },
          [⟨.OnManipulatorSlideEvent, s.SemanticOwner, s.CurrGraspedObj, s.PrevRelevantTime,
            CurrTime⟩])
      else (s, [])
    else (s, [])
  ({ r.1 with CurrGraspedObj := none, EventCheck := .NONE, UpdateFunctionPtr := .Update_NONE },
    r.2)

/-- Method `USLPickAndPlaceListener::OnSLGraspEnd`: new state and broadcasts. -/
def OnSLGraspEnd (s : USLPickAndPlaceListener) (_Self : FSLEntity) (Other : UObject)
    (Time : Int) : USLPickAndPlaceListener × List FPaPBroadcast :=
  match s.CurrGraspedObj with
  | none => (s, [])
  | some Obj =>
    if Obj = Other then
      let s1 := { s with CurrGraspedObj := none, GraspedObjectContactShape := none,
                         EventCheck := .NONE, UpdateFunctionPtr := .Update_NONE }
      let r := s1.FinishActiveEvent Time
      (if !r.1.bUpdateTimerPaused then { r.1 with bUpdateTimerPaused := true } else r.1, r.2)
    else (s, [])

/-- Method `USLPickAndPlaceListener::Finish`: new state and broadcasts. -/
def Finish (s : USLPickAndPlaceListener) (EndTime : Int) (_bForced : Bool) :
    USLPickAndPlaceListener × List FPaPBroadcast :=
  if !s.bIsFinished && (s.bIsInit || s.bIsStarted) then
    let r := s.FinishActiveEvent EndTime
    ({ r.1 with bIsStarted := false, bIsInit := false, bIsFinished := true }, r.2)
  else (s, [])

/-- The `while` loop of `HasPutDownEventHappened`, entered with index `Idx`: the value
returned and the final `OutPutDownEndIdx`; `none` when an index outside the buffer is
read. -/
def HasPutDownEventHappenedLoop (c : FPaPConstants) (Buffer : List (Int × FVector))
    (CurrTime : Int) (CurrObjLocation : FVector) : Nat → Option (Bool × Nat)
  | 0 => some (false, 0)
  | Idx + 1 =>
    match Buffer[Idx + 1]? with
    | none => none
    | some Sample =>
      if F32.Sub CurrTime Sample.1 < c.PutDownMovementBacktrackDuration then
        if F32.Sub Sample.2.Z CurrObjLocation.Z > c.MinPutDownHeight then some (true, Idx + 1)
        else HasPutDownEventHappenedLoop c Buffer CurrTime CurrObjLocation Idx
      else some (false, Idx + 1)

/-- Method `USLPickAndPlaceListener::HasPutDownEventHappened`.  The start index is the
`uint32` value of `RecentMovementBuffer.Num() - 1`. -/
def HasPutDownEventHappened (c : FPaPConstants) (s : USLPickAndPlaceListener)
    (CurrTime : Int) (CurrObjLocation : FVector) : Option (Bool × Nat) :=
  HasPutDownEventHappenedLoop c s.RecentMovementBuffer CurrTime CurrObjLocation
    (((s.RecentMovementBuffer.length : Int) - 1) % 2 ^ 32).toNat

/-- The backtracking `while (PutDownEndIdx > 0)` loop of `Update_TransportOrPutDown`:
the value of `PutDownStartTime` after the loop and the broadcasts made; `none` when an
index outside the buffer is read. -/
def PutDownStartLoop (c : FPaPConstants) (s : USLPickAndPlaceListener) (CurrTime : Int)
    (CurrObjLocation : FVector) : Nat → Option (Int × List FPaPBroadcast)
  | 0 => some (F32.ofInt (-1), [])
  | Idx + 1 =>
    match s.RecentMovementBuffer[Idx + 1]? with
    | none => none
    | some Sample =>
      if F32.Sub Sample.2.Z CurrObjLocation.Z > c.MaxPutDownHeight
          || FVector.DistanceGreater Sample.2 CurrObjLocation c.MaxPutDownDistXY then
        some (Sample.1,
          [⟨.OnManipulatorTransportEvent, s.SemanticOwner, s.CurrGraspedObj,
              s.PrevRelevantTime, Sample.1⟩,
           ⟨.OnManipulatorPutDownEvent, s.SemanticOwner, s.CurrGraspedObj, Sample.1,
              CurrTime⟩])
      else PutDownStartLoop c s CurrTime CurrObjLocation Idx

/-- The eviction scan `while (Last().Key - Buffer[Count].Key > Duration) Count++`,
run over the part of the buffer from index `Count` on: the number of further
increments; `none` when the scan reads past the end of the buffer. -/
def EvictCount (Duration : Int) (LastKey : Int) : List (Int × FVector) → Option Nat
  | [] => none
  | Sample :: Rest =>
    if F32.Sub LastKey Sample.1 > Duration then (EvictCount Duration LastKey Rest).map (· + 1)
    else some 0

/-- Method `USLPickAndPlaceListener::Update_NONE` (logs only). -/
def Update_NONE (s : USLPickAndPlaceListener) :
    Option (USLPickAndPlaceListener × List FPaPBroadcast) :=
  some (s, [])

/-- Method `USLPickAndPlaceListener::Update_Slide`. -/
def Update_Slide (c : FPaPConstants) (s : USLPickAndPlaceListener) (w : FWorld) :
    Option (USLPickAndPlaceListener × List FPaPBroadcast) :=
  match s.CurrGraspedObj, s.GraspedObjectContactShape with
  | some Obj, some CSI =>
    let CurrObjLocation := w.ActorLocation Obj
    let CurrTime := w.TimeSeconds
    if !w.IsSupportedBySomething CSI then
      if FVector.DistXYGreater s.PrevRelevantLocation CurrObjLocation c.MinSlideDistXY
          && decide (F32.Sub CurrTime s.PrevRelevantTime > c.MinSlideDuration) then
        let ExactSupportedByEndTime := w.LastSupportedByEndTime CSI
        some ({ s with PrevRelevantTime := ExactSupportedByEndTime,
                       PrevRelevantLocation := CurrObjLocation,
                       bLiftOffHappened := false, EventCheck := .PickUp,
                       UpdateFunctionPtr := .Update_PickUp },
          [⟨.OnManipulatorSlideEvent, s.SemanticOwner, s.CurrGraspedObj, s.PrevRelevantTime,
            ExactSupportedByEndTime⟩])
      else
        some ({ s with bLiftOffHappened := false, EventCheck := .PickUp,
                       UpdateFunctionPtr := .Update_PickUp }, [])
    else some (s, [])
  | _, _ => some (s, [])

/-- Method `USLPickAndPlaceListener::Update_PickUp`; `none` when `CurrGraspedObj` or
`GraspedObjectContactShape` is dereferenced while null. -/
def Update_PickUp (c : FPaPConstants) (s : USLPickAndPlaceListener) (w : FWorld) :
    Option (USLPickAndPlaceListener × List FPaPBroadcast) :=
  match s.CurrGraspedObj, s.GraspedObjectContactShape with
  | some Obj, some CSI =>
    let CurrObjLocation := w.ActorLocation Obj
    let CurrTime := w.TimeSeconds
    if !w.IsSupportedBySomething CSI then
      if s.bLiftOffHappened then
        if F32.Sub CurrObjLocation.Z s.LiftOffLocation.Z > c.MaxPickUpHeight
            || FVector.DistXYGreater s.LiftOffLocation CurrObjLocation c.MaxPickUpDistXY then
          some ({ s with bLiftOffHappened := false, PrevRelevantTime := CurrTime,
                         PrevRelevantLocation := CurrObjLocation,
                         EventCheck := .TransportOrPutDown,
                         UpdateFunctionPtr := .Update_TransportOrPutDown },
            [⟨.OnManipulatorPickUpEvent, s.SemanticOwner, s.CurrGraspedObj,
              s.PrevRelevantTime, CurrTime⟩])
        else some (s, [])
      else if F32.Sub CurrObjLocation.Z s.PrevRelevantLocation.Z > c.MinPickUpHeight then
        some ({ s with bLiftOffHappened := true, LiftOffLocation := CurrObjLocation }, [])
      else if FVector.DistXYGreater s.LiftOffLocation s.PrevRelevantLocation
          c.MaxPickUpDistXY then
        some ({ s with EventCheck := .TransportOrPutDown,
                       UpdateFunctionPtr := .Update_TransportOrPutDown }, [])
      else some (s, [])
    else
      some ({ s with PrevRelevantTime := CurrTime, PrevRelevantLocation := CurrObjLocation,
                     EventCheck := .Slide, UpdateFunctionPtr := .Update_Slide },
        if s.bLiftOffHappened then
          [⟨.OnManipulatorPickUpEvent, s.SemanticOwner, s.CurrGraspedObj, s.PrevRelevantTime,
            CurrTime⟩]
        else [])
  | _, _ => none

/-- Method `USLPickAndPlaceListener::Update_TransportOrPutDown`; `none` when a null pointer
is dereferenced or an index outside the movement buffer is read. -/
def Update_TransportOrPutDown (c : FPaPConstants) (s : USLPickAndPlaceListener) (w : FWorld) :
    Option (USLPickAndPlaceListener × List FPaPBroadcast) :=
  match s.CurrGraspedObj, s.GraspedObjectContactShape with
  | some Obj, some CSI =>
    let CurrTime := w.TimeSeconds
    let CurrObjLocation := w.ActorLocation Obj
    if w.IsSupportedBySomething CSI then
      let Broadcasts : Option (List FPaPBroadcast) :=
        match HasPutDownEventHappened c s CurrTime CurrObjLocation with
        | none => none
        | some (true, PutDownEndIdx) =>
          match PutDownStartLoop c s CurrTime CurrObjLocation PutDownEndIdx with
          | none => none
          | some (PutDownStartTime, Made) =>
            if PutDownStartTime < 0 then
              match s.RecentMovementBuffer[0]? with
              | none => none
              | some Oldest =>
                some (Made ++
                  [⟨.OnManipulatorPutDownEvent, s.SemanticOwner, s.CurrGraspedObj,
                      s.PrevRelevantTime, Oldest.1⟩,
                   ⟨.OnManipulatorPutDownEvent, s.SemanticOwner, s.CurrGraspedObj, Oldest.1,
                      CurrTime⟩])
            else some Made
        | some (false, _) =>
          some [⟨.OnManipulatorTransportEvent, s.SemanticOwner, s.CurrGraspedObj,
                  s.PrevRelevantTime, CurrTime⟩]
      Broadcasts.map (fun B =>
        ({ s with RecentMovementBuffer := [], PrevRelevantTime := CurrTime,
                  PrevRelevantLocation := CurrObjLocation, EventCheck := .Slide,
                  UpdateFunctionPtr := .Update_Slide }, B))
    else
      if s.RecentMovementBuffer.length > 1 then
        let Pushed := s.RecentMovementBuffer ++ [(CurrTime, CurrObjLocation)]
        (EvictCount c.RecentMovementBufferDuration CurrTime Pushed).map (fun Count =>
          ({ s with RecentMovementBuffer := Pushed.drop Count }, []))
      else
        some ({ s with RecentMovementBuffer :=
                  s.RecentMovementBuffer ++ [(CurrTime, CurrObjLocation)] }, [])
  | _, _ => none

/-- Method `USLPickAndPlaceListener::Update`: the call through `UpdateFunctionPtr`. -/
def Update (c : FPaPConstants) (s : USLPickAndPlaceListener) (w : FWorld) :
    Option (USLPickAndPlaceListener × List FPaPBroadcast) :=
  match s.UpdateFunctionPtr with
  | .Update_NONE => Update_NONE s
  | .Update_Slide => Update_Slide c s w
  | .Update_PickUp => Update_PickUp c s w
  | .Update_TransportOrPutDown => Update_TransportOrPutDown c s w

end USLPickAndPlaceListener

/-- Signals and timer ticks received by the pick-and-place listener, each with the
engine values read while it is handled. -/
inductive FPaPInput where
  | GraspBegin (w : FWorld) (Self : FSLEntity) (Other : UObject) (Time : Int)
      (GraspType : String)
  | GraspEnd (Self : FSLEntity) (Other : UObject) (Time : Int)
  | Tick (w : FWorld)
  | Finish (EndTime : Int) (bForced : Bool)

/-- Handling of one input: new state and broadcasts, `none` when the call faults. -/
def FPaPInput.apply (c : FPaPConstants) (s : USLPickAndPlaceListener) :
    FPaPInput → Option (USLPickAndPlaceListener × List FPaPBroadcast)
  | .GraspBegin w Self Other Time GraspType =>
    some (s.OnSLGraspBegin w Self Other Time GraspType, [])
  | .GraspEnd Self Other Time => some (s.OnSLGraspEnd Self Other Time)
  | .Tick w => s.Update c w
  | .Finish EndTime bForced => some (s.Finish EndTime bForced)

/-- Handling of a sequence of inputs: final state and all broadcasts, in order. -/
def FPaPInput.run (c : FPaPConstants) (s : USLPickAndPlaceListener) :
    List FPaPInput → Option (USLPickAndPlaceListener × List FPaPBroadcast)
  | [] => some (s, [])
  | i :: rest =>
    match FPaPInput.apply c s i with
    | none => none
    | some r =>
      match FPaPInput.run c r.1 rest with
      | none => none
      | some r2 => some (r2.1, r.2 ++ r2.2)

/-! ## Reach listener (`SLReachListener.cpp`) -/

/-- Value type `FSLTimeAndDist` of the candidates map, a tuple built as
`MakeTuple(time, distance)`.  The header declaring the tuple and the enum
`ESLTimeAndDist` is not among the sources; as the uses in the `.cpp` imply
(`Get<1>()` is read as the previous distance), `ESLTimeAndDist::Time` names the
first component and `ESLTimeAndDist::Dist` the second. -/
structure FSLTimeAndDist where
  Time : Int
  Dist : Int
  deriving DecidableEq, Repr

/-- Element of `RecentlyEndedManipulatorContactEvents`, with the two members the
listener uses. -/
structure FSLContactEndEvent where
  Other : UObject
  Time : Int
  deriving DecidableEq, Repr

/-- Argument `FSLContactResult` of the contact-begin callback, with the two members the
listener reads. -/
structure FSLContactResult where
  Other : FSLEntity
  Time : Int
  deriving DecidableEq, Repr

/-- One `OnPreGraspAndReachEvent.Broadcast(SemanticOwner, Other, ReachStartTime,
ReachEndTime, Time)` call. -/
structure FPreGraspAndReachBroadcast where
  Self : FSLEntity
  Other : UObject
  ReachStartTime : Int
  ReachEndTime : Int
  Time : Int
  deriving DecidableEq, Repr

/-- Numeric members of the reach listener declared in its header. -/
structure FReachConstants where
  UpdateRate : Int
  MinDist : Int
  MaxPreGraspEventTimeGap : Int
  deriving DecidableEq, Repr

/-- What the reach listener reads from the engine during one call: the world time,
whether an actor casts to `AStaticMeshActor`, whether the entities manager knows it,
the value of `FVector::Distance(GetOwner()->GetActorLocation(),
Actor->GetActorLocation())`, and the owners of the components that overlap the
sphere. -/
structure FReachWorld where
  TimeSeconds : Int
  IsStaticMeshActor : UObject → Bool
  IsObjectEntitySet : UObject → Bool
  DistanceToOwner : UObject → Int
  OverlappingActors : List UObject

/-! A `TMap` keyed by actors is embedded as a list of key-value pairs in which every
key occurs at most once. -/

/-- Lookup `TMap::Find`. -/
def TMapFind {V : Type} : List (UObject × V) → UObject → Option V
  | [], _ => none
  | (k, v) :: rest, Key => if k = Key then some v else TMapFind rest Key

/-- Test `TMap::Contains`. -/
def TMapContains {V : Type} (m : List (UObject × V)) (Key : UObject) : Bool :=
  (TMapFind m Key).isSome

/-- Removal `TMap::Remove`: the pairs left. -/
def TMapRemove {V : Type} : List (UObject × V) → UObject → List (UObject × V)
  | [], _ => []
  | (k, v) :: rest, Key => if k = Key then TMapRemove rest Key else (k, v) :: TMapRemove rest Key

/-- Insertion `TMap::Emplace`: the value of an existing key is replaced. -/
def TMapEmplace {V : Type} : List (UObject × V) → UObject → V → List (UObject × V)
  | [], Key, Value => [(Key, Value)]
  | (k, v) :: rest, Key, Value =>
    if k = Key then (k, Value) :: rest else (k, v) :: TMapEmplace rest Key Value

/-- Assignment through the pointer returned by `Find` on the candidates map:
`TimeAndDist->Get<ESLTimeAndDist::Time>() = Time`. -/
def TMapSetTime : List (UObject × FSLTimeAndDist) → UObject → Int →
    List (UObject × FSLTimeAndDist)
  | [], _, _ => []
  | (k, v) :: rest, Key, Time =>
    if k = Key then (k, { v with Time := Time }) :: rest
    else (k, v) :: TMapSetTime rest Key Time

/-- State of `USLReachListener`.  `bUpdateTimerPaused` and
`bManipulatorContactDelayTimerActive` are the states of the two timer handles in the
timer manager. -/
structure USLReachListener where
  bIsInit : Bool
  bIsStarted : Bool
  bIsFinished : Bool
  bCallbacksAreBound : Bool
  SemanticOwner : FSLEntity
  CurrGraspedObj : Option UObject
  CandidatesWithTimeAndDistance : List (UObject × FSLTimeAndDist)
  ObjectsInContactWithManipulator : List (UObject × Int)
  RecentlyEndedManipulatorContactEvents : List FSLContactEndEvent
  bUpdateTimerPaused : Bool
  bManipulatorContactDelayTimerActive : Bool
  deriving DecidableEq, Repr

namespace USLReachListener

/-- The constructor: it assigns the flags and `CurrGraspedObj`; the containers are
default-constructed empty. -/
def New (Uninit : USLReachListener) : USLReachListener :=
  { Uninit with
    bIsInit := false, bIsStarted := false, bIsFinished := false, bCallbacksAreBound := false,
    CurrGraspedObj := none, CandidatesWithTimeAndDistance := [],
    ObjectsInContactWithManipulator := [], RecentlyEndedManipulatorContactEvents := [] }

/-- Method `USLReachListener::CanBeACandidate`. -/
def CanBeACandidate (w : FReachWorld) (InObject : UObject) : Bool :=
  if !w.IsObjectEntitySet InObject then false else true

/-- Method `USLReachListener::OnOverlapBegin`. -/
def OnOverlapBegin (s : USLReachListener) (w : FReachWorld) (OtherActor : UObject) :
    USLReachListener :=
  if w.IsStaticMeshActor OtherActor then
    if CanBeACandidate w OtherActor then
      { s with
        CandidatesWithTimeAndDistance :=
          TMapEmplace s.CandidatesWithTimeAndDistance OtherActor
            ⟨w.TimeSeconds, w.DistanceToOwner OtherActor⟩,
        bUpdateTimerPaused := false }
    else s
  else s

/-- Method `USLReachListener::OnOverlapEnd`. -/
def OnOverlapEnd (s : USLReachListener) (w : FReachWorld) (OtherActor : UObject) :
    USLReachListener :=
  if w.IsStaticMeshActor OtherActor then
    if TMapContains s.CandidatesWithTimeAndDistance OtherActor then
      let Left := TMapRemove s.CandidatesWithTimeAndDistance OtherActor
      { s with
        CandidatesWithTimeAndDistance := Left,
        bUpdateTimerPaused := if Left.length = 0 then true else s.bUpdateTimerPaused }
    else s
  else s

/-- Method `USLReachListener::TriggerInitialOverlaps`: `OnOverlapBegin` for the owner of
every overlapping component. -/
def TriggerInitialOverlaps (s : USLReachListener) (w : FReachWorld) : USLReachListener :=
  w.OverlappingActors.foldl (fun st A => st.OnOverlapBegin w A) s

/-- Method `USLReachListener::Init`; `Owner` and `bOwnerIsSet` are the entity of the
owner and its `IsSet()`, `bSubscribed` the value of `SubscribeForManipulatorEvents()`. -/
def Init (s : USLReachListener) (Owner : FSLEntity) (bOwnerIsSet : Bool) (bSubscribed : Bool) :
    Bool × USLReachListener :=
  if !s.bIsInit then
    if !bOwnerIsSet then (false, { s with SemanticOwner := Owner })
    else if bSubscribed then (true, { s with SemanticOwner := Owner, bIsInit := true })
    else (false, { s with SemanticOwner := Owner })
  else (false, s)

/-- Method `USLReachListener::Start`. -/
def Start (s : USLReachListener) (w : FReachWorld) : USLReachListener :=
  if !s.bIsStarted && s.bIsInit then
    let s1 := ({ s with bUpdateTimerPaused := true }).TriggerInitialOverlaps w
    { s1 with bCallbacksAreBound := true, bIsStarted := true }
  else s

/-- Method `USLReachListener::Finish`. -/
def Finish (s : USLReachListener) (_bForced : Bool) : USLReachListener :=
  if !s.bIsFinished && (s.bIsInit || s.bIsStarted) then
    { s with bCallbacksAreBound := false, bIsStarted := false, bIsInit := false,
             bIsFinished := true }
  else s

/-- One candidate in the loop of `ReachUpdate`. -/
def ReachUpdateCandidate (c : FReachConstants) (w : FReachWorld)
    (C : UObject × FSLTimeAndDist) : UObject × FSLTimeAndDist :=
  let CurrDist := w.DistanceToOwner C.1
  let PrevDist := C.2.Dist
  let DiffDist := F32.Sub PrevDist CurrDist
  if DiffDist > c.MinDist then (C.1, { C.2 with Dist := CurrDist })
  else if DiffDist < -c.MinDist then (C.1, { Time := w.TimeSeconds, Dist := CurrDist })
  else C

/-- Method `USLReachListener::ReachUpdate`. -/
def ReachUpdate (c : FReachConstants) (s : USLReachListener) (w : FReachWorld) :
    USLReachListener :=
  { s with
    CandidatesWithTimeAndDistance :=
      s.CandidatesWithTimeAndDistance.map (ReachUpdateCandidate c w) }

/-- Method `USLReachListener::OnSLGraspBegin`: new state and broadcasts. -/
def OnSLGraspBegin (s : USLReachListener) (w : FReachWorld) (_Self : FSLEntity)
    (Other : UObject) (Time : Int) (_GraspType : String) :
    USLReachListener × List FPreGraspAndReachBroadcast :=
  if s.CurrGraspedObj.isSome then (s, [])
  else if w.IsStaticMeshActor Other then
    match TMapFind s.CandidatesWithTimeAndDistance Other with
    | some CandidateTimeAndDist =>
      match TMapFind s.ObjectsInContactWithManipulator Other with
      | some ContactTime =>
        ({ s with
           CurrGraspedObj := some Other, bManipulatorContactDelayTimerActive := false,
           CandidatesWithTimeAndDistance := [], ObjectsInContactWithManipulator := [],
           bUpdateTimerPaused := true, bCallbacksAreBound := false },
          [⟨s.SemanticOwner, Other, CandidateTimeAndDist.Time, ContactTime, Time⟩])
      | none => (s, [])
    | none => (s, [])
  else (s, [])

/-- Method `USLReachListener::OnSLGraspEnd`. -/
def OnSLGraspEnd (s : USLReachListener) (w : FReachWorld) (_Self : FSLEntity)
    (Other : UObject) (_Time : Int) : USLReachListener :=
  match s.CurrGraspedObj with
  | none => s
  | some Obj =>
    if Obj = Other then
      let s1 := ({ s with CurrGraspedObj := none }).TriggerInitialOverlaps w
      { s1 with bCallbacksAreBound := true }
    else s

/-- The iterator loop of `SkipRecentManipulatorContactEndEventTime`: the value
returned and the records left. -/
def SkipRecentLoop (c : FReachConstants) (Other : UObject) (StartTime : Int) :
    List FSLContactEndEvent → Bool × List FSLContactEndEvent
  | [] => (false, [])
  | Ev :: Rest =>
    if Ev.Other = Other ∧ F32.Sub StartTime Ev.Time < c.MaxPreGraspEventTimeGap then (true, Rest)
    else
      let r := SkipRecentLoop c Other StartTime Rest
      (r.1, Ev :: r.2)

/-- Method `USLReachListener::SkipRecentManipulatorContactEndEventTime`: the value
returned and the new state. -/
def SkipRecentManipulatorContactEndEventTime (c : FReachConstants) (s : USLReachListener)
    (Other : UObject) (StartTime : Int) : Bool × USLReachListener :=
  let r := SkipRecentLoop c Other StartTime s.RecentlyEndedManipulatorContactEvents
  (r.1,
    { s with
      RecentlyEndedManipulatorContactEvents := r.2,
      bManipulatorContactDelayTimerActive :=
        if r.1 && r.2.length = 0 then false else s.bManipulatorContactDelayTimerActive })

/-- Method `USLReachListener::OnSLManipulatorContactBegin`. -/
def OnSLManipulatorContactBegin (c : FReachConstants) (s : USLReachListener) (w : FReachWorld)
    (ContactResult : FSLContactResult) : USLReachListener :=
  if s.CurrGraspedObj.isSome then s
  else if w.IsStaticMeshActor ContactResult.Other.Obj then
    if TMapContains s.CandidatesWithTimeAndDistance ContactResult.Other.Obj then
      let r := SkipRecentManipulatorContactEndEventTime c s ContactResult.Other.Obj
        ContactResult.Time
      if !r.1 then
        { r.2 with
          ObjectsInContactWithManipulator :=
            TMapEmplace r.2.ObjectsInContactWithManipulator ContactResult.Other.Obj
              ContactResult.Time }
      else r.2
    else s
  else s

/-- Method `USLReachListener::OnSLManipulatorContactEnd`; `bWorldValid` is whether
`GetWorld()` is non-null. -/
def OnSLManipulatorContactEnd (s : USLReachListener) (w : FReachWorld) (bWorldValid : Bool)
    (_Self : FSLEntity) (Other : FSLEntity) (Time : Int) : USLReachListener :=
  if s.CurrGraspedObj.isSome then s
  else if w.IsStaticMeshActor Other.Obj then
    if TMapContains s.ObjectsInContactWithManipulator Other.Obj then
      let s1 := { s with
        RecentlyEndedManipulatorContactEvents :=
          s.RecentlyEndedManipulatorContactEvents ++ [⟨Other.Obj, Time⟩] }
      if !bWorldValid then s1
      else if !s1.bManipulatorContactDelayTimerActive then
        { s1 with bManipulatorContactDelayTimerActive := true }
      else s1
    else s
  else s

/-- The iterator loop of `DelayedManipulatorContactEndEventCallback`: the candidates,
the objects in contact and the records left. -/
def DelayedManipulatorContactEndLoop (c : FReachConstants) (CurrTime : Int) :
    List (UObject × FSLTimeAndDist) → List (UObject × Int) → List FSLContactEndEvent →
    List (UObject × FSLTimeAndDist) × List (UObject × Int) × List FSLContactEndEvent
  | Candidates, InContact, [] => (Candidates, InContact, [])
  | Candidates, InContact, Ev :: Rest =>
    if F32.Sub CurrTime Ev.Time > c.MaxPreGraspEventTimeGap then
      if TMapContains Candidates Ev.Other then
        if TMapContains InContact Ev.Other then
          DelayedManipulatorContactEndLoop c CurrTime
            (TMapSetTime Candidates Ev.Other CurrTime) (TMapRemove InContact Ev.Other) Rest
        else DelayedManipulatorContactEndLoop c CurrTime Candidates InContact Rest
      else DelayedManipulatorContactEndLoop c CurrTime Candidates InContact Rest
    else
      let r := DelayedManipulatorContactEndLoop c CurrTime Candidates InContact Rest
      (r.1, r.2.1, Ev :: r.2.2)

/-- Method `USLReachListener::DelayedManipulatorContactEndEventCallback`, called when
the one-shot delay timer fires. -/
def DelayedManipulatorContactEndEventCallback (c : FReachConstants) (s : USLReachListener)
    (w : FReachWorld) : USLReachListener :=
  let r := DelayedManipulatorContactEndLoop c w.TimeSeconds s.CandidatesWithTimeAndDistance
    s.ObjectsInContactWithManipulator s.RecentlyEndedManipulatorContactEvents
  { s with
    CandidatesWithTimeAndDistance := r.1, ObjectsInContactWithManipulator := r.2.1,
    RecentlyEndedManipulatorContactEvents := r.2.2,
    bManipulatorContactDelayTimerActive := decide (r.2.2.length > 0) }

end USLReachListener

/-- Signals, overlap callbacks and timer callbacks received by the reach listener, each
with the engine values read while it is handled.  The engine delivers overlap callbacks
only while they are bound and timer callbacks only while the timer runs; a sequence of
inputs may hold any input at any point. -/
inductive FReachInput where
  | OverlapBegin (w : FReachWorld) (OtherActor : UObject)
  | OverlapEnd (w : FReachWorld) (OtherActor : UObject)
  | Tick (w : FReachWorld)
  | ContactBegin (w : FReachWorld) (ContactResult : FSLContactResult)
  | ContactEnd (w : FReachWorld) (bWorldValid : Bool) (Self Other : FSLEntity) (Time : Int)
  | DelayedContactEnd (w : FReachWorld)
  | GraspBegin (w : FReachWorld) (Self : FSLEntity) (Other : UObject) (Time : Int)
      (GraspType : String)
  | GraspEnd (w : FReachWorld) (Self : FSLEntity) (Other : UObject) (Time : Int)

/-- Handling of one input by the reach listener: new state and broadcasts. -/
def FReachInput.apply (c : FReachConstants) (s : USLReachListener) :
    FReachInput → USLReachListener × List FPreGraspAndReachBroadcast
  | .OverlapBegin w OtherActor => (s.OnOverlapBegin w OtherActor, [])
  | .OverlapEnd w OtherActor => (s.OnOverlapEnd w OtherActor, [])
  | .Tick w => (s.ReachUpdate c w, [])
  | .ContactBegin w ContactResult => (s.OnSLManipulatorContactBegin c w ContactResult, [])
  | .ContactEnd w bWorldValid Self Other Time =>
    (s.OnSLManipulatorContactEnd w bWorldValid Self Other Time, [])
  | .DelayedContactEnd w => (s.DelayedManipulatorContactEndEventCallback c w, [])
  | .GraspBegin w Self Other Time GraspType => s.OnSLGraspBegin w Self Other Time GraspType
  | .GraspEnd w Self Other Time => (s.OnSLGraspEnd w Self Other Time, [])

/-- Handling of a sequence of inputs by the reach listener: final state and all
broadcasts, in order. -/
def FReachInput.run (c : FReachConstants) (s : USLReachListener) :
    List FReachInput → USLReachListener × List FPreGraspAndReachBroadcast
  | [] => (s, [])
  | i :: rest =>
    let r := FReachInput.apply c s i
    let r2 := FReachInput.run c r.1 rest
    (r2.1, r.2 ++ r2.2)

/-- The timestamps an input carries: the world time at which it is handled and, for a
contact or grasp signal, the time passed with the signal. -/
def FReachInput.Times : FReachInput → List Int
  | .OverlapBegin w _ => [w.TimeSeconds]
  | .OverlapEnd w _ => [w.TimeSeconds]
  | .Tick w => [w.TimeSeconds]
  | .ContactBegin w ContactResult => [w.TimeSeconds, ContactResult.Time]
  | .ContactEnd w _ _ _ Time => [w.TimeSeconds, Time]
  | .DelayedContactEnd w => [w.TimeSeconds]
  | .GraspBegin w _ _ Time _ => [w.TimeSeconds, Time]
  | .GraspEnd w _ _ Time => [w.TimeSeconds, Time]

/-- Non-decreasing timestamps: no timestamp of an input is earlier than a timestamp of
an input before it. -/
def FReachInput.NonDecreasing (inputs : List FReachInput) : Prop :=
  inputs.Pairwise (fun i j => ∀ a ∈ i.Times, ∀ b ∈ j.Times, a ≤ b)

/-- No reach start time of a candidate and no recorded contact time is later than `b`. -/
def USLReachListener.TimesBoundedBy (s : USLReachListener) (b : Int) : Prop :=
  (∀ x ∈ s.CandidatesWithTimeAndDistance, x.2.Time ≤ b) ∧
  (∀ y ∈ s.ObjectsInContactWithManipulator, y.2 ≤ b)

/-! ## Event data logger (`SLEventDataLogger.cpp`) -/

/-- Event base class `ISLEvent` (`Classes/EventData/ISLEvent.h`) with its three data
members; `End` is unset when the event was built by the constructor without end. -/
structure ISLEvent where
  Id : String
  Start : Int
  End : Option Int
  deriving DecidableEq, Repr

/-- State of `USLEventDataLogger`, with the two event arrays its methods use. -/
structure USLEventDataLogger where
  PendingEvents : List ISLEvent
  FinishedEvents : List ISLEvent
  deriving DecidableEq, Repr

namespace USLEventDataLogger

/-- Methods `USLEventDataLogger::OnSemanticContactEvent` and
`USLEventDataLogger::OnSemanticSupportedByEvent`: the event is added to the finished
events as it is. -/
def OnSemanticContactEvent (s : USLEventDataLogger) (Event : ISLEvent) : USLEventDataLogger :=
  { s with FinishedEvents := s.FinishedEvents ++ [Event] }

/-- The range-for loop of `FinishPendingEvents` over the pending events, started with
the finished events `Finished`: the finished events after the loop. -/
def FinishPendingEventsLoop (EndTime : Int) (Finished : List ISLEvent) :
    List ISLEvent → List ISLEvent
  | [] => Finished
  | PE :: Rest => FinishPendingEventsLoop EndTime (Finished ++ [{ PE with End := some EndTime }]) Rest

/-- Method `USLEventDataLogger::FinishPendingEvents`. -/
def FinishPendingEvents (s : USLEventDataLogger) (EndTime : Int) : USLEventDataLogger :=
  { s with
    FinishedEvents := FinishPendingEventsLoop EndTime s.FinishedEvents s.PendingEvents,
    PendingEvents := [] }

end USLEventDataLogger

/-- Whether the end of an event is set and not earlier than its start. -/
def ISLEvent.EndNotBeforeStart (e : ISLEvent) : Bool :=
  match e.End with
  | some en => decide (e.Start ≤ en)
  | none => false

/-- The update function that the listener assigns together with each machine state
(`OnSLGraspBegin`, `OnSLGraspEnd`, `FinishActiveEvent` and the update functions assign
`EventCheck` and `UpdateFunctionPtr` in pairs). -/
def UpdateFunctionOf : ESLPaPStateCheck → EPaPUpdateFunction
  | .NONE => .Update_NONE
  | .Slide => .Update_Slide
  | .PickUp => .Update_PickUp
  | .TransportOrPutDown => .Update_TransportOrPutDown

/-- State invariant of the pick-and-place listener: the grasped object is unset exactly
when the machine state is `NONE`, and the update function dispatched to is the one of
the machine state. -/
def USLPickAndPlaceListener.StateInvariant (s : USLPickAndPlaceListener) : Prop :=
  (s.CurrGraspedObj = none ↔ s.EventCheck = .NONE) ∧
  s.UpdateFunctionPtr = UpdateFunctionOf s.EventCheck

/-! ## Sample data for concrete instances -/

/-- Sample thresholds, of the integer values shown. -/
def SampleConstants : FPaPConstants :=
  { UpdateRate := F32.ofInt 1, MinSlideDistXY := F32.ofInt 5, MinSlideDuration := F32.ofInt 1,
    MinPickUpHeight := F32.ofInt 3, MaxPickUpHeight := F32.ofInt 10,
    MaxPickUpDistXY := F32.ofInt 10, MinPutDownHeight := F32.ofInt 2,
    MaxPutDownHeight := F32.ofInt 10, MaxPutDownDistXY := F32.ofInt 10,
    RecentMovementBufferSize := 64, RecentMovementBufferDuration := F32.ofInt 2,
    PutDownMovementBacktrackDuration := F32.ofInt 1 }

/-- Sample world: at time `Time` every actor is at `Loc` and owns one contact shape
component (id 0), which is supported by one surface when `bSupported`, and whose last
support ended at `SupportEnd`; times and coordinates are given by their integer
values. -/
def SampleWorld (Time : Int) (Loc : FVector) (bSupported : Bool) (SupportEnd : Int) : FWorld :=
  { TimeSeconds := F32.ofInt Time, ActorLocation := fun _ => FVector.ofInt Loc,
    Components := fun _ => [⟨0, true, true⟩],
    IsSupportedByPariIds := fun _ => if bSupported then [1] else [],
    LastSupportedByEndTime := fun _ => F32.ofInt SupportEnd }

/-- Sample semantic owner of the listener. -/
def SampleOwner : FSLEntity := ⟨⟨1⟩, "hand", "Hand"⟩

/-- Sample listener as constructed, initialized and started. -/
def SampleListener : USLPickAndPlaceListener :=
  (((USLPickAndPlaceListener.New
    { bIgnore := false, bIsInit := false, bIsStarted := false, bIsFinished := false,
      SemanticOwner := SampleOwner, CurrGraspedObj := none, GraspedObjectContactShape := none,
      EventCheck := .NONE, UpdateFunctionPtr := .Update_NONE,
      PrevRelevantLocation := ⟨0, 0, 0⟩, PrevRelevantTime := 0, bLiftOffHappened := false,
      LiftOffLocation := ⟨0, 0, 0⟩, RecentMovementBuffer := [],
      bUpdateTimerPaused := false }).Init SampleOwner true).2).Start true

/-- Sample listener holding object 7 (contact shape 0) in machine state `State`, with
anchors at time `Time` and location `Loc` (given by their integer values). -/
def SampleGrasping (State : ESLPaPStateCheck) (Fn : EPaPUpdateFunction) (Time : Int)
    (Loc : FVector) (bLiftOff : Bool) (LiftOff : FVector) : USLPickAndPlaceListener :=
  { SampleListener with
    CurrGraspedObj := some ⟨7⟩, GraspedObjectContactShape := some 0, EventCheck := State,
    UpdateFunctionPtr := Fn, PrevRelevantTime := F32.ofInt Time,
    PrevRelevantLocation := FVector.ofInt Loc, bLiftOffHappened := bLiftOff,
    LiftOffLocation := FVector.ofInt LiftOff, bUpdateTimerPaused := false }

/-- Sample thresholds for put-down detection: as `SampleConstants`, with a backtrack
window of 5 and a movement buffer window of 60. -/
def SamplePutDownConstants : FPaPConstants :=
  { SampleConstants with
    PutDownMovementBacktrackDuration := F32.ofInt 5,
    RecentMovementBufferDuration := F32.ofInt 60 }

/-- Sample run up to lift-off: object 7 is grasped at time 0 while supported at
`(60, 0, 0)`, loses support at time 1 without having moved, and is 4 higher at time 2,
where lift-off is recorded. -/
def SampleLiftOffRun : List FPaPInput :=
  [.GraspBegin (SampleWorld 0 ⟨60, 0, 0⟩ true 0) SampleOwner ⟨7⟩ (F32.ofInt 0) "power",
   .Tick (SampleWorld 1 ⟨60, 0, 0⟩ false 1),
   .Tick (SampleWorld 2 ⟨60, 0, 4⟩ false 1)]

/-- Sample run into transport: after `SampleLiftOffRun` the object is 16 above the
lift-off point at time 3, which ends the pick-up, and is then sampled, unsupported, at
the given times and locations. -/
def SampleTransportRun (Samples : List (Int × FVector)) : List FPaPInput :=
  SampleLiftOffRun ++ [.Tick (SampleWorld 3 ⟨60, 0, 20⟩ false 1)] ++
    Samples.map (fun S => .Tick (SampleWorld S.1 S.2 false 1))

/-- Sample movement buffer holding the samples of the given integer times and
coordinates. -/
def SampleBuffer (Samples : List (Int × FVector)) : List (Int × FVector) :=
  Samples.map (fun S => (F32.ofInt S.1, FVector.ofInt S.2))

/-- Sample listener transporting object 7 since time 3, with the movement buffer
`SampleBuffer Samples`. -/
def SampleTransporting (Samples : List (Int × FVector)) : USLPickAndPlaceListener :=
  { SampleGrasping .TransportOrPutDown .Update_TransportOrPutDown 3 ⟨0, 0, 20⟩ false ⟨0, 0, 4⟩
    with RecentMovementBuffer := SampleBuffer Samples }

/-- Whether the recently-ended records hold one for `O` that is older than
`MaxPreGraspEventTimeGap` at time `CurrTime`. -/
def HasExpiredRecord (c : FReachConstants) (CurrTime : Int) (Records : List FSLContactEndEvent)
    (O : UObject) : Bool :=
  Records.any (fun Ev =>
    decide (F32.Sub CurrTime Ev.Time > c.MaxPreGraspEventTimeGap) && decide (Ev.Other = O))

/-- Sample thresholds of the reach listener. -/
def SampleReachConstants : FReachConstants :=
  { UpdateRate := F32.ofInt 1, MinDist := F32.ofInt 2,
    MaxPreGraspEventTimeGap := F32.ofInt 10 }

/-- Sample world of the reach listener: at time `Time` every actor is an annotated
static mesh actor at distance `Dist` from the owner, and nothing overlaps the sphere;
time and distance are given by their integer values. -/
def SampleReachWorld (Time : Int) (Dist : Int) : FReachWorld :=
  { TimeSeconds := F32.ofInt Time, IsStaticMeshActor := fun _ => true,
    IsObjectEntitySet := fun _ => true, DistanceToOwner := fun _ => F32.ofInt Dist,
    OverlappingActors := [] }

/-- Sample reach listener as constructed, initialized and started at time 0. -/
def SampleReachListener : USLReachListener :=
  (((USLReachListener.New
    { bIsInit := false, bIsStarted := false, bIsFinished := false, bCallbacksAreBound := false,
      SemanticOwner := SampleOwner, CurrGraspedObj := none,
      CandidatesWithTimeAndDistance := [], ObjectsInContactWithManipulator := [],
      RecentlyEndedManipulatorContactEvents := [], bUpdateTimerPaused := false,
      bManipulatorContactDelayTimerActive := false }).Init SampleOwner true true).2).Start
    (SampleReachWorld 0 0)

/-- Sample entity of the object the hand reaches for. -/
def SampleCup : FSLEntity := ⟨⟨7⟩, "cup", "Cup"⟩

/-- Sample reach listener in which the cup (object 7) became a candidate at time 0 at
distance 20 and has been in contact with the hand since time 1. -/
def SampleReachInContact : USLReachListener :=
  (SampleReachListener.OnOverlapBegin (SampleReachWorld 0 20) ⟨7⟩).OnSLManipulatorContactBegin
    SampleReachConstants (SampleReachWorld 1 5) ⟨SampleCup, F32.ofInt 1⟩

/-- Sample reach listener after the contact with the cup ended at time 2, began again
at time 12 (too late to be concatenated) and ended again at time 13. -/
def SampleReachTwoContacts : USLReachListener :=
  (((SampleReachInContact.OnSLManipulatorContactEnd (SampleReachWorld 2 5) true SampleOwner
      SampleCup (F32.ofInt 2)).OnSLManipulatorContactBegin SampleReachConstants
      (SampleReachWorld 12 5) ⟨SampleCup, F32.ofInt 12⟩).OnSLManipulatorContactEnd
      (SampleReachWorld 13 5) true SampleOwner SampleCup (F32.ofInt 13))

/-- Sample grasp event handler: started, minimum duration 2, with an open grasp of the
cup (object 7) begun at time 1 and an open grasp of the pot (object 9) begun at time 3. -/
def SampleGraspHandler : FSLGraspEventHandler :=
  { bIsInit := true, bIsStarted := true, bIsFinished := false, GraspEventMin := F32.ofInt 2,
    StartedEvents :=
      [{ Id := "a", Start := F32.ofInt 1, End := none, PairId := 0,
         Manipulator := ⟨⟨1⟩, "hand", "Hand"⟩, Item := ⟨⟨7⟩, "cup", "Cup"⟩,
         GraspType := "power" },
       { Id := "b", Start := F32.ofInt 3, End := none, PairId := 0,
         Manipulator := ⟨⟨1⟩, "hand", "Hand"⟩, Item := ⟨⟨9⟩, "pot", "Pot"⟩,
         GraspType := "power" }] }

/-- Sample movement samples: the object sampled at times 4, 5 and 6. -/
def SampleWindowBuffer : List (Int × FVector) :=
  [(4, ⟨0, 0, 20⟩), (5, ⟨0, 0, 20⟩), (6, ⟨0, 0, 20⟩)]

/-- Sample run of the reach listener: the cup (object 7) enters the reach sphere at
time 0 at distance 20, is found at distance 10 by the polling tick at time 1, touches
the hand at time 5, is found at distance 13 by the polling tick at time 7, and is
grasped at time 8. -/
def SampleReachRun : List FReachInput :=
  [.OverlapBegin (SampleReachWorld 0 20) ⟨7⟩, .Tick (SampleReachWorld 1 10),
   .ContactBegin (SampleReachWorld 5 10) ⟨SampleCup, F32.ofInt 5⟩,
   .Tick (SampleReachWorld 7 13),
   .GraspBegin (SampleReachWorld 8 13) SampleOwner ⟨7⟩ (F32.ofInt 8) "power"]

/-! ## Lemmas on single-precision arithmetic -/

namespace F32

theorem ShiftFor_spec (Fuel N k : Nat) (h : N >>> (k + Fuel) < 2 ^ 24) :
    k ≤ ShiftFor Fuel N k ∧ N >>> (ShiftFor Fuel N k) < 2 ^ 24 ∧
    ∀ j, k ≤ j → j < ShiftFor Fuel N k → 2 ^ 24 ≤ N >>> j := by
  induction Fuel generalizing k with
  | zero =>
    refine ⟨le_refl _, by simpa [ShiftFor] using h, ?_⟩
    intro j h1 h2
    simp only [ShiftFor] at h2
    omega
  | succ Fuel ih =>
    by_cases hk : N >>> k < 2 ^ 24
    · have e : ShiftFor (Fuel + 1) N k = k := by
        simp only [ShiftFor]
        exact if_pos hk
      rw [e]
      refine ⟨le_refl _, hk, ?_⟩
      intro j h1 h2
      omega
    · have e : ShiftFor (Fuel + 1) N k = ShiftFor Fuel N (k + 1) := by
        simp only [ShiftFor]
        exact if_neg hk
      rw [e]
      have h2 : N >>> (k + 1 + Fuel) < 2 ^ 24 := by
        have : k + 1 + Fuel = k + (Fuel + 1) := by omega
        rw [this]
        exact h
      obtain ⟨h3, h4, h5⟩ := ih (k + 1) h2
      refine ⟨by omega, h4, ?_⟩
      intro j hj1 hj2
      by_cases hjk : j = k
      · subst hjk
        omega
      · exact h5 j (by omega) hj2

theorem ShiftFor_self (N s : Nat) :
    s ≤ ShiftFor N N s ∧ N / 2 ^ (ShiftFor N N s) < 2 ^ 24 ∧
    ∀ j, s ≤ j → j < ShiftFor N N s → 2 ^ 24 ≤ N / 2 ^ j := by
  have h : N >>> (s + N) < 2 ^ 24 := by
    rw [Nat.shiftRight_eq_div_pow]
    have h1 : N < 2 ^ (s + N) :=
      lt_of_lt_of_le (Nat.lt_two_pow N) (Nat.pow_le_pow_right (by norm_num) (by omega))
    rw [Nat.div_eq_of_lt h1]
    norm_num
  have := ShiftFor_spec N N s h
  simpa [Nat.shiftRight_eq_div_pow] using this

theorem RoundScaled_eq (N s : Nat) :
    RoundScaled N s = min Infinity (Nearest N (ShiftFor N N s) s) := by
  have hr : N - (N / 2 ^ ShiftFor N N s) * 2 ^ ShiftFor N N s = N % 2 ^ ShiftFor N N s := by
    have := Nat.div_add_mod N (2 ^ ShiftFor N N s)
    have h2 : N / 2 ^ ShiftFor N N s * 2 ^ ShiftFor N N s =
        2 ^ ShiftFor N N s * (N / 2 ^ ShiftFor N N s) :=
      Nat.mul_comm _ _
    omega
  simp only [RoundScaled, Nearest, Nat.shiftRight_eq_div_pow, Nat.shiftLeft_eq, one_mul, hr]
  split_ifs <;> omega

theorem Nearest_mono_same (N N2 k s : Nat) (h : N ≤ N2) : Nearest N k s ≤ Nearest N2 k s := by
  unfold Nearest
  apply Nat.mul_le_mul_right
  have hq : N / 2 ^ k ≤ N2 / 2 ^ k := Nat.div_le_div_right h
  have hp : 0 < 2 ^ k := Nat.pos_pow_of_pos _ (by norm_num)
  rcases Nat.lt_or_eq_of_le hq with hlt | heq
  · split_ifs <;> omega
  · have hmod : N % 2 ^ k ≤ N2 % 2 ^ k := by
      have h1 := Nat.div_add_mod N (2 ^ k)
      have h2 := Nat.div_add_mod N2 (2 ^ k)
      rw [heq] at h1
      omega
    rw [heq]
    split_ifs with h1 h2 h2 <;> omega

theorem Nearest_le (N k s : Nat) (hq : N / 2 ^ k < 2 ^ 24) :
    Nearest N k s ≤ 2 ^ (24 + (k - s)) := by
  unfold Nearest
  rw [pow_add]
  apply Nat.mul_le_mul_right
  split_ifs <;> omega

theorem Nearest_ge (N k s : Nat) (hq : 2 ^ 23 ≤ N / 2 ^ k) :
    2 ^ (23 + (k - s)) ≤ Nearest N k s := by
  unfold Nearest
  rw [pow_add]
  apply Nat.mul_le_mul_right
  split_ifs <;> omega

theorem RoundScaled_mono (N N2 s : Nat) (h : N ≤ N2) : RoundScaled N s ≤ RoundScaled N2 s := by
  rw [RoundScaled_eq, RoundScaled_eq]
  apply min_le_min (le_refl _)
  obtain ⟨hs1, hq1, hmin1⟩ := ShiftFor_self N s
  obtain ⟨hs2, hq2, hmin2⟩ := ShiftFor_self N2 s
  have hk : ShiftFor N N s ≤ ShiftFor N2 N2 s := by
    by_contra hcon
    have h1 := hmin1 (ShiftFor N2 N2 s) hs2 (by omega)
    have h2 : N / 2 ^ ShiftFor N2 N2 s ≤ N2 / 2 ^ ShiftFor N2 N2 s := Nat.div_le_div_right h
    omega
  rcases Nat.lt_or_eq_of_le hk with hlt | heq
  · have hbig := hmin2 (ShiftFor N2 N2 s - 1) (by omega) (by omega)
    have hq : 2 ^ 23 ≤ N2 / 2 ^ ShiftFor N2 N2 s := by
      have hsplit : 2 ^ ShiftFor N2 N2 s = 2 ^ (ShiftFor N2 N2 s - 1) * 2 := by
        rw [← pow_succ]
        congr 1
        omega
      rw [hsplit, ← Nat.div_div_eq_div_mul]
      omega
    calc Nearest N (ShiftFor N N s) s ≤ 2 ^ (24 + (ShiftFor N N s - s)) := Nearest_le _ _ _ hq1
      _ ≤ 2 ^ (23 + (ShiftFor N2 N2 s - s)) := Nat.pow_le_pow_right (by norm_num) (by omega)
      _ ≤ Nearest N2 (ShiftFor N2 N2 s) s := Nearest_ge _ _ _ hq
  · rw [heq]
    exact Nearest_mono_same N N2 _ s h

theorem Round_mono (x y : Int) (h : x ≤ y) : Round x ≤ Round y := by
  unfold Round
  by_cases hx : 0 ≤ x
  · have hy : 0 ≤ y := le_trans hx h
    simp only [hx, hy, if_true]
    exact_mod_cast RoundScaled_mono _ _ 0 (Int.toNat_le_toNat h)
  · by_cases hy : 0 ≤ y
    · simp only [hx, hy, if_true, if_false]
      have h1 : (0 : Int) ≤ (RoundScaled (-x).toNat 0 : Nat) := Int.ofNat_nonneg _
      have h2 : (0 : Int) ≤ (RoundScaled y.toNat 0 : Nat) := Int.ofNat_nonneg _
      omega
    · simp only [hx, hy, if_false]
      have := RoundScaled_mono (-y).toNat (-x).toNat 0 (Int.toNat_le_toNat (by omega))
      have h3 : ((RoundScaled (-y).toNat 0 : Nat) : Int) ≤ (RoundScaled (-x).toNat 0 : Nat) := by
        exact_mod_cast this
      omega

theorem Round_zero : Round 0 = 0 := by decide

theorem Sub_self (a : Int) : Sub a a = 0 := by
  unfold Sub
  rw [sub_self]
  exact Round_zero

theorem Sub_mono_left (a b c : Int) (h : a ≤ b) : Sub a c ≤ Sub b c :=
  Round_mono _ _ (by omega)

theorem Sub_anti_right (a b c : Int) (h : b ≤ c) : Sub a c ≤ Sub a b :=
  Round_mono _ _ (by omega)

theorem Sub_nonpos (a b : Int) (h : a ≤ b) : Sub a b ≤ 0 := by
  have := Round_mono (a - b) 0 (by omega)
  rwa [Round_zero] at this

theorem Sub_nonneg (a b : Int) (h : b ≤ a) : 0 ≤ Sub a b := by
  have := Round_mono 0 (a - b) (by omega)
  rwa [Round_zero] at this

theorem lt_of_Sub_pos (a b : Int) (h : 0 < Sub a b) : b < a := by
  by_contra hcon
  have := Sub_nonpos a b (by omega)
  omega

theorem HalfBits_spec (Fuel M b : Nat) (h : M < 2 ^ (2 * (b + Fuel))) :
    M < 2 ^ (2 * HalfBits Fuel M b) := by
  induction Fuel generalizing b with
  | zero => simpa [HalfBits] using h
  | succ Fuel ih =>
    by_cases hb : M >>> (2 * b) = 0
    · have e : HalfBits (Fuel + 1) M b = b := by
        simp only [HalfBits]
        exact if_pos hb
      rw [e]
      rw [Nat.shiftRight_eq_div_pow] at hb
      exact (Nat.div_eq_zero_iff (Nat.pos_pow_of_pos _ (by norm_num))).mp hb
    · have e : HalfBits (Fuel + 1) M b = HalfBits Fuel M (b + 1) := by
        simp only [HalfBits]
        exact if_neg hb
      rw [e]
      apply ih
      have : b + 1 + Fuel = b + (Fuel + 1) := by omega
      rw [this]
      exact h

theorem ISqrtLoop_spec (i M acc : Nat) (hlo : acc * acc ≤ M)
    (hhi : M < (acc + 2 ^ i) * (acc + 2 ^ i)) :
    ISqrtLoop i M acc * ISqrtLoop i M acc ≤ M ∧
    M < (ISqrtLoop i M acc + 1) * (ISqrtLoop i M acc + 1) := by
  induction i generalizing acc with
  | zero => simpa [ISqrtLoop] using ⟨hlo, hhi⟩
  | succ i ih =>
    have hsh : 1 <<< i = 2 ^ i := by rw [Nat.shiftLeft_eq, one_mul]
    by_cases hc : (acc + 1 <<< i) * (acc + 1 <<< i) ≤ M
    · have e : ISqrtLoop (i + 1) M acc = ISqrtLoop i M (acc + 1 <<< i) := by
        simp only [ISqrtLoop]
        exact if_pos hc
      rw [e]
      apply ih
      · exact hc
      · rw [hsh]
        have : acc + 2 ^ i + 2 ^ i = acc + 2 ^ (i + 1) := by rw [pow_succ]; omega
        rw [this]
        exact hhi
    · have e : ISqrtLoop (i + 1) M acc = ISqrtLoop i M acc := by
        simp only [ISqrtLoop]
        exact if_neg hc
      rw [e]
      apply ih
      · exact hlo
      · rw [hsh] at hc
        omega

/-- The integer square root is the floor of the square root. -/
theorem ISqrt_spec (M : Nat) :
    ISqrt M * ISqrt M ≤ M ∧ M < (ISqrt M + 1) * (ISqrt M + 1) := by
  unfold ISqrt
  apply ISqrtLoop_spec
  · simp
  · have h := HalfBits_spec M M 0 (by
      have h1 : M < 2 ^ M := Nat.lt_two_pow M
      have h2 : 2 ^ M ≤ 2 ^ (2 * (0 + M)) := Nat.pow_le_pow_right (by norm_num) (by omega)
      omega)
    rw [Nat.zero_add, ← pow_add]
    have : HalfBits M M 0 + HalfBits M M 0 = 2 * HalfBits M M 0 := by omega
    rw [this]
    exact h

/-- A difference from zero of a value that is a `float` is the value itself. -/
theorem Sub_zero (t : Int) (ht : Round t = t) : Sub t 0 = t := by
  unfold Sub
  rw [sub_zero]
  exact ht

/-- Integers below `2 ^ 24` units are `float`s (the subnormal range is exact). -/
theorem Round_small (x : Int) (hlo : -(2 ^ 24) < x) (hhi : x < 2 ^ 24) : Round x = x := by
  have key : ∀ N : Nat, N < 2 ^ 24 → RoundScaled N 0 = N := by
    intro N hN
    obtain ⟨_, _, hmin⟩ := ShiftFor_self N 0
    have hk : ShiftFor N N 0 = 0 := by
      by_contra hne
      have := hmin 0 (le_refl _) (Nat.pos_of_ne_zero hne)
      simp at this
      omega
    rw [RoundScaled_eq, hk]
    have hinf : N < Infinity := by
      unfold Infinity
      have : (2 : Nat) ^ 24 ≤ 2 ^ 128 * 2 ^ 149 := by norm_num
      omega
    simp [Nearest, Nat.mod_one]
    omega
  unfold Round
  by_cases hx : 0 ≤ x
  · simp only [hx, if_true]
    rw [key x.toNat (by omega)]
    omega
  · simp only [hx, if_false]
    rw [key (-x).toNat (by omega)]
    omega

end F32

set_option maxRecDepth 8000 in
/-- Sample evaluations of the single-precision operations. Near `2 ^ 24` the spacing of the
values is `2`, so `16777216 - (-1)` and `16777218 - 1` both give `16777216` and
`16777220 - 1` gives `16777220`; `0.35000002 - 0.10000001` gives `0.25`; a product below half
of the smallest positive value is `0`; a difference beyond the largest value is infinite;
the distance in the plane from the origin to `(4096, 1)` is `4096`. -/
theorem F32_sample_roundings :
    F32.Sub (F32.ofInt 16777216) (F32.ofInt (-1)) = F32.ofInt 16777216 ∧
    F32.Sub (F32.ofInt 16777218) (F32.ofInt 1) = F32.ofInt 16777216 ∧
    F32.Sub (F32.ofInt 16777220) (F32.ofInt 1) = F32.ofInt 16777220 ∧
    F32.Sub (11744052 * 2 ^ 124) (13421774 * 2 ^ 122) = 2 ^ 147 ∧
    F32.Mul (F32.ofInt 4097) (F32.ofInt 4097) = F32.ofInt 16785408 ∧
    F32.Mul (2 ^ 74) (2 ^ 74) = 0 ∧ F32.Mul (3 * 2 ^ 74) (2 ^ 74) = 2 ∧
    F32.Sub (F32.ofInt (2 ^ 127)) (F32.ofInt (-(2 ^ 127))) = F32.Infinity ∧
    F32.Sqrt (F32.ofInt 2) = 11863283 * 2 ^ 126 ∧
    FVector.DistXY (FVector.ofInt ⟨0, 0, 0⟩) (FVector.ofInt ⟨4096, 1, 0⟩) = F32.ofInt 4096 ∧
    FVector.DistXY (FVector.ofInt ⟨0, 0, 0⟩) (FVector.ofInt ⟨3, 4, 0⟩) = F32.ofInt 5 := by
  decide

/-! ## Lemmas on the grasp event handler -/

theorem FinishEventLoop_no_match (m : Int) (o : UObject) (t : Int) (l : List FSLGraspEvent)
    (hl : ∀ x ∈ l, x.Item.Obj ≠ o) :
    FSLGraspEventHandler.FinishEventLoop m o t l = (false, l, []) := by
  induction l with
  | nil => rfl
  | cons a l ih =>
    have ha : a.Item.Obj ≠ o := hl a (List.mem_cons_self _ _)
    have hr := ih (fun x hx => hl x (List.mem_cons_of_mem _ hx))
    simp [FSLGraspEventHandler.FinishEventLoop, ha, hr]

theorem FinishEventLoop_first_match (m : Int) (o : UObject) (t : Int)
    (pre post : List FSLGraspEvent) (e : FSLGraspEvent)
    (hpre : ∀ x ∈ pre, x.Item.Obj ≠ o) (he : e.Item.Obj = o) :
    FSLGraspEventHandler.FinishEventLoop m o t (pre ++ e :: post) =
      (true, pre ++ post, if F32.Sub t e.Start > m then [{ e with End := some t }] else []) := by
  induction pre with
  | nil => simp [FSLGraspEventHandler.FinishEventLoop, he]
  | cons a pre ih =>
    have ha : a.Item.Obj ≠ o := hpre a (List.mem_cons_self _ _)
    have hr := ih (fun x hx => hpre x (List.mem_cons_of_mem _ hx))
    simp [FSLGraspEventHandler.FinishEventLoop, ha, hr]

/-- Every list either has no event for `o`, or splits at the first event for `o`. -/
theorem first_match_split (o : UObject) (l : List FSLGraspEvent) :
    (∀ x ∈ l, x.Item.Obj ≠ o) ∨
    ∃ pre e post, l = pre ++ e :: post ∧ (∀ x ∈ pre, x.Item.Obj ≠ o) ∧ e.Item.Obj = o := by
  induction l with
  | nil => left; simp
  | cons a l ih =>
    by_cases ha : a.Item.Obj = o
    · right; exact ⟨[], a, l, rfl, by simp, ha⟩
    · rcases ih with h | ⟨pre, e, post, hl, hpre, he⟩
      · left
        intro x hx
        rcases List.mem_cons.mp hx with rfl | hx
        · exact ha
        · exact h x hx
      · right
        refine ⟨a :: pre, e, post, by simp [hl], ?_, he⟩
        intro x hx
        rcases List.mem_cons.mp hx with rfl | hx
        · exact ha
        · exact hpre x hx

theorem AddNewEvents_flags (begins : List (FSLEntity × FSLEntity × Int × String × String))
    (h : FSLGraspEventHandler) :
    (AddNewEvents h begins).bIsInit = h.bIsInit ∧
    (AddNewEvents h begins).bIsStarted = h.bIsStarted ∧
    (AddNewEvents h begins).bIsFinished = h.bIsFinished := by
  induction begins generalizing h with
  | nil => simp [AddNewEvents]
  | cons a rest ih =>
    have hr := ih (h.AddNewEvent a.1 a.2.1 a.2.2.1 a.2.2.2.1 a.2.2.2.2)
    simpa [AddNewEvents, FSLGraspEventHandler.AddNewEvent] using hr

theorem PairEncodeCantor_comm (X Y : Nat) : PairEncodeCantor X Y = PairEncodeCantor Y X := by
  simp only [PairEncodeCantor, min_comm (X % 2 ^ 32) (Y % 2 ^ 32),
    max_comm (X % 2 ^ 32) (Y % 2 ^ 32)]

theorem nodup_of_subperm {l₁ l₂ : List String} (hs : l₁.Subperm l₂) (hn : l₂.Nodup) :
    l₁.Nodup := by
  obtain ⟨l, hp, hsub⟩ := hs
  exact hp.nodup_iff.mp (hn.sublist hsub)

theorem FinishEventLoop_ids (m : Int) (o : UObject) (t : Int) (l : List FSLGraspEvent) :
    (GraspIds (FSLGraspEventHandler.FinishEventLoop m o t l).2.2 ++
      GraspIds (FSLGraspEventHandler.FinishEventLoop m o t l).2.1).Subperm (GraspIds l) := by
  rcases first_match_split o l with hno | ⟨pre, e, post, hl, hpre, he⟩
  · rw [FinishEventLoop_no_match m o t l hno]
    simpa [GraspIds] using List.Subperm.refl _
  · rw [hl, FinishEventLoop_first_match m o t pre post e hpre he]
    by_cases hgt : F32.Sub t e.Start > m
    · simp only [hgt, if_true, GraspIds, List.map_append, List.map_cons, List.map_nil,
        List.singleton_append]
      exact (List.perm_middle.symm).subperm
    · simp only [hgt, if_false, GraspIds, List.map_append, List.map_cons, List.map_nil,
        List.nil_append]
      exact (List.Sublist.append_left (List.sublist_cons_self _ _) _).subperm

theorem FinishAllEventsLoop_ids (m : Int) (t : Int) (l : List FSLGraspEvent) :
    (GraspIds (FSLGraspEventHandler.FinishAllEventsLoop m t l)).Sublist (GraspIds l) := by
  induction l with
  | nil => simp [FSLGraspEventHandler.FinishAllEventsLoop, GraspIds]
  | cons a l ih =>
    by_cases hgt : F32.Sub t a.Start > m
    · simp only [FSLGraspEventHandler.FinishAllEventsLoop, hgt, if_true, GraspIds,
        List.map_cons]
      exact List.Sublist.cons₂ _ ih
    · simp only [FSLGraspEventHandler.FinishAllEventsLoop, hgt, if_false, GraspIds,
        List.map_cons]
      exact List.Sublist.cons _ ih

theorem GraspOp_apply_ids (h : FSLGraspEventHandler) (op : GraspOp) (rest : List GraspOp) :
    (GraspIds (GraspOp.apply h op).2 ++
      (GraspIds (GraspOp.apply h op).1.StartedEvents ++ GraspOp.guids rest)).Subperm
      (GraspIds h.StartedEvents ++ GraspOp.guids (op :: rest)) := by
  cases op with
  | AddNewEvent Self Other StartTime InType Guid =>
    simp only [GraspOp.apply, GraspOp.guids, FSLGraspEventHandler.AddNewEvent, GraspIds,
      List.map_append, List.map_cons, List.map_nil, List.nil_append, List.append_assoc,
      List.singleton_append]
    exact List.Subperm.refl _
  | FinishEvent Other EndTime =>
    simp only [GraspOp.apply, GraspOp.guids, FSLGraspEventHandler.FinishEvent]
    rw [← List.append_assoc]
    exact (List.subperm_append_right _).mpr (FinishEventLoop_ids _ _ _ _)
  | FinishAllEvents EndTime =>
    simp only [GraspOp.apply, GraspOp.guids, FSLGraspEventHandler.FinishAllEvents, GraspIds,
      List.map_nil, List.nil_append]
    exact ((FinishAllEventsLoop_ids _ _ _).append (List.Sublist.refl _)).subperm

theorem GraspOp_run_ids (ops : List GraspOp) (h : FSLGraspEventHandler) :
    (GraspIds (GraspOp.run h ops).2 ++ GraspIds (GraspOp.run h ops).1.StartedEvents).Subperm
      (GraspIds h.StartedEvents ++ GraspOp.guids ops) := by
  induction ops generalizing h with
  | nil => simpa [GraspOp.run, GraspOp.guids, GraspIds] using List.Subperm.refl _
  | cons op rest ih =>
    have hstep := GraspOp_apply_ids h op rest
    have hrest := ih (GraspOp.apply h op).1
    have hmid := (List.subperm_append_left (GraspIds (GraspOp.apply h op).2)).mpr hrest
    have hall := hmid.trans hstep
    simpa [GraspOp.run, GraspIds, List.map_append, List.append_assoc] using hall

theorem GraspOp_guids_append (a b : List GraspOp) :
    GraspOp.guids (a ++ b) = GraspOp.guids a ++ GraspOp.guids b := by
  induction a with
  | nil => rfl
  | cons op rest ih => cases op <;> simp [GraspOp.guids, ih]

/-- The loop of `FinishAllEvents` publishes the open events that pass the duration
check, in list order, each with its end time set. -/
theorem FinishAllEventsLoop_eq_filter_map (m : Int) (t : Int) (l : List FSLGraspEvent) :
    FSLGraspEventHandler.FinishAllEventsLoop m t l =
      (l.filter (fun e => decide (F32.Sub t e.Start > m))).map
        (fun e => { e with End := some t }) := by
  induction l with
  | nil => rfl
  | cons a l ih =>
    by_cases hgt : F32.Sub t a.Start > m
    · simp [FSLGraspEventHandler.FinishAllEventsLoop, hgt, ih]
    · simp [FSLGraspEventHandler.FinishAllEventsLoop, hgt, ih]

/-- Whatever the loop of `FinishEvent` publishes is an open event that passed the
duration check, with its end time set. -/
theorem FinishEventLoop_published (m : Int) (o : UObject) (t : Int) (l : List FSLGraspEvent)
    (e : FSLGraspEvent) (he : e ∈ (FSLGraspEventHandler.FinishEventLoop m o t l).2.2) :
    ∃ ev ∈ l, F32.Sub t ev.Start > m ∧ e = { ev with End := some t } := by
  rcases first_match_split o l with hno | ⟨pre, x, post, hl, hpre, hx⟩
  · rw [FinishEventLoop_no_match m o t l hno] at he
    simp at he
  · rw [hl, FinishEventLoop_first_match m o t pre post x hpre hx] at he
    by_cases hgt : F32.Sub t x.Start > m
    · simp only [hgt, if_true, List.mem_singleton] at he
      exact ⟨x, by simp [hl], hgt, he⟩
    · simp [hgt] at he

/-! ## Lemmas on the pick-and-place listener -/

/-- Grasp-begin for an object with a supported contact shape, no object being grasped. -/
theorem OnSLGraspBegin_supported (s : USLPickAndPlaceListener) (w : FWorld) (Self : FSLEntity)
    (O : UObject) (Time : Int) (GraspType : String) (CSI : Nat)
    (hfree : s.CurrGraspedObj = none)
    (hcsi : USLPickAndPlaceListener.GetContactShapeComponent w (some O) = some CSI)
    (hsup : w.IsSupportedBySomething CSI = true) :
    s.OnSLGraspBegin w Self O Time GraspType =
      { s with CurrGraspedObj := some O, GraspedObjectContactShape := some CSI,
               PrevRelevantLocation := w.ActorLocation O,
               PrevRelevantTime := w.TimeSeconds, EventCheck := .Slide,
               UpdateFunctionPtr := .Update_Slide, bUpdateTimerPaused := false } := by
  cases hp : s.bUpdateTimerPaused <;>
    simp [USLPickAndPlaceListener.OnSLGraspBegin, hfree, hcsi, hsup, hp]

/-- A tick in `Slide` while the object is still supported changes nothing. -/
theorem Update_Slide_supported (c : FPaPConstants) (s : USLPickAndPlaceListener) (w : FWorld)
    (Obj : UObject) (CSI : Nat) (hptr : s.UpdateFunctionPtr = .Update_Slide)
    (hobj : s.CurrGraspedObj = some Obj) (hcsi : s.GraspedObjectContactShape = some CSI)
    (hsup : w.IsSupportedBySomething CSI = true) :
    s.Update c w = some (s, []) := by
  simp [USLPickAndPlaceListener.Update, USLPickAndPlaceListener.Update_Slide, hptr, hobj, hcsi,
    hsup]

/-- A tick in `Slide` on which support is lost with too little drift for a Slide event. -/
theorem Update_Slide_unsupported_no_drift (c : FPaPConstants) (s : USLPickAndPlaceListener)
    (w : FWorld) (Obj : UObject) (CSI : Nat) (hptr : s.UpdateFunctionPtr = .Update_Slide)
    (hobj : s.CurrGraspedObj = some Obj) (hcsi : s.GraspedObjectContactShape = some CSI)
    (hunsup : w.IsSupportedBySomething CSI = false)
    (hdrift : FVector.DistXYGreater s.PrevRelevantLocation (w.ActorLocation Obj)
      c.MinSlideDistXY = false) :
    s.Update c w = some ({ s with bLiftOffHappened := false, EventCheck := .PickUp,
                                  UpdateFunctionPtr := .Update_PickUp }, []) := by
  simp [USLPickAndPlaceListener.Update, USLPickAndPlaceListener.Update_Slide, hptr, hobj, hcsi,
    hunsup, hdrift]

/-- A tick in `PickUp` before lift-off on which nothing happens: the object is
unsupported, has not risen above `MinPickUpHeight`, and the skip test fails. -/
theorem Update_PickUp_before_liftoff (c : FPaPConstants) (s : USLPickAndPlaceListener)
    (w : FWorld) (Obj : UObject) (CSI : Nat) (hptr : s.UpdateFunctionPtr = .Update_PickUp)
    (hobj : s.CurrGraspedObj = some Obj) (hcsi : s.GraspedObjectContactShape = some CSI)
    (hunsup : w.IsSupportedBySomething CSI = false) (hlift : s.bLiftOffHappened = false)
    (hrise : ¬ F32.Sub (w.ActorLocation Obj).Z s.PrevRelevantLocation.Z > c.MinPickUpHeight)
    (hskip : FVector.DistXYGreater s.LiftOffLocation s.PrevRelevantLocation
      c.MaxPickUpDistXY = false) :
    s.Update c w = some (s, []) := by
  simp [USLPickAndPlaceListener.Update, USLPickAndPlaceListener.Update_PickUp, hptr, hobj, hcsi,
    hunsup, hlift, hrise, hskip]

/-- The tick in `PickUp` that records lift-off. -/
theorem Update_PickUp_liftoff (c : FPaPConstants) (s : USLPickAndPlaceListener)
    (w : FWorld) (Obj : UObject) (CSI : Nat) (hptr : s.UpdateFunctionPtr = .Update_PickUp)
    (hobj : s.CurrGraspedObj = some Obj) (hcsi : s.GraspedObjectContactShape = some CSI)
    (hunsup : w.IsSupportedBySomething CSI = false) (hlift : s.bLiftOffHappened = false)
    (hrise : F32.Sub (w.ActorLocation Obj).Z s.PrevRelevantLocation.Z > c.MinPickUpHeight) :
    s.Update c w = some ({ s with bLiftOffHappened := true,
                                  LiftOffLocation := w.ActorLocation Obj }, []) := by
  simp [USLPickAndPlaceListener.Update, USLPickAndPlaceListener.Update_PickUp, hptr, hobj, hcsi,
    hunsup, hlift, hrise]

/-- A tick in `PickUp` after lift-off on which the object stays within both limits. -/
theorem Update_PickUp_within_limits (c : FPaPConstants) (s : USLPickAndPlaceListener)
    (w : FWorld) (Obj : UObject) (CSI : Nat) (hptr : s.UpdateFunctionPtr = .Update_PickUp)
    (hobj : s.CurrGraspedObj = some Obj) (hcsi : s.GraspedObjectContactShape = some CSI)
    (hunsup : w.IsSupportedBySomething CSI = false) (hlift : s.bLiftOffHappened = true)
    (hrise : ¬ F32.Sub (w.ActorLocation Obj).Z s.LiftOffLocation.Z > c.MaxPickUpHeight)
    (hdist : FVector.DistXYGreater s.LiftOffLocation (w.ActorLocation Obj)
      c.MaxPickUpDistXY = false) :
    s.Update c w = some (s, []) := by
  simp [USLPickAndPlaceListener.Update, USLPickAndPlaceListener.Update_PickUp, hptr, hobj, hcsi,
    hunsup, hlift, hrise, hdist]

/-- The tick in `PickUp` after lift-off on which the object rises above the limit. -/
theorem Update_PickUp_rise (c : FPaPConstants) (s : USLPickAndPlaceListener)
    (w : FWorld) (Obj : UObject) (CSI : Nat) (hptr : s.UpdateFunctionPtr = .Update_PickUp)
    (hobj : s.CurrGraspedObj = some Obj) (hcsi : s.GraspedObjectContactShape = some CSI)
    (hunsup : w.IsSupportedBySomething CSI = false) (hlift : s.bLiftOffHappened = true)
    (hrise : F32.Sub (w.ActorLocation Obj).Z s.LiftOffLocation.Z > c.MaxPickUpHeight) :
    s.Update c w =
      some ({ s with bLiftOffHappened := false, PrevRelevantTime := w.TimeSeconds,
                     PrevRelevantLocation := w.ActorLocation Obj,
                     EventCheck := .TransportOrPutDown,
                     UpdateFunctionPtr := .Update_TransportOrPutDown },
        [⟨.OnManipulatorPickUpEvent, s.SemanticOwner, some Obj, s.PrevRelevantTime,
          w.TimeSeconds⟩]) := by
  simp [USLPickAndPlaceListener.Update, USLPickAndPlaceListener.Update_PickUp, hptr, hobj, hcsi,
    hunsup, hlift, hrise]

/-- Ticks that change nothing and broadcast nothing can be dropped from a run. -/
theorem FPaPInput_run_idle_ticks (c : FPaPConstants) (s : USLPickAndPlaceListener)
    (L : List FWorld) (rest : List FPaPInput)
    (hidle : ∀ w ∈ L, s.Update c w = some (s, [])) :
    FPaPInput.run c s (L.map FPaPInput.Tick ++ rest) = FPaPInput.run c s rest := by
  induction L with
  | nil => rfl
  | cons w L ih =>
    have hw := hidle w (List.mem_cons_self _ _)
    have hr := ih (fun x hx => hidle x (List.mem_cons_of_mem _ hx))
    have hr2 : FPaPInput.run c s ((List.map FPaPInput.Tick L).append rest) =
        FPaPInput.run c s rest := hr
    simp only [List.map_cons, List.cons_append, FPaPInput.run, FPaPInput.apply, hw]
    rw [hr2]
    cases FPaPInput.run c s rest <;> simp

/-- One step of a run whose outcome is known. -/
theorem FPaPInput_run_cons (c : FPaPConstants) (s s1 s2 : USLPickAndPlaceListener)
    (i : FPaPInput) (rest : List FPaPInput) (e1 e2 : List FPaPBroadcast)
    (h1 : FPaPInput.apply c s i = some (s1, e1))
    (h2 : FPaPInput.run c s1 rest = some (s2, e2)) :
    FPaPInput.run c s (i :: rest) = some (s2, e1 ++ e2) := by
  simp [FPaPInput.run, h1, h2]


/-- What the scan of `HasPutDownEventHappened` started at a valid index returns: it
never faults; every sample passed over is inside the backtrack window and not above
the threshold; on `true` the reported sample is inside the window and above the
threshold; on `false` the scan reached index 0 or a sample outside the window. -/
theorem HasPutDownEventHappenedLoop_spec (c : FPaPConstants) (B : List (Int × FVector))
    (T : Int) (L : FVector) (idx : Nat) (hidx : idx < B.length) :
    ∃ b i, USLPickAndPlaceListener.HasPutDownEventHappenedLoop c B T L idx = some (b, i) ∧
      i ≤ idx ∧
      (∀ j S, i < j → j ≤ idx → B[j]? = some S →
        F32.Sub T S.1 < c.PutDownMovementBacktrackDuration ∧
        ¬ F32.Sub S.2.Z L.Z > c.MinPutDownHeight) ∧
      (b = true → 0 < i ∧ ∃ S, B[i]? = some S ∧
        F32.Sub T S.1 < c.PutDownMovementBacktrackDuration ∧
        F32.Sub S.2.Z L.Z > c.MinPutDownHeight) ∧
      (b = false → i = 0 ∨ ∃ S, B[i]? = some S ∧
        ¬ F32.Sub T S.1 < c.PutDownMovementBacktrackDuration) := by
  induction idx with
  | zero =>
    refine ⟨false, 0, rfl, le_refl _, ?_, by simp, by simp⟩
    intro j S h1 h2
    omega
  | succ n ih =>
    have hget : B[n + 1]? = some (B[n + 1]) := List.getElem?_eq_getElem hidx
    by_cases hyoung : F32.Sub T (B[n + 1]).1 < c.PutDownMovementBacktrackDuration
    · by_cases habove : F32.Sub (B[n + 1]).2.Z L.Z > c.MinPutDownHeight
      · refine ⟨true, n + 1, ?_, le_refl _, ?_, ?_, by simp⟩
        · simp [USLPickAndPlaceListener.HasPutDownEventHappenedLoop, hget, hyoung, habove]
        · intro j S h1 h2
          omega
        · intro _
          exact ⟨Nat.succ_pos n, _, hget, hyoung, habove⟩
      · obtain ⟨b, i, hrun, hle, hpassed, htrue, hfalse⟩ := ih (by omega)
        refine ⟨b, i, ?_, by omega, ?_, htrue, hfalse⟩
        · simp [USLPickAndPlaceListener.HasPutDownEventHappenedLoop, hget, hyoung, habove, hrun]
        · intro j S h1 h2 hS
          by_cases hj : j = n + 1
          · subst hj
            rw [hget] at hS
            cases hS
            exact ⟨hyoung, habove⟩
          · exact hpassed j S h1 (by omega) hS
    · refine ⟨false, n + 1, ?_, le_refl _, ?_, by simp, ?_⟩
      · simp [USLPickAndPlaceListener.HasPutDownEventHappenedLoop, hget, hyoung]
      · intro j S h1 h2
        omega
      · intro _
        exact Or.inr ⟨_, hget, hyoung⟩

/-- The start index of `HasPutDownEventHappened` for a non-empty buffer is the index of
its newest sample. -/
theorem HasPutDownEventHappened_start (n : Nat) (hne : 0 < n) (hlen : n < 2 ^ 32) :
    (((n : Int) - 1) % 2 ^ 32).toNat = n - 1 := by
  have h1 : ((n : Int) - 1) % 2 ^ 32 = (n : Int) - 1 := by
    apply Int.emod_eq_of_lt <;> omega
  rw [h1]
  omega

/-- Grasp-end never broadcasts: the machine state is reset to `NONE` before
`FinishActiveEvent` inspects it. -/
theorem OnSLGraspEnd_broadcasts_nothing (s : USLPickAndPlaceListener) (Self : FSLEntity)
    (Other : UObject) (Time : Int) : (s.OnSLGraspEnd Self Other Time).2 = [] := by
  unfold USLPickAndPlaceListener.OnSLGraspEnd
  cases hobj : s.CurrGraspedObj with
  | none => rfl
  | some Obj =>
    by_cases heq : Obj = Other
    · simp [heq, USLPickAndPlaceListener.FinishActiveEvent]
    · simp [heq]

/-- The eviction scan over a time-ordered buffer to which a sample taken at `t` was
pushed: for a non-negative window it stops at or before the pushed sample, and for
every sample from the stopping index on the `float` difference `t - Key` does not
exceed the window. -/
theorem EvictCount_window (D t : Int) (loc : FVector) (hD : 0 ≤ D)
    (buf : List (Int × FVector)) (hsorted : buf.Pairwise (fun a b => a.1 ≤ b.1)) :
    ∃ Count, USLPickAndPlaceListener.EvictCount D t (buf ++ [(t, loc)]) = some Count ∧
      Count ≤ buf.length ∧ ∀ S ∈ (buf ++ [(t, loc)]).drop Count, F32.Sub t S.1 ≤ D := by
  have hself : ¬ F32.Sub t t > D := by
    rw [F32.Sub_self]
    omega
  induction buf with
  | nil =>
    refine ⟨0, ?_, le_refl _, ?_⟩
    · simp only [List.nil_append, USLPickAndPlaceListener.EvictCount, hself, if_false]
    · intro S hS
      simp only [List.nil_append, List.drop_zero, List.mem_singleton] at hS
      subst hS
      simp only
      omega
  | cons a buf ih =>
    rw [List.pairwise_cons] at hsorted
    by_cases hold : F32.Sub t a.1 > D
    · obtain ⟨Count, hec, hle, hwin⟩ := ih hsorted.2
      refine ⟨Count + 1, ?_, by simp only [List.length_cons]; omega, ?_⟩
      · simp [USLPickAndPlaceListener.EvictCount, hold, hec]
      · intro S hS
        exact hwin S (by simpa using hS)
    · refine ⟨0, ?_, Nat.zero_le _, ?_⟩
      · simp only [List.cons_append, USLPickAndPlaceListener.EvictCount, hold, if_false]
      · intro S hS
        simp only [List.drop_zero, List.cons_append, List.mem_cons, List.mem_append,
          List.not_mem_nil, or_false] at hS
        rcases hS with rfl | hS | rfl
        · omega
        · have h1 := hsorted.1 S hS
          have h2 := F32.Sub_anti_right t a.1 S.1 h1
          omega
        · simp only
          omega

/-- The backtracking loop of `Update_TransportOrPutDown` reads only valid indices when it
is entered with a valid index. -/
theorem PutDownStartLoop_total (c : FPaPConstants) (s : USLPickAndPlaceListener) (T : Int)
    (L : FVector) (idx : Nat) (hidx : idx < s.RecentMovementBuffer.length) :
    (USLPickAndPlaceListener.PutDownStartLoop c s T L idx).isSome = true := by
  induction idx with
  | zero => rfl
  | succ n ih =>
    have hget : s.RecentMovementBuffer[n + 1]? = some (s.RecentMovementBuffer[n + 1]) :=
      List.getElem?_eq_getElem hidx
    have hr := ih (by omega)
    by_cases hcross : (F32.Sub (s.RecentMovementBuffer[n + 1]).2.Z L.Z > c.MaxPutDownHeight
        || FVector.DistanceGreater (s.RecentMovementBuffer[n + 1]).2 L c.MaxPutDownDistXY) = true
    · simp only [USLPickAndPlaceListener.PutDownStartLoop, hget, hcross, if_true,
        Option.isSome_some]
    · simp only [USLPickAndPlaceListener.PutDownStartLoop, hget, hcross]
      simpa using hr

/-- On regaining support with a non-empty movement buffer, `Update_TransportOrPutDown`
reads only valid buffer indices. -/
theorem Update_TransportOrPutDown_supported_nonempty (c : FPaPConstants)
    (s : USLPickAndPlaceListener) (w : FWorld) (Obj : UObject) (CSI : Nat)
    (hobj : s.CurrGraspedObj = some Obj) (hcsi : s.GraspedObjectContactShape = some CSI)
    (hsup : w.IsSupportedBySomething CSI = true)
    (hne : 0 < s.RecentMovementBuffer.length) (hlen : s.RecentMovementBuffer.length < 2 ^ 32) :
    (USLPickAndPlaceListener.Update_TransportOrPutDown c s w).isSome = true := by
  obtain ⟨b, i, hrun, hle, _, _, _⟩ :=
    HasPutDownEventHappenedLoop_spec c s.RecentMovementBuffer w.TimeSeconds (w.ActorLocation Obj)
      (s.RecentMovementBuffer.length - 1) (by omega)
  have hscan : s.HasPutDownEventHappened c w.TimeSeconds (w.ActorLocation Obj) = some (b, i) := by
    unfold USLPickAndPlaceListener.HasPutDownEventHappened
    rw [HasPutDownEventHappened_start _ hne hlen]
    exact hrun
  have hzero : s.RecentMovementBuffer[0]? = some (s.RecentMovementBuffer[0]) :=
    List.getElem?_eq_getElem hne
  cases b with
  | false =>
    simp [USLPickAndPlaceListener.Update_TransportOrPutDown, hobj, hcsi, hsup, hscan]
  | true =>
    obtain ⟨r, hr⟩ := Option.isSome_iff_exists.mp
      (PutDownStartLoop_total c s w.TimeSeconds (w.ActorLocation Obj) i (by omega))
    by_cases hneg : r.1 < 0
    · simp [USLPickAndPlaceListener.Update_TransportOrPutDown, hobj, hcsi, hsup, hscan, hr,
        hneg, hzero]
    · simp [USLPickAndPlaceListener.Update_TransportOrPutDown, hobj, hcsi, hsup, hscan, hr,
        hneg]

/-- On regaining support with an empty movement buffer, `HasPutDownEventHappened` starts at
index `2 ^ 32 - 1` and reads outside the buffer, so `Update_TransportOrPutDown` faults. -/
theorem Update_TransportOrPutDown_supported_empty (c : FPaPConstants)
    (s : USLPickAndPlaceListener) (w : FWorld) (Obj : UObject) (CSI : Nat)
    (hobj : s.CurrGraspedObj = some Obj) (hcsi : s.GraspedObjectContactShape = some CSI)
    (hsup : w.IsSupportedBySomething CSI = true) (hbuf : s.RecentMovementBuffer = []) :
    USLPickAndPlaceListener.Update_TransportOrPutDown c s w = none := by
  have hstart : ((((0 : Nat) : Int) - 1) % 2 ^ 32).toNat = 4294967294 + 1 := by decide
  have hscan : s.HasPutDownEventHappened c w.TimeSeconds (w.ActorLocation Obj) = none := by
    unfold USLPickAndPlaceListener.HasPutDownEventHappened
    rw [hbuf, List.length_nil, hstart]
    simp [USLPickAndPlaceListener.HasPutDownEventHappenedLoop]
  simp [USLPickAndPlaceListener.Update_TransportOrPutDown, hobj, hcsi, hsup, hscan]

theorem OnSLGraspBegin_invariant (s : USLPickAndPlaceListener) (w : FWorld) (Self : FSLEntity)
    (Other : UObject) (Time : Int) (GraspType : String) (hinv : s.StateInvariant) :
    (s.OnSLGraspBegin w Self Other Time GraspType).StateInvariant := by
  unfold USLPickAndPlaceListener.OnSLGraspBegin
  by_cases hsome : s.CurrGraspedObj.isSome = true
  · simpa [hsome] using hinv
  · cases hcsi : USLPickAndPlaceListener.GetContactShapeComponent w (some Other) with
    | none => simpa [hsome, hcsi] using hinv
    | some CSI =>
      by_cases hsup : w.IsSupportedBySomething CSI = true
      · by_cases hpaused : s.bUpdateTimerPaused = true <;>
          simp [hsome, hsup, hpaused, USLPickAndPlaceListener.StateInvariant, UpdateFunctionOf]
      · simp [hsome, hsup, USLPickAndPlaceListener.StateInvariant, UpdateFunctionOf]

theorem FinishActiveEvent_invariant (s : USLPickAndPlaceListener) (CurrTime : Int) :
    (s.FinishActiveEvent CurrTime).1.StateInvariant := by
  simp [USLPickAndPlaceListener.FinishActiveEvent, USLPickAndPlaceListener.StateInvariant,
    UpdateFunctionOf]

theorem OnSLGraspEnd_invariant (s : USLPickAndPlaceListener) (Self : FSLEntity)
    (Other : UObject) (Time : Int) (hinv : s.StateInvariant) :
    (s.OnSLGraspEnd Self Other Time).1.StateInvariant := by
  unfold USLPickAndPlaceListener.OnSLGraspEnd
  split
  · exact hinv
  · split
    · have h := FinishActiveEvent_invariant
        { s with CurrGraspedObj := none, GraspedObjectContactShape := none,
                 EventCheck := .NONE, UpdateFunctionPtr := .Update_NONE } Time
      simp only
      split
      · exact h
      · exact h
    · exact hinv

theorem Finish_invariant (s : USLPickAndPlaceListener) (EndTime : Int) (bForced : Bool)
    (hinv : s.StateInvariant) : (s.Finish EndTime bForced).1.StateInvariant := by
  unfold USLPickAndPlaceListener.Finish
  split
  · exact FinishActiveEvent_invariant s EndTime
  · exact hinv

theorem Update_Slide_invariant (c : FPaPConstants) (s : USLPickAndPlaceListener) (w : FWorld)
    (r : USLPickAndPlaceListener × List FPaPBroadcast) (hinv : s.StateInvariant)
    (hrun : s.Update_Slide c w = some r) : r.1.StateInvariant := by
  cases hobj : s.CurrGraspedObj with
  | none =>
    simp only [USLPickAndPlaceListener.Update_Slide, hobj] at hrun
    cases hrun
    exact hinv
  | some Obj =>
    cases hcsi : s.GraspedObjectContactShape with
    | none =>
      simp only [USLPickAndPlaceListener.Update_Slide, hobj, hcsi] at hrun
      cases hrun
      exact hinv
    | some CSI =>
      simp only [USLPickAndPlaceListener.Update_Slide, hobj, hcsi] at hrun
      split_ifs at hrun <;> cases hrun <;>
        first
        | exact hinv
        | simp [USLPickAndPlaceListener.StateInvariant, UpdateFunctionOf, hobj]

theorem Update_PickUp_invariant (c : FPaPConstants) (s : USLPickAndPlaceListener) (w : FWorld)
    (r : USLPickAndPlaceListener × List FPaPBroadcast) (hinv : s.StateInvariant)
    (hstate : s.EventCheck = .PickUp)
    (hrun : s.Update_PickUp c w = some r) : r.1.StateInvariant := by
  have hptr := hinv.2
  rw [hstate] at hptr
  cases hobj : s.CurrGraspedObj with
  | none => simp [USLPickAndPlaceListener.Update_PickUp, hobj] at hrun
  | some Obj =>
    cases hcsi : s.GraspedObjectContactShape with
    | none => simp [USLPickAndPlaceListener.Update_PickUp, hobj, hcsi] at hrun
    | some CSI =>
      simp only [USLPickAndPlaceListener.Update_PickUp, hobj, hcsi] at hrun
      split_ifs at hrun <;> cases hrun <;>
        first
        | exact hinv
        | simp [USLPickAndPlaceListener.StateInvariant, UpdateFunctionOf, hobj, hstate, hptr]

theorem Update_TransportOrPutDown_invariant (c : FPaPConstants) (s : USLPickAndPlaceListener)
    (w : FWorld) (r : USLPickAndPlaceListener × List FPaPBroadcast) (hinv : s.StateInvariant)
    (hstate : s.EventCheck = .TransportOrPutDown)
    (hrun : s.Update_TransportOrPutDown c w = some r) : r.1.StateInvariant := by
  have hptr := hinv.2
  rw [hstate] at hptr
  cases hobj : s.CurrGraspedObj with
  | none => simp [USLPickAndPlaceListener.Update_TransportOrPutDown, hobj] at hrun
  | some Obj =>
    cases hcsi : s.GraspedObjectContactShape with
    | none => simp [USLPickAndPlaceListener.Update_TransportOrPutDown, hobj, hcsi] at hrun
    | some CSI =>
      simp only [USLPickAndPlaceListener.Update_TransportOrPutDown, hobj, hcsi] at hrun
      split_ifs at hrun
      · obtain ⟨B, _, hr⟩ := Option.map_eq_some'.mp hrun
        subst hr
        simp [USLPickAndPlaceListener.StateInvariant, UpdateFunctionOf]
      · obtain ⟨Count, _, hr⟩ := Option.map_eq_some'.mp hrun
        subst hr
        simp [USLPickAndPlaceListener.StateInvariant, UpdateFunctionOf, hobj, hstate, hptr]
      · cases hrun
        simp [USLPickAndPlaceListener.StateInvariant, UpdateFunctionOf, hobj, hstate, hptr]

theorem Update_invariant (c : FPaPConstants) (s : USLPickAndPlaceListener) (w : FWorld)
    (r : USLPickAndPlaceListener × List FPaPBroadcast) (hinv : s.StateInvariant)
    (hrun : s.Update c w = some r) : r.1.StateInvariant := by
  have hptr := hinv.2
  cases hstate : s.EventCheck with
  | NONE =>
    rw [hstate] at hptr
    simp only [USLPickAndPlaceListener.Update, hptr, UpdateFunctionOf,
      USLPickAndPlaceListener.Update_NONE] at hrun
    cases hrun
    exact hinv
  | Slide =>
    rw [hstate] at hptr
    simp only [USLPickAndPlaceListener.Update, hptr, UpdateFunctionOf] at hrun
    exact Update_Slide_invariant c s w r hinv hrun
  | PickUp =>
    rw [hstate] at hptr
    simp only [USLPickAndPlaceListener.Update, hptr, UpdateFunctionOf] at hrun
    exact Update_PickUp_invariant c s w r hinv hstate hrun
  | TransportOrPutDown =>
    rw [hstate] at hptr
    simp only [USLPickAndPlaceListener.Update, hptr, UpdateFunctionOf] at hrun
    exact Update_TransportOrPutDown_invariant c s w r hinv hstate hrun

theorem FPaPInput_apply_invariant (c : FPaPConstants) (s : USLPickAndPlaceListener)
    (i : FPaPInput) (r : USLPickAndPlaceListener × List FPaPBroadcast)
    (hinv : s.StateInvariant) (hrun : FPaPInput.apply c s i = some r) : r.1.StateInvariant := by
  cases i with
  | GraspBegin w Self Other Time GraspType =>
    simp only [FPaPInput.apply, Option.some.injEq] at hrun
    subst hrun
    exact OnSLGraspBegin_invariant s w Self Other Time GraspType hinv
  | GraspEnd Self Other Time =>
    simp only [FPaPInput.apply, Option.some.injEq] at hrun
    subst hrun
    exact OnSLGraspEnd_invariant s Self Other Time hinv
  | Tick w => exact Update_invariant c s w r hinv hrun
  | Finish EndTime bForced =>
    simp only [FPaPInput.apply, Option.some.injEq] at hrun
    subst hrun
    exact Finish_invariant s EndTime bForced hinv

theorem FPaPInput_run_invariant (c : FPaPConstants) (inputs : List FPaPInput)
    (s : USLPickAndPlaceListener) (r : USLPickAndPlaceListener × List FPaPBroadcast)
    (hinv : s.StateInvariant) (hrun : FPaPInput.run c s inputs = some r) :
    r.1.StateInvariant := by
  induction inputs generalizing s r with
  | nil =>
    simp only [FPaPInput.run, Option.some.injEq] at hrun
    subst hrun
    exact hinv
  | cons i rest ih =>
    cases hstep : FPaPInput.apply c s i with
    | none => simp [FPaPInput.run, hstep] at hrun
    | some r1 =>
      cases hrest : FPaPInput.run c r1.1 rest with
      | none => simp [FPaPInput.run, hstep, hrest] at hrun
      | some r2 =>
        simp only [FPaPInput.run, hstep, hrest, Option.some.injEq] at hrun
        subst hrun
        exact ih r1.1 r2 (FPaPInput_apply_invariant c s i r1 hinv hstep) hrest

/-! ## Lemmas on the reach listener -/

theorem TMapFind_TMapRemove {V : Type} (m : List (UObject × V)) (k O : UObject) :
    TMapFind (TMapRemove m k) O = if O = k then none else TMapFind m O := by
  induction m with
  | nil => simp [TMapRemove, TMapFind]
  | cons a m ih =>
    obtain ⟨a1, a2⟩ := a
    by_cases hak : a1 = k
    · by_cases hO : O = k
      · subst hO
        simpa [TMapRemove, hak] using ih
      · have hkO : ¬ k = O := fun h => hO h.symm
        simp [TMapRemove, TMapFind, hak, ih, hO, hkO]
    · by_cases haO : a1 = O
      · have hO : ¬ O = k := fun h => hak (haO.trans h)
        simp [TMapRemove, TMapFind, hak, haO, hO]
      · simp [TMapRemove, TMapFind, hak, haO, ih]

theorem TMapFind_TMapSetTime (m : List (UObject × FSLTimeAndDist)) (k O : UObject) (t : Int) :
    TMapFind (TMapSetTime m k t) O =
      if O = k then (TMapFind m O).map (fun v => { v with Time := t }) else TMapFind m O := by
  induction m with
  | nil => simp [TMapSetTime, TMapFind]
  | cons a m ih =>
    obtain ⟨a1, a2⟩ := a
    by_cases hak : a1 = k
    · by_cases hO : O = k
      · subst hak; subst hO
        simp [TMapSetTime, TMapFind]
      · have hkO : ¬ k = O := fun h => hO h.symm
        simp [TMapSetTime, TMapFind, hak, hO, hkO]
    · by_cases haO : a1 = O
      · have hO : ¬ O = k := fun h => hak (haO.trans h)
        simp [TMapSetTime, TMapFind, hak, haO, hO]
      · simp [TMapSetTime, TMapFind, hak, haO, ih]

theorem TMapSetTime_keys (m : List (UObject × FSLTimeAndDist)) (k : UObject) (t : Int) :
    (TMapSetTime m k t).map Prod.fst = m.map Prod.fst := by
  induction m with
  | nil => rfl
  | cons a m ih =>
    obtain ⟨a1, a2⟩ := a
    by_cases hak : a1 = k <;> simp [TMapSetTime, hak, ih]

theorem TMapContains_TMapSetTime (m : List (UObject × FSLTimeAndDist)) (k O : UObject)
    (t : Int) : TMapContains (TMapSetTime m k t) O = TMapContains m O := by
  unfold TMapContains
  rw [TMapFind_TMapSetTime]
  by_cases hO : O = k <;> simp [hO]

theorem TMapContains_TMapRemove {V : Type} (m : List (UObject × V)) (k O : UObject) :
    TMapContains (TMapRemove m k) O = (!decide (O = k) && TMapContains m O) := by
  unfold TMapContains
  rw [TMapFind_TMapRemove]
  by_cases hO : O = k <;> simp [hO]

theorem TMapFind_of_not_contains {V : Type} (m : List (UObject × V)) (O : UObject)
    (h : TMapContains m O = false) : TMapFind m O = none := by
  unfold TMapContains at h
  simpa using h

theorem SkipRecentLoop_no_match (c : FReachConstants) (O : UObject) (b : Int)
    (l : List FSLContactEndEvent)
    (hl : ∀ Ev ∈ l, ¬ (Ev.Other = O ∧ F32.Sub b Ev.Time < c.MaxPreGraspEventTimeGap)) :
    USLReachListener.SkipRecentLoop c O b l = (false, l) := by
  induction l with
  | nil => rfl
  | cons a l ih =>
    have ha := hl a (List.mem_cons_self _ _)
    have hr := ih (fun x hx => hl x (List.mem_cons_of_mem _ hx))
    simp [USLReachListener.SkipRecentLoop, ha, hr]

theorem SkipRecentLoop_first_match (c : FReachConstants) (O : UObject) (b : Int)
    (pre post : List FSLContactEndEvent) (Ev : FSLContactEndEvent)
    (hpre : ∀ x ∈ pre, ¬ (x.Other = O ∧ F32.Sub b x.Time < c.MaxPreGraspEventTimeGap))
    (hEv : Ev.Other = O ∧ F32.Sub b Ev.Time < c.MaxPreGraspEventTimeGap) :
    USLReachListener.SkipRecentLoop c O b (pre ++ Ev :: post) = (true, pre ++ post) := by
  induction pre with
  | nil => simp [USLReachListener.SkipRecentLoop, hEv]
  | cons a pre ih =>
    have ha := hpre a (List.mem_cons_self _ _)
    have hr := ih (fun x hx => hpre x (List.mem_cons_of_mem _ hx))
    simp [USLReachListener.SkipRecentLoop, ha, hr]

/-- When some record matches, the scan returns true and removes exactly one record. -/
theorem SkipRecentLoop_some_match (c : FReachConstants) (O : UObject) (b : Int)
    (l : List FSLContactEndEvent)
    (hl : ∃ Ev ∈ l, Ev.Other = O ∧ F32.Sub b Ev.Time < c.MaxPreGraspEventTimeGap) :
    (USLReachListener.SkipRecentLoop c O b l).1 = true ∧
    (USLReachListener.SkipRecentLoop c O b l).2.length + 1 = l.length := by
  induction l with
  | nil =>
    obtain ⟨Ev, hmem, _⟩ := hl
    cases hmem
  | cons a l ih =>
    by_cases ha : a.Other = O ∧ F32.Sub b a.Time < c.MaxPreGraspEventTimeGap
    · simp [USLReachListener.SkipRecentLoop, ha]
    · have hrest : ∃ Ev ∈ l, Ev.Other = O ∧ F32.Sub b Ev.Time < c.MaxPreGraspEventTimeGap := by
        obtain ⟨Ev, hmem, hEv⟩ := hl
        rcases List.mem_cons.mp hmem with rfl | hmem
        · exact absurd hEv ha
        · exact ⟨Ev, hmem, hEv⟩
      obtain ⟨h1, h2⟩ := ih hrest
      simp [USLReachListener.SkipRecentLoop, ha, h1, h2]

/-- When some record matches, the scan removes the first matching record and keeps the
others in order. -/
theorem SkipRecentLoop_split (c : FReachConstants) (O : UObject) (b : Int)
    (l : List FSLContactEndEvent)
    (hl : ∃ Ev ∈ l, Ev.Other = O ∧ F32.Sub b Ev.Time < c.MaxPreGraspEventTimeGap) :
    ∃ pre Ev post, l = pre ++ Ev :: post ∧
      (∀ x ∈ pre, ¬ (x.Other = O ∧ F32.Sub b x.Time < c.MaxPreGraspEventTimeGap)) ∧
      (Ev.Other = O ∧ F32.Sub b Ev.Time < c.MaxPreGraspEventTimeGap) ∧
      USLReachListener.SkipRecentLoop c O b l = (true, pre ++ post) := by
  induction l with
  | nil =>
    obtain ⟨Ev, hmem, _⟩ := hl
    cases hmem
  | cons a l ih =>
    by_cases ha : a.Other = O ∧ F32.Sub b a.Time < c.MaxPreGraspEventTimeGap
    · exact ⟨[], a, l, rfl, by simp, ha, by simp [USLReachListener.SkipRecentLoop, ha]⟩
    · have hrest : ∃ Ev ∈ l, Ev.Other = O ∧ F32.Sub b Ev.Time < c.MaxPreGraspEventTimeGap := by
        obtain ⟨Ev, hmem, hEv⟩ := hl
        rcases List.mem_cons.mp hmem with rfl | hmem
        · exact absurd hEv ha
        · exact ⟨Ev, hmem, hEv⟩
      obtain ⟨pre, Ev, post, hsplit, hpre, hEv, hrun⟩ := ih hrest
      refine ⟨a :: pre, Ev, post, by rw [hsplit]; rfl, ?_, hEv, ?_⟩
      · intro x hx
        rcases List.mem_cons.mp hx with rfl | hx
        · exact ha
        · exact hpre x hx
      · simp [USLReachListener.SkipRecentLoop, ha, hrun]

/-- What the loop of the delayed contact-end callback computes: the records kept are
those not yet expired; an object loses its contact entry exactly when it is a
candidate with an expired record, and its reach time is reset exactly when it also
was in contact. -/
theorem DelayedManipulatorContactEndLoop_spec (c : FReachConstants) (t : Int)
    (Records : List FSLContactEndEvent) (Candidates : List (UObject × FSLTimeAndDist))
    (InContact : List (UObject × Int)) :
    (USLReachListener.DelayedManipulatorContactEndLoop c t Candidates InContact Records).2.2 =
      Records.filter (fun Ev => decide (F32.Sub t Ev.Time ≤ c.MaxPreGraspEventTimeGap)) ∧
    (USLReachListener.DelayedManipulatorContactEndLoop c t Candidates InContact
      Records).1.map Prod.fst = Candidates.map Prod.fst ∧
    ∀ O : UObject,
      TMapFind (USLReachListener.DelayedManipulatorContactEndLoop c t Candidates InContact
          Records).1 O =
        (if HasExpiredRecord c t Records O && TMapContains InContact O then
          (TMapFind Candidates O).map (fun v => { v with Time := t })
         else TMapFind Candidates O) ∧
      TMapFind (USLReachListener.DelayedManipulatorContactEndLoop c t Candidates InContact
          Records).2.1 O =
        (if HasExpiredRecord c t Records O && TMapContains Candidates O then none
         else TMapFind InContact O) := by
  induction Records generalizing Candidates InContact with
  | nil =>
    simp [USLReachListener.DelayedManipulatorContactEndLoop, HasExpiredRecord]
  | cons Ev Rest ih =>
    by_cases hexp : F32.Sub t Ev.Time > c.MaxPreGraspEventTimeGap
    · have hfilter : (Ev :: Rest).filter
          (fun Ev => decide (F32.Sub t Ev.Time ≤ c.MaxPreGraspEventTimeGap)) =
          Rest.filter (fun Ev => decide (F32.Sub t Ev.Time ≤ c.MaxPreGraspEventTimeGap)) := by
        apply List.filter_cons_of_neg
        simp only [decide_eq_true_eq]
        omega
      have hany : ∀ O, HasExpiredRecord c t (Ev :: Rest) O =
          (decide (Ev.Other = O) || HasExpiredRecord c t Rest O) := by
        intro O
        simp [HasExpiredRecord, hexp]
      by_cases hcand : TMapContains Candidates Ev.Other = true
      · by_cases hin : TMapContains InContact Ev.Other = true
        · have hstep : USLReachListener.DelayedManipulatorContactEndLoop c t Candidates
              InContact (Ev :: Rest) =
              USLReachListener.DelayedManipulatorContactEndLoop c t
                (TMapSetTime Candidates Ev.Other t) (TMapRemove InContact Ev.Other) Rest := by
            simp [USLReachListener.DelayedManipulatorContactEndLoop, hexp, hcand, hin]
          obtain ⟨h1, h2, h3⟩ := ih (TMapSetTime Candidates Ev.Other t)
            (TMapRemove InContact Ev.Other)
          rw [hstep, hfilter]
          refine ⟨h1, by rw [h2, TMapSetTime_keys], ?_⟩
          intro O
          obtain ⟨h3a, h3b⟩ := h3 O
          rw [h3a, h3b, hany, TMapFind_TMapSetTime, TMapFind_TMapRemove,
            TMapContains_TMapSetTime, TMapContains_TMapRemove]
          by_cases hO : O = Ev.Other
          · subst hO
            simp [hcand, hin]
          · have hO2 : ¬ Ev.Other = O := fun h => hO h.symm
            simp [hO, hO2]
        · have hin2 : TMapContains InContact Ev.Other = false := by simpa using hin
          have hstep : USLReachListener.DelayedManipulatorContactEndLoop c t Candidates
              InContact (Ev :: Rest) =
              USLReachListener.DelayedManipulatorContactEndLoop c t Candidates InContact
                Rest := by
            simp [USLReachListener.DelayedManipulatorContactEndLoop, hexp, hcand, hin2]
          obtain ⟨h1, h2, h3⟩ := ih Candidates InContact
          rw [hstep, hfilter]
          refine ⟨h1, h2, ?_⟩
          intro O
          obtain ⟨h3a, h3b⟩ := h3 O
          rw [h3a, h3b, hany]
          by_cases hO : O = Ev.Other
          · subst hO
            have hnone := TMapFind_of_not_contains InContact Ev.Other hin2
            simp [hcand, hin2, hnone]
          · have hO2 : ¬ Ev.Other = O := fun h => hO h.symm
            simp [hO2]
      · have hcand2 : TMapContains Candidates Ev.Other = false := by simpa using hcand
        have hstep : USLReachListener.DelayedManipulatorContactEndLoop c t Candidates
            InContact (Ev :: Rest) =
            USLReachListener.DelayedManipulatorContactEndLoop c t Candidates InContact
              Rest := by
          simp [USLReachListener.DelayedManipulatorContactEndLoop, hexp, hcand2]
        obtain ⟨h1, h2, h3⟩ := ih Candidates InContact
        rw [hstep, hfilter]
        refine ⟨h1, h2, ?_⟩
        intro O
        obtain ⟨h3a, h3b⟩ := h3 O
        rw [h3a, h3b, hany]
        by_cases hO : O = Ev.Other
        · subst hO
          have hnone := TMapFind_of_not_contains Candidates Ev.Other hcand2
          simp [hcand2, hnone]
        · have hO2 : ¬ Ev.Other = O := fun h => hO h.symm
          simp [hO2]
    · have hfilter : (Ev :: Rest).filter
          (fun Ev => decide (F32.Sub t Ev.Time ≤ c.MaxPreGraspEventTimeGap)) =
          Ev :: Rest.filter (fun Ev => decide (F32.Sub t Ev.Time ≤ c.MaxPreGraspEventTimeGap)) := by
        apply List.filter_cons_of_pos
        simp only [decide_eq_true_eq]
        omega
      have hany : ∀ O, HasExpiredRecord c t (Ev :: Rest) O = HasExpiredRecord c t Rest O := by
        intro O
        simp [HasExpiredRecord, hexp]
      have hstep : USLReachListener.DelayedManipulatorContactEndLoop c t Candidates
          InContact (Ev :: Rest) =
          ((USLReachListener.DelayedManipulatorContactEndLoop c t Candidates InContact Rest).1,
           (USLReachListener.DelayedManipulatorContactEndLoop c t Candidates InContact
              Rest).2.1,
           Ev :: (USLReachListener.DelayedManipulatorContactEndLoop c t Candidates InContact
              Rest).2.2) := by
        simp [USLReachListener.DelayedManipulatorContactEndLoop, hexp]
      obtain ⟨h1, h2, h3⟩ := ih Candidates InContact
      rw [hstep, hfilter]
      refine ⟨by rw [h1], h2, ?_⟩
      intro O
      obtain ⟨h3a, h3b⟩ := h3 O
      rw [hany]
      exact ⟨h3a, h3b⟩

/-! ## Lemmas on the timestamps held by the reach listener -/

theorem mem_of_TMapFind {V : Type} (m : List (UObject × V)) (k : UObject) (v : V)
    (h : TMapFind m k = some v) : (k, v) ∈ m := by
  induction m with
  | nil => simp [TMapFind] at h
  | cons a m ih =>
    obtain ⟨ak, av⟩ := a
    by_cases hk : ak = k
    · simp only [TMapFind, hk, if_true, Option.some.injEq] at h
      simp [hk, h]
    · simp only [TMapFind, hk, if_false] at h
      exact List.mem_cons_of_mem _ (ih h)

theorem TMapEmplace_forall {V : Type} (P : V → Prop) (m : List (UObject × V)) (k : UObject)
    (v : V) (hm : ∀ x ∈ m, P x.2) (hv : P v) : ∀ x ∈ TMapEmplace m k v, P x.2 := by
  induction m with
  | nil =>
    intro x hx
    simp only [TMapEmplace, List.mem_singleton] at hx
    subst hx
    exact hv
  | cons a m ih =>
    obtain ⟨ak, av⟩ := a
    intro x hx
    by_cases hk : ak = k
    · simp only [TMapEmplace, hk, if_true, List.mem_cons] at hx
      rcases hx with rfl | hx
      · exact hv
      · exact hm x (List.mem_cons_of_mem _ hx)
    · simp only [TMapEmplace, hk, if_false, List.mem_cons] at hx
      rcases hx with rfl | hx
      · exact hm _ (List.mem_cons_self _ _)
      · exact ih (fun y hy => hm y (List.mem_cons_of_mem _ hy)) x hx

theorem TMapRemove_subset {V : Type} (m : List (UObject × V)) (k : UObject) :
    ∀ x ∈ TMapRemove m k, x ∈ m := by
  induction m with
  | nil => simp [TMapRemove]
  | cons a m ih =>
    obtain ⟨ak, av⟩ := a
    intro x hx
    by_cases hk : ak = k
    · simp only [TMapRemove, hk, if_true] at hx
      exact List.mem_cons_of_mem _ (ih x hx)
    · simp only [TMapRemove, hk, if_false, List.mem_cons] at hx
      rcases hx with rfl | hx
      · exact List.mem_cons_self _ _
      · exact List.mem_cons_of_mem _ (ih x hx)

theorem TMapSetTime_bounded (m : List (UObject × FSLTimeAndDist)) (k : UObject) (t b : Int)
    (hm : ∀ x ∈ m, x.2.Time ≤ b) (ht : t ≤ b) : ∀ x ∈ TMapSetTime m k t, x.2.Time ≤ b := by
  induction m with
  | nil => simp [TMapSetTime]
  | cons a m ih =>
    obtain ⟨ak, av⟩ := a
    intro x hx
    by_cases hk : ak = k
    · simp only [TMapSetTime, hk, if_true, List.mem_cons] at hx
      rcases hx with rfl | hx
      · exact ht
      · exact hm x (List.mem_cons_of_mem _ hx)
    · simp only [TMapSetTime, hk, if_false, List.mem_cons] at hx
      rcases hx with rfl | hx
      · exact hm _ (List.mem_cons_self _ _)
      · exact ih (fun y hy => hm y (List.mem_cons_of_mem _ hy)) x hx

theorem DelayedManipulatorContactEndLoop_bounded (c : FReachConstants) (t b : Int) (ht : t ≤ b)
    (records : List FSLContactEndEvent) (cands : List (UObject × FSLTimeAndDist))
    (inc : List (UObject × Int)) (hc : ∀ x ∈ cands, x.2.Time ≤ b) (hi : ∀ y ∈ inc, y.2 ≤ b) :
    (∀ x ∈ (USLReachListener.DelayedManipulatorContactEndLoop c t cands inc records).1,
      x.2.Time ≤ b) ∧
    (∀ y ∈ (USLReachListener.DelayedManipulatorContactEndLoop c t cands inc records).2.1,
      y.2 ≤ b) := by
  induction records generalizing cands inc with
  | nil => exact ⟨hc, hi⟩
  | cons Ev Rest ih =>
    unfold USLReachListener.DelayedManipulatorContactEndLoop
    split_ifs
    · exact ih _ _ (TMapSetTime_bounded cands Ev.Other t b hc ht)
        (fun y hy => hi y (TMapRemove_subset inc Ev.Other y hy))
    · exact ih _ _ hc hi
    · exact ih _ _ hc hi
    · exact ih _ _ hc hi

theorem OnOverlapBegin_bounded (s : USLReachListener) (w : FReachWorld) (A : UObject) (b : Int)
    (hs : s.TimesBoundedBy b) (ht : w.TimeSeconds ≤ b) :
    (s.OnOverlapBegin w A).TimesBoundedBy b := by
  unfold USLReachListener.OnOverlapBegin
  split_ifs
  · exact ⟨TMapEmplace_forall (fun (v : FSLTimeAndDist) => v.Time ≤ b) _ A _ hs.1 ht, hs.2⟩
  · exact hs
  · exact hs

theorem TriggerInitialOverlaps_bounded (w : FReachWorld) (b : Int) (ht : w.TimeSeconds ≤ b)
    (l : List UObject) (s : USLReachListener) (hs : s.TimesBoundedBy b) :
    (l.foldl (fun st A => st.OnOverlapBegin w A) s).TimesBoundedBy b := by
  induction l generalizing s with
  | nil => exact hs
  | cons A l ih => exact ih _ (OnOverlapBegin_bounded s w A b hs ht)

theorem ReachUpdate_bounded (c : FReachConstants) (s : USLReachListener) (w : FReachWorld)
    (b : Int) (hs : s.TimesBoundedBy b) (ht : w.TimeSeconds ≤ b) :
    (s.ReachUpdate c w).TimesBoundedBy b := by
  refine ⟨?_, hs.2⟩
  intro x hx
  simp only [USLReachListener.ReachUpdate, List.mem_map] at hx
  obtain ⟨y, hy, rfl⟩ := hx
  have hyb := hs.1 y hy
  unfold USLReachListener.ReachUpdateCandidate
  simp only
  split_ifs
  · exact hyb
  · exact ht
  · exact hyb

theorem OnSLManipulatorContactBegin_bounded (c : FReachConstants) (s : USLReachListener)
    (w : FReachWorld) (ContactResult : FSLContactResult) (b : Int)
    (hs : s.TimesBoundedBy b) (ht : ContactResult.Time ≤ b) :
    (s.OnSLManipulatorContactBegin c w ContactResult).TimesBoundedBy b := by
  unfold USLReachListener.OnSLManipulatorContactBegin
  simp only
  split_ifs <;>
    first
    | exact hs
    | exact ⟨hs.1, TMapEmplace_forall (fun (v : Int) => v ≤ b) _ _ _ hs.2 ht⟩

theorem OnSLGraspEnd_bounded (s : USLReachListener) (w : FReachWorld) (Self : FSLEntity)
    (Other : UObject) (Time : Int) (b : Int) (hs : s.TimesBoundedBy b)
    (ht : w.TimeSeconds ≤ b) : (s.OnSLGraspEnd w Self Other Time).TimesBoundedBy b := by
  unfold USLReachListener.OnSLGraspEnd
  split
  · exact hs
  · split_ifs
    · exact TriggerInitialOverlaps_bounded w b ht w.OverlappingActors
        { s with CurrGraspedObj := none } hs
    · exact hs

/-- Handling an input whose timestamps are at most `b` keeps every reach start time and
contact time at most `b`. -/
theorem FReachInput_apply_bounded (c : FReachConstants) (s : USLReachListener)
    (i : FReachInput) (b : Int) (hs : s.TimesBoundedBy b) (hi : ∀ a ∈ i.Times, a ≤ b) :
    (FReachInput.apply c s i).1.TimesBoundedBy b := by
  cases i with
  | OverlapBegin w A =>
    exact OnOverlapBegin_bounded s w A b hs (hi _ (by simp [FReachInput.Times]))
  | OverlapEnd w A =>
    simp only [FReachInput.apply, USLReachListener.OnOverlapEnd]
    split_ifs <;>
      first
      | exact hs
      | exact ⟨fun x hx => hs.1 x (TMapRemove_subset _ _ x hx), hs.2⟩
  | Tick w => exact ReachUpdate_bounded c s w b hs (hi _ (by simp [FReachInput.Times]))
  | ContactBegin w ContactResult =>
    exact OnSLManipulatorContactBegin_bounded c s w ContactResult b hs
      (hi _ (by simp [FReachInput.Times]))
  | ContactEnd w bWorldValid Self Other Time =>
    simp only [FReachInput.apply, USLReachListener.OnSLManipulatorContactEnd]
    split_ifs <;> exact hs
  | DelayedContactEnd w =>
    exact DelayedManipulatorContactEndLoop_bounded c w.TimeSeconds b
      (hi _ (by simp [FReachInput.Times])) _ _ _ hs.1 hs.2
  | GraspBegin w Self Other Time GraspType =>
    simp only [FReachInput.apply, USLReachListener.OnSLGraspBegin]
    split_ifs
    · exact hs
    · split
      · split
        · exact ⟨by simp, by simp⟩
        · exact hs
      · exact hs
    · exact hs
  | GraspEnd w Self Other Time =>
    exact OnSLGraspEnd_bounded s w Self Other Time b hs (hi _ (by simp [FReachInput.Times]))

/-- A composite event broadcast while handling an input takes its reach start time and
its contact time from the listener state and its grasp time from the input. -/
theorem FReachInput_apply_events (c : FReachConstants) (s : USLReachListener)
    (i : FReachInput) (hs : ∀ b ∈ i.Times, s.TimesBoundedBy b) :
    ∀ ev ∈ (FReachInput.apply c s i).2,
      ev.ReachStartTime ≤ ev.Time ∧ ev.ReachEndTime ≤ ev.Time := by
  cases i with
  | GraspBegin w Self Other Time GraspType =>
    have hb := hs Time (by simp [FReachInput.Times])
    intro ev hev
    simp only [FReachInput.apply, USLReachListener.OnSLGraspBegin] at hev
    split_ifs at hev
    · simp at hev
    · cases hcand : TMapFind s.CandidatesWithTimeAndDistance Other with
      | none => simp [hcand] at hev
      | some CandidateTimeAndDist =>
        cases hcont : TMapFind s.ObjectsInContactWithManipulator Other with
        | none => simp [hcand, hcont] at hev
        | some ContactTime =>
          simp only [hcand, hcont, List.mem_singleton] at hev
          subst hev
          exact ⟨hb.1 _ (mem_of_TMapFind _ _ _ hcand), hb.2 _ (mem_of_TMapFind _ _ _ hcont)⟩
    · simp at hev
  | OverlapBegin w A => simp [FReachInput.apply]
  | OverlapEnd w A => simp [FReachInput.apply]
  | Tick w => simp [FReachInput.apply]
  | ContactBegin w ContactResult => simp [FReachInput.apply]
  | ContactEnd w bWorldValid Self Other Time => simp [FReachInput.apply]
  | DelayedContactEnd w => simp [FReachInput.apply]
  | GraspEnd w Self Other Time => simp [FReachInput.apply]

/-- Over a sequence of inputs with non-decreasing timestamps, handled from a state that
holds no time later than a timestamp of the sequence, no composite event has its reach
start time or its contact time after its grasp time. -/
theorem FReachInput_run_events (c : FReachConstants) (inputs : List FReachInput)
    (s : USLReachListener)
    (hstate : ∀ i ∈ inputs, ∀ b ∈ i.Times, s.TimesBoundedBy b)
    (hord : FReachInput.NonDecreasing inputs) :
    ∀ ev ∈ (FReachInput.run c s inputs).2,
      ev.ReachStartTime ≤ ev.Time ∧ ev.ReachEndTime ≤ ev.Time := by
  induction inputs generalizing s with
  | nil => simp [FReachInput.run]
  | cons i rest ih =>
    unfold FReachInput.NonDecreasing at hord
    rw [List.pairwise_cons] at hord
    intro ev hev
    simp only [FReachInput.run, List.mem_append] at hev
    rcases hev with hev | hev
    · exact FReachInput_apply_events c s i (hstate i (List.mem_cons_self _ _)) ev hev
    · refine ih (FReachInput.apply c s i).1 ?_ hord.2 ev hev
      intro j hj b hb
      exact FReachInput_apply_bounded c s i b (hstate j (List.mem_cons_of_mem _ hj) b hb)
        (fun a ha => hord.1 j hj a ha b hb)

/-! ## Lemmas on the event data logger -/

/-- The loop of `FinishPendingEvents` appends the pending events, in order, each with
its end time set. -/
theorem FinishPendingEventsLoop_eq (t : Int) (pending finished : List ISLEvent) :
    USLEventDataLogger.FinishPendingEventsLoop t finished pending =
      finished ++ pending.map (fun PE => { PE with End := some t }) := by
  induction pending generalizing finished with
  | nil => simp [USLEventDataLogger.FinishPendingEventsLoop]
  | cons a l ih => simp [USLEventDataLogger.FinishPendingEventsLoop, ih]

/-! ## Grasp event handler: claims -/

/-- C1: minimum-duration filter.  When `e` is the first open event whose item is `o`,
`FinishEvent o t` publishes exactly `e` with `End = t` if `t - e.Start > GraspEventMin`
and publishes nothing otherwise, the difference being the `float` difference the code
computes; hence a grasp begun at time 0 and ended at the `float` `GraspEventMin - eps`
publishes nothing, and one ended at the `float` `GraspEventMin + eps` publishes exactly
one event. -/
theorem C1_grasp_min_duration_filter
    (h : FSLGraspEventHandler) (pre post : List FSLGraspEvent) (e : FSLGraspEvent)
    (o : UObject) (t : Int)
    (hopen : h.StartedEvents = pre ++ e :: post)
    (hfirst : ∀ x ∈ pre, x.Item.Obj ≠ o) (he : e.Item.Obj = o) :
    ((F32.Sub t e.Start > h.GraspEventMin →
        (h.FinishEvent o t).2.2 = [{ e with End := some t }]) ∧
     (¬ F32.Sub t e.Start > h.GraspEventMin → (h.FinishEvent o t).2.2 = [])) ∧
    (∀ (h0 : FSLGraspEventHandler) (Self Other : FSLEntity) (InType Guid : String) (eps : Int),
      (∀ x ∈ h0.StartedEvents, x.Item.Obj ≠ Other.Obj) → 0 < eps →
      (F32.Round (h0.GraspEventMin - eps) = h0.GraspEventMin - eps →
        ((h0.AddNewEvent Self Other 0 InType Guid).FinishEvent Other.Obj
          (h0.GraspEventMin - eps)).2.2 = []) ∧
      (F32.Round (h0.GraspEventMin + eps) = h0.GraspEventMin + eps →
        ((h0.AddNewEvent Self Other 0 InType Guid).FinishEvent Other.Obj
          (h0.GraspEventMin + eps)).2.2.length = 1)) := by
  refine ⟨?_, ?_⟩
  · have hloop := FinishEventLoop_first_match h.GraspEventMin o t pre post e hfirst he
    constructor
    · intro hgt
      simp [FSLGraspEventHandler.FinishEvent, hopen, hloop, hgt]
    · intro hle
      simp [FSLGraspEventHandler.FinishEvent, hopen, hloop, hle]
  · intro h0 Self Other InType Guid eps hno heps
    have hloop := fun (t : Int) => FinishEventLoop_first_match h0.GraspEventMin Other.Obj t
      h0.StartedEvents []
      { Id := Guid, Start := 0, End := none,
        PairId := PairEncodeCantor Self.Obj.UniqueID Other.Obj.UniqueID,
        Manipulator := Self, Item := Other, GraspType := InType } hno rfl
    constructor
    · intro hfloat
      have hle : ¬ F32.Sub (h0.GraspEventMin - eps) 0 > h0.GraspEventMin := by
        rw [F32.Sub_zero _ hfloat]
        omega
      simp only [FSLGraspEventHandler.FinishEvent, FSLGraspEventHandler.AddNewEvent, hloop]
      simp [hle]
    · intro hfloat
      have hgt : F32.Sub (h0.GraspEventMin + eps) 0 > h0.GraspEventMin := by
        rw [F32.Sub_zero _ hfloat]
        omega
      simp only [FSLGraspEventHandler.FinishEvent, FSLGraspEventHandler.AddNewEvent, hloop]
      simp [hgt]

/-- C1, concrete instance: with `GraspEventMin = 2` and open grasps of the cup (since
time 1) and the pot (since time 3), ending the grasp of the pot (object 9) at time 10
publishes the second event with `End = 10`; and on a handler with `GraspEventMin = 2`
and no open event, a grasp of the pot begun at time 0 publishes nothing when ended at
time `2 - 1` and one event when ended at time `2 + 1`. -/
theorem C1_grasp_min_duration_filter_witness :
    (SampleGraspHandler.FinishEvent ⟨9⟩ (F32.ofInt 10)).2.2 =
      [{ Id := "b", Start := F32.ofInt 3, End := some (F32.ofInt 10), PairId := 0,
         Manipulator := ⟨⟨1⟩, "hand", "Hand"⟩, Item := ⟨⟨9⟩, "pot", "Pot"⟩,
         GraspType := "power" }] ∧
    (((FSLGraspEventHandler.New (F32.ofInt 2)).AddNewEvent ⟨⟨1⟩, "hand", "Hand"⟩
        ⟨⟨9⟩, "pot", "Pot"⟩ 0 "power" "b").FinishEvent ⟨9⟩ (F32.ofInt 2 - F32.ofInt 1)).2.2 =
      [] ∧
    (((FSLGraspEventHandler.New (F32.ofInt 2)).AddNewEvent ⟨⟨1⟩, "hand", "Hand"⟩
        ⟨⟨9⟩, "pot", "Pot"⟩ 0 "power" "b").FinishEvent ⟨9⟩
        (F32.ofInt 2 + F32.ofInt 1)).2.2.length = 1 :=
  have h := C1_grasp_min_duration_filter SampleGraspHandler
    [{ Id := "a", Start := F32.ofInt 1, End := none, PairId := 0,
       Manipulator := ⟨⟨1⟩, "hand", "Hand"⟩, Item := ⟨⟨7⟩, "cup", "Cup"⟩,
       GraspType := "power" }]
    []
    { Id := "b", Start := F32.ofInt 3, End := none, PairId := 0,
      Manipulator := ⟨⟨1⟩, "hand", "Hand"⟩, Item := ⟨⟨9⟩, "pot", "Pot"⟩,
      GraspType := "power" }
    ⟨9⟩ (F32.ofInt 10) rfl (by decide) rfl
  ⟨h.1.1 (by decide),
    (h.2 (FSLGraspEventHandler.New (F32.ofInt 2)) ⟨⟨1⟩, "hand", "Hand"⟩ ⟨⟨9⟩, "pot", "Pot"⟩
      "power" "b" (F32.ofInt 1) (by decide) (by decide)).1 (by decide),
    (h.2 (FSLGraspEventHandler.New (F32.ofInt 2)) ⟨⟨1⟩, "hand", "Hand"⟩ ⟨⟨9⟩, "pot", "Pot"⟩
      "power" "b" (F32.ofInt 1) (by decide) (by decide)).2 (by decide)⟩

/-- C2: no dangling intervals.  On a handler that is initialized and not yet finished
(in particular on one that is initialized and started), after any sequence of
`AddNewEvent` calls a forced `Finish` leaves the list of open events empty, whatever
the parent reports or delivers while finishing. -/
theorem C2_no_dangling_intervals (h : FSLGraspEventHandler)
    (hinit : h.bIsInit = true) (hnotfin : h.bIsFinished = false)
    (begins : List (FSLEntity × FSLEntity × Int × String × String)) (EndTime : Int)
    (ParentIsFinished : Bool) (ParentPending : List GraspSignal) :
    ((AddNewEvents h begins).Finish EndTime true ParentIsFinished
        ParentPending).1.StartedEvents = [] := by
  obtain ⟨h1, _, h3⟩ := AddNewEvents_flags begins h
  simp [FSLGraspEventHandler.Finish, FSLGraspEventHandler.FinishAllEvents, h1, h3, hinit,
    hnotfin]

/-- C2, concrete instance: a constructed handler is initialized and started, two
grasps are opened, and `Finish` at time 5 leaves no open event. -/
theorem C2_no_dangling_intervals_witness :
    ((AddNewEvents (((FSLGraspEventHandler.New 2).Init true).Start)
        [(⟨⟨1⟩, "hand", "Hand"⟩, ⟨⟨7⟩, "cup", "Cup"⟩, 0, "power", "a"),
         (⟨⟨1⟩, "hand", "Hand"⟩, ⟨⟨9⟩, "pot", "Pot"⟩, 4, "power", "b")]).Finish 5 true false
        []).1.StartedEvents = [] :=
  C2_no_dangling_intervals (((FSLGraspEventHandler.New 2).Init true).Start) rfl rfl
    [(⟨⟨1⟩, "hand", "Hand"⟩, ⟨⟨7⟩, "cup", "Cup"⟩, 0, "power", "a"),
     (⟨⟨1⟩, "hand", "Hand"⟩, ⟨⟨9⟩, "pot", "Pot"⟩, 4, "power", "b")] 5 false []

/-- C3: at-most-once publication.  For every sequence of `AddNewEvent`, `FinishEvent`
and `FinishAllEvents` calls in which every `AddNewEvent` draws a fresh id, no event is
published twice; and the event handled by a `FinishEvent` call (the first open event
for its object, whether published or discarded) is not published by any later call of
the sequence. -/
theorem C3_published_at_most_once (h0 : FSLGraspEventHandler) (ops : List GraspOp)
    (hfresh : (GraspIds h0.StartedEvents ++ GraspOp.guids ops).Nodup) :
    (GraspIds (GraspOp.run h0 ops).2).Nodup ∧
    ∀ (ops1 ops2 : List GraspOp) (o : UObject) (t : Int) (pre post : List FSLGraspEvent)
      (e : FSLGraspEvent),
      ops = ops1 ++ GraspOp.FinishEvent o t :: ops2 →
      (GraspOp.run h0 ops1).1.StartedEvents = pre ++ e :: post →
      (∀ x ∈ pre, x.Item.Obj ≠ o) → e.Item.Obj = o →
      e.Id ∉ GraspIds (GraspOp.run ((GraspOp.run h0 ops1).1.FinishEvent o t).2.1 ops2).2 := by
  refine ⟨?_, ?_⟩
  · have hn := nodup_of_subperm (GraspOp_run_ids ops h0) hfresh
    exact (List.nodup_append.mp hn).1
  · intro ops1 ops2 o t pre post e hops hopen hpre he hmem
    -- ids known after the first part of the run
    have h1 := GraspOp_run_ids ops1 h0
    have hg : GraspOp.guids ops = GraspOp.guids ops1 ++ GraspOp.guids ops2 := by
      rw [hops, GraspOp_guids_append]
      rfl
    rw [hg, ← List.append_assoc] at hfresh
    have hn1 := nodup_of_subperm ((List.subperm_append_right (GraspOp.guids ops2)).mpr h1) hfresh
    rw [List.append_assoc] at hn1
    have hn2 := (List.nodup_append.mp hn1).2.1
    rw [hopen] at hn2
    -- the state after `FinishEvent` holds `pre ++ post`
    have hstate : ((GraspOp.run h0 ops1).1.FinishEvent o t).2.1.StartedEvents = pre ++ post := by
      simp [FSLGraspEventHandler.FinishEvent, hopen,
        FinishEventLoop_first_match _ o t pre post e hpre he]
    have h2 := (GraspOp_run_ids ops2 ((GraspOp.run h0 ops1).1.FinishEvent o t).2.1).subset
    rw [hstate] at h2
    have hin := h2 (List.mem_append_left _ hmem)
    simp only [GraspIds, List.map_append, List.map_cons, List.append_assoc] at hn2 hin
    have hnot : e.Id ∉ List.map (fun e => e.Id) pre ++
        (List.map (fun e => e.Id) post ++ GraspOp.guids ops2) := by
      have hperm : (List.map (fun e => e.Id) pre ++
          (e.Id :: (List.map (fun e => e.Id) post ++ GraspOp.guids ops2))).Perm
          (e.Id :: (List.map (fun e => e.Id) pre ++
            (List.map (fun e => e.Id) post ++ GraspOp.guids ops2))) := List.perm_middle
      exact (List.nodup_cons.mp (hperm.nodup_iff.mp hn2)).1
    exact hnot hin

/-- C3, concrete instance: two grasps are opened, the first is ended twice and then
everything is swept; the events published carry pairwise different ids. -/
theorem C3_published_at_most_once_witness :
    (GraspIds (GraspOp.run (FSLGraspEventHandler.New 2)
      [GraspOp.AddNewEvent ⟨⟨1⟩, "hand", "Hand"⟩ ⟨⟨7⟩, "cup", "Cup"⟩ 0 "power" "a",
       GraspOp.AddNewEvent ⟨⟨1⟩, "hand", "Hand"⟩ ⟨⟨9⟩, "pot", "Pot"⟩ 1 "power" "b",
       GraspOp.FinishEvent ⟨7⟩ 5,
       GraspOp.FinishEvent ⟨7⟩ 6,
       GraspOp.FinishAllEvents 9]).2).Nodup :=
  (C3_published_at_most_once (FSLGraspEventHandler.New 2)
    [GraspOp.AddNewEvent ⟨⟨1⟩, "hand", "Hand"⟩ ⟨⟨7⟩, "cup", "Cup"⟩ 0 "power" "a",
     GraspOp.AddNewEvent ⟨⟨1⟩, "hand", "Hand"⟩ ⟨⟨9⟩, "pot", "Pot"⟩ 1 "power" "b",
     GraspOp.FinishEvent ⟨7⟩ 5,
     GraspOp.FinishEvent ⟨7⟩ 6,
     GraspOp.FinishAllEvents 9] (by decide)).1

/-- C4: idempotent `Finish`.  From every state, a second `Finish` call publishes
nothing and leaves the state reached by the first call unchanged, so the events
published by both calls together are those published by the first call alone. -/
theorem C4_finish_idempotent (h : FSLGraspEventHandler) (t1 t2 : Int) (f1 f2 : Bool)
    (pf1 pf2 : Bool) (pp1 pp2 : List GraspSignal) :
    ((h.Finish t1 f1 pf1 pp1).1.Finish t2 f2 pf2 pp2).2 = [] ∧
    ((h.Finish t1 f1 pf1 pp1).1.Finish t2 f2 pf2 pp2).1 = (h.Finish t1 f1 pf1 pp1).1 ∧
    (h.Finish t1 f1 pf1 pp1).2 ++ ((h.Finish t1 f1 pf1 pp1).1.Finish t2 f2 pf2 pp2).2 =
      (h.Finish t1 f1 pf1 pp1).2 := by
  by_cases hg : (!h.bIsFinished && (h.bIsInit || h.bIsStarted)) = true
  · have h1 : h.Finish t1 f1 pf1 pp1 =
        ({ ((if !pf1 then h.DeliverAll pp1 else (h, [])).1.FinishAllEvents t1).1 with
            bIsStarted := false, bIsInit := false, bIsFinished := true },
          (if !pf1 then h.DeliverAll pp1 else (h, [])).2 ++
            ((if !pf1 then h.DeliverAll pp1 else (h, [])).1.FinishAllEvents t1).2) := by
      simp only [FSLGraspEventHandler.Finish, hg, if_true]
    rw [h1]
    simp [FSLGraspEventHandler.Finish]
  · have h1 : h.Finish t1 f1 pf1 pp1 = (h, []) := by
      simp only [FSLGraspEventHandler.Finish, hg, if_false]
      rfl
    have h2 : h.Finish t2 f2 pf2 pp2 = (h, []) := by
      simp only [FSLGraspEventHandler.Finish, hg, if_false]
      rfl
    rw [h1]
    simp [h2]

/-- C5: pairing determinism.  The pair key does not depend on the order of the two
object ids, and so the `PairId` stored by `AddNewEvent` for entities `A`, `B` equals
the one stored for `B`, `A`. -/
theorem C5_pair_key_symmetric (A B : FSLEntity) :
    PairEncodeCantor A.Obj.UniqueID B.Obj.UniqueID =
      PairEncodeCantor B.Obj.UniqueID A.Obj.UniqueID ∧
    ∀ (h : FSLGraspEventHandler) (t : Int) (ty g : String),
      (h.AddNewEvent A B t ty g).StartedEvents.getLast?.map (fun e => e.PairId) =
        (h.AddNewEvent B A t ty g).StartedEvents.getLast?.map (fun e => e.PairId) := by
  refine ⟨PairEncodeCantor_comm _ _, ?_⟩
  intro h t ty g
  simp [FSLGraspEventHandler.AddNewEvent, PairEncodeCantor_comm A.Obj.UniqueID]


/-! ## Pick-and-place listener: claims -/

/-- C7: Slide to PickUp.  In state `Slide`, a tick on which the grasped object is not
supported always moves the machine to `PickUp`; it broadcasts exactly one Slide event
`[PrevRelevantTime, exact support-loss time]` if and only if the horizontal distance
from `PrevRelevantLocation` (the `float` value of `FVector::DistXY`) exceeds
`MinSlideDistXY` and the time since `PrevRelevantTime` (the `float` difference) exceeds
`MinSlideDuration`, and nothing otherwise. -/
theorem C7_slide_to_pickup (c : FPaPConstants) (s : USLPickAndPlaceListener) (w : FWorld)
    (Obj : UObject) (CSI : Nat)
    (_hstate : s.EventCheck = .Slide) (hptr : s.UpdateFunctionPtr = .Update_Slide)
    (hobj : s.CurrGraspedObj = some Obj) (hcsi : s.GraspedObjectContactShape = some CSI)
    (hunsup : w.IsSupportedBySomething CSI = false) :
    ∃ s' evs, s.Update c w = some (s', evs) ∧
      s'.EventCheck = .PickUp ∧ s'.UpdateFunctionPtr = .Update_PickUp ∧
      (evs = [⟨.OnManipulatorSlideEvent, s.SemanticOwner, some Obj, s.PrevRelevantTime,
                w.LastSupportedByEndTime CSI⟩] ↔
        (FVector.DistXYGreater s.PrevRelevantLocation (w.ActorLocation Obj)
            c.MinSlideDistXY = true ∧
          F32.Sub w.TimeSeconds s.PrevRelevantTime > c.MinSlideDuration)) ∧
      (¬ (FVector.DistXYGreater s.PrevRelevantLocation (w.ActorLocation Obj)
            c.MinSlideDistXY = true ∧
          F32.Sub w.TimeSeconds s.PrevRelevantTime > c.MinSlideDuration) → evs = []) := by
  by_cases hcond : FVector.DistXYGreater s.PrevRelevantLocation (w.ActorLocation Obj)
      c.MinSlideDistXY = true ∧ F32.Sub w.TimeSeconds s.PrevRelevantTime > c.MinSlideDuration
  · refine ⟨{ s with PrevRelevantTime := w.LastSupportedByEndTime CSI,
                     PrevRelevantLocation := w.ActorLocation Obj,
                     bLiftOffHappened := false, EventCheck := .PickUp,
                     UpdateFunctionPtr := .Update_PickUp },
      [⟨.OnManipulatorSlideEvent, s.SemanticOwner, some Obj, s.PrevRelevantTime,
        w.LastSupportedByEndTime CSI⟩], ?_, rfl, rfl, ?_, ?_⟩
    · simp only [USLPickAndPlaceListener.Update, hptr, USLPickAndPlaceListener.Update_Slide,
        hobj, hcsi, hunsup]
      simp [hcond.1, hcond.2]
    · simp [hcond.1, hcond.2]
    · intro hn; exact absurd hcond hn
  · refine ⟨{ s with bLiftOffHappened := false, EventCheck := .PickUp,
                     UpdateFunctionPtr := .Update_PickUp }, [], ?_, rfl, rfl, ?_, ?_⟩
    · simp only [USLPickAndPlaceListener.Update, hptr, USLPickAndPlaceListener.Update_Slide,
        hobj, hcsi, hunsup]
      have hb : (FVector.DistXYGreater s.PrevRelevantLocation (w.ActorLocation Obj)
          c.MinSlideDistXY && decide (F32.Sub w.TimeSeconds s.PrevRelevantTime >
            c.MinSlideDuration)) = false := by
        rw [Bool.and_eq_false_iff]
        by_cases h1 : FVector.DistXYGreater s.PrevRelevantLocation (w.ActorLocation Obj)
            c.MinSlideDistXY = true
        · right
          simpa using fun h2 => hcond ⟨h1, h2⟩
        · left
          simpa using h1
      simp [hb]
    · simp [hcond]
    · intro _; rfl


/-- C7, concrete instance: anchors at time 0 and the origin; at time 5 the object is
unsupported at `(10, 0, 0)`, its support having ended at time 4.  The tick broadcasts
the Slide event `[0, 4]` and the machine is in `PickUp`. -/
theorem C7_slide_to_pickup_witness :
    ∃ s' evs,
      (SampleGrasping .Slide .Update_Slide 0 ⟨0, 0, 0⟩ false ⟨0, 0, 0⟩).Update SampleConstants
        (SampleWorld 5 ⟨10, 0, 0⟩ false 4) = some (s', evs) ∧
      s'.EventCheck = .PickUp ∧
      evs = [⟨.OnManipulatorSlideEvent, SampleOwner, some ⟨7⟩, F32.ofInt 0, F32.ofInt 4⟩] :=
  match C7_slide_to_pickup SampleConstants
      (SampleGrasping .Slide .Update_Slide 0 ⟨0, 0, 0⟩ false ⟨0, 0, 0⟩)
      (SampleWorld 5 ⟨10, 0, 0⟩ false 4) ⟨7⟩ 0 rfl rfl rfl rfl rfl with
  | ⟨s', evs, hrun, hstate, _, hiff, _⟩ =>
    ⟨s', evs, hrun, hstate, hiff.mpr ⟨by decide, by decide⟩⟩

/-- C8: PickUp emission.  In state `PickUp` with lift-off recorded, a tick at time `t`
on which the object is not supported broadcasts exactly one PickUp event
`[PrevRelevantTime, t]` and moves the machine to `TransportOrPutDown` if and only if
the rise above `LiftOffLocation` (the `float` difference of the heights) exceeds
`MaxPickUpHeight` or the horizontal distance from `LiftOffLocation` (the `float` value
of `FVector::DistXY`) exceeds `MaxPickUpDistXY`; otherwise the tick broadcasts nothing
and the state is unchanged. -/
theorem C8_pickup_emission (c : FPaPConstants) (s : USLPickAndPlaceListener) (w : FWorld)
    (Obj : UObject) (CSI : Nat)
    (hstate : s.EventCheck = .PickUp) (hptr : s.UpdateFunctionPtr = .Update_PickUp)
    (hobj : s.CurrGraspedObj = some Obj) (hcsi : s.GraspedObjectContactShape = some CSI)
    (hlift : s.bLiftOffHappened = true) (hunsup : w.IsSupportedBySomething CSI = false) :
    ∃ s' evs, s.Update c w = some (s', evs) ∧
      ((evs = [⟨.OnManipulatorPickUpEvent, s.SemanticOwner, some Obj, s.PrevRelevantTime,
                w.TimeSeconds⟩] ∧ s'.EventCheck = .TransportOrPutDown) ↔
        (F32.Sub (w.ActorLocation Obj).Z s.LiftOffLocation.Z > c.MaxPickUpHeight ∨
          FVector.DistXYGreater s.LiftOffLocation (w.ActorLocation Obj)
            c.MaxPickUpDistXY = true)) ∧
      (¬ (F32.Sub (w.ActorLocation Obj).Z s.LiftOffLocation.Z > c.MaxPickUpHeight ∨
          FVector.DistXYGreater s.LiftOffLocation (w.ActorLocation Obj)
            c.MaxPickUpDistXY = true) →
        evs = [] ∧ s'.EventCheck = .PickUp ∧ s' = s) := by
  by_cases hcond : F32.Sub (w.ActorLocation Obj).Z s.LiftOffLocation.Z > c.MaxPickUpHeight ∨
      FVector.DistXYGreater s.LiftOffLocation (w.ActorLocation Obj) c.MaxPickUpDistXY = true
  · refine ⟨{ s with bLiftOffHappened := false, PrevRelevantTime := w.TimeSeconds,
                     PrevRelevantLocation := w.ActorLocation Obj,
                     EventCheck := .TransportOrPutDown,
                     UpdateFunctionPtr := .Update_TransportOrPutDown },
      [⟨.OnManipulatorPickUpEvent, s.SemanticOwner, some Obj, s.PrevRelevantTime,
        w.TimeSeconds⟩], ?_, ?_, ?_⟩
    · have hb : (decide (F32.Sub (w.ActorLocation Obj).Z s.LiftOffLocation.Z > c.MaxPickUpHeight)
          || FVector.DistXYGreater s.LiftOffLocation (w.ActorLocation Obj)
            c.MaxPickUpDistXY) = true := by
        rcases hcond with h1 | h2
        · simp [h1]
        · simp [h2]
      simp only [USLPickAndPlaceListener.Update, hptr, USLPickAndPlaceListener.Update_PickUp,
        hobj, hcsi, hunsup, hlift]
      simp [hb]
    · simp [hcond]
    · intro hn; exact absurd hcond hn
  · refine ⟨s, [], ?_, ?_, ?_⟩
    · have hb : (decide (F32.Sub (w.ActorLocation Obj).Z s.LiftOffLocation.Z > c.MaxPickUpHeight)
          || FVector.DistXYGreater s.LiftOffLocation (w.ActorLocation Obj)
            c.MaxPickUpDistXY) = false := by
        rw [Bool.or_eq_false_iff]
        constructor
        · simpa using fun h1 => hcond (Or.inl h1)
        · simpa using fun h2 => hcond (Or.inr h2)
      simp only [USLPickAndPlaceListener.Update, hptr, USLPickAndPlaceListener.Update_PickUp,
        hobj, hcsi, hunsup, hlift]
      simp [hb]
    · simp [hcond]
    · intro _; exact ⟨rfl, hstate, rfl⟩

/-- C8, concrete instance: lift-off recorded at height 4, anchors at time 0; at time 3
the object is unsupported at height 15.  The tick broadcasts the PickUp event `[0, 3]`
and the machine is in `TransportOrPutDown`. -/
theorem C8_pickup_emission_witness :
    ∃ s' evs,
      (SampleGrasping .PickUp .Update_PickUp 0 ⟨0, 0, 0⟩ true ⟨0, 0, 4⟩).Update SampleConstants
        (SampleWorld 3 ⟨0, 0, 15⟩ false 1) = some (s', evs) ∧
      evs = [⟨.OnManipulatorPickUpEvent, SampleOwner, some ⟨7⟩, F32.ofInt 0, F32.ofInt 3⟩] ∧
      s'.EventCheck = .TransportOrPutDown :=
  match C8_pickup_emission SampleConstants
      (SampleGrasping .PickUp .Update_PickUp 0 ⟨0, 0, 0⟩ true ⟨0, 0, 4⟩)
      (SampleWorld 3 ⟨0, 0, 15⟩ false 1) ⟨7⟩ 0 rfl rfl rfl rfl rfl rfl with
  | ⟨s', evs, hrun, hiff, _⟩ => ⟨s', evs, hrun, hiff.mpr (Or.inl (by decide))⟩

/-- C9, as stated, fails: grasp begins while supported at time 0, support is lost at
time 1 without drift, the object is 4 above its grasp location at time 2 (lift-off)
and 11 above the lift-off point at time 3.  Exactly one PickUp event is broadcast, and
its interval is `[0, 3]` rather than `[1, 3]`. -/
theorem C9_pickup_interval_counterexample :
    (FPaPInput.run SampleConstants SampleListener
      [.GraspBegin (SampleWorld 0 ⟨0, 0, 0⟩ true 0) SampleOwner ⟨7⟩ (F32.ofInt 0) "power",
       .Tick (SampleWorld 1 ⟨0, 0, 0⟩ false 1),
       .Tick (SampleWorld 2 ⟨0, 0, 4⟩ false 1),
       .Tick (SampleWorld 3 ⟨0, 0, 15⟩ false 1)]).map (fun r => r.2) =
      some [⟨.OnManipulatorPickUpEvent, SampleOwner, some ⟨7⟩, F32.ofInt 0, F32.ofInt 3⟩] ∧
    (FPaPInput.run SampleConstants SampleListener
      [.GraspBegin (SampleWorld 0 ⟨0, 0, 0⟩ true 0) SampleOwner ⟨7⟩ (F32.ofInt 0) "power",
       .Tick (SampleWorld 1 ⟨0, 0, 0⟩ false 1),
       .Tick (SampleWorld 2 ⟨0, 0, 4⟩ false 1),
       .Tick (SampleWorld 3 ⟨0, 0, 15⟩ false 1)]).map (fun r => r.2) ≠
      some [⟨.OnManipulatorPickUpEvent, SampleOwner, some ⟨7⟩, F32.ofInt 1, F32.ofInt 3⟩] := by
  decide

/-- C9, amended: for every run in which grasp begins while supported at `t0`, support
is lost at `t1 > t0` with too little drift for a Slide event, the object is then more
than `MinPickUpHeight` above its grasp-begin location at `t2` (lift-off) and more than
`MaxPickUpHeight` above the lift-off point at `t3`, exactly one PickUp event is
broadcast, its interval is `[t0, t3]`, and the machine ends in `TransportOrPutDown`;
after the support-loss tick the anchors are still the grasp-begin time and location,
because they are moved only when a Slide event is broadcast.  The run may contain
further ticks on which nothing happens: ticks `A` while the object is still supported,
ticks `B` after the loss of support and before lift-off, and ticks `C` after lift-off
within both pick-up limits.  Rises and drifts are the `float` differences and distances
the code computes. -/
theorem C9_end_to_end_pickup (c : FPaPConstants) (s0 : USLPickAndPlaceListener)
    (w0 w1 w2 w3 : FWorld) (A B C : List FWorld) (Self : FSLEntity) (O : UObject)
    (Time : Int) (GraspType : String) (CSI : Nat)
    (hfree : s0.CurrGraspedObj = none)
    (hcsi : USLPickAndPlaceListener.GetContactShapeComponent w0 (some O) = some CSI)
    (hsup0 : w0.IsSupportedBySomething CSI = true)
    (hA : ∀ w ∈ A, w.IsSupportedBySomething CSI = true)
    (_ht : w0.TimeSeconds < w1.TimeSeconds)
    (hun1 : w1.IsSupportedBySomething CSI = false)
    (hdrift : FVector.DistXYGreater (w0.ActorLocation O) (w1.ActorLocation O)
      c.MinSlideDistXY = false)
    (hB : ∀ w ∈ B, w.IsSupportedBySomething CSI = false ∧
      ¬ F32.Sub (w.ActorLocation O).Z (w0.ActorLocation O).Z > c.MinPickUpHeight ∧
      FVector.DistXYGreater s0.LiftOffLocation (w0.ActorLocation O) c.MaxPickUpDistXY = false)
    (hun2 : w2.IsSupportedBySomething CSI = false)
    (hrise2 : F32.Sub (w2.ActorLocation O).Z (w0.ActorLocation O).Z > c.MinPickUpHeight)
    (hC : ∀ w ∈ C, w.IsSupportedBySomething CSI = false ∧
      ¬ F32.Sub (w.ActorLocation O).Z (w2.ActorLocation O).Z > c.MaxPickUpHeight ∧
      FVector.DistXYGreater (w2.ActorLocation O) (w.ActorLocation O) c.MaxPickUpDistXY = false)
    (hun3 : w3.IsSupportedBySomething CSI = false)
    (hrise3 : F32.Sub (w3.ActorLocation O).Z (w2.ActorLocation O).Z > c.MaxPickUpHeight) :
    (∃ s1, FPaPInput.run c s0
        (.GraspBegin w0 Self O Time GraspType :: (A.map .Tick ++ [.Tick w1])) =
        some (s1, []) ∧
      s1.EventCheck = .PickUp ∧ s1.PrevRelevantTime = w0.TimeSeconds ∧
      s1.PrevRelevantLocation = w0.ActorLocation O) ∧
    (∃ s3, FPaPInput.run c s0
        (.GraspBegin w0 Self O Time GraspType ::
          (A.map .Tick ++ .Tick w1 :: (B.map .Tick ++ .Tick w2 :: (C.map .Tick ++ [.Tick w3])))) =
        some (s3, [⟨.OnManipulatorPickUpEvent, s0.SemanticOwner, some O, w0.TimeSeconds,
          w3.TimeSeconds⟩]) ∧
      s3.EventCheck = .TransportOrPutDown) := by
  -- grasp-begin: the machine enters `Slide`
  have hbegin := OnSLGraspBegin_supported s0 w0 Self O Time GraspType CSI hfree hcsi hsup0
  obtain ⟨sA, hsA⟩ : ∃ sA, sA = s0.OnSLGraspBegin w0 Self O Time GraspType := ⟨_, rfl⟩
  have hstepA : FPaPInput.apply c s0 (.GraspBegin w0 Self O Time GraspType) = some (sA, []) := by
    simp [FPaPInput.apply, hsA]
  rw [hbegin] at hsA
  have hidleA : ∀ w ∈ A, sA.Update c w = some (sA, []) := fun w hw =>
    Update_Slide_supported c sA w O CSI (by rw [hsA]) (by rw [hsA]) (by rw [hsA]) (hA w hw)
  -- support lost: the machine enters `PickUp`, anchors unchanged
  have hlost := Update_Slide_unsupported_no_drift c sA w1 O CSI (by rw [hsA]) (by rw [hsA])
    (by rw [hsA]) hun1 (by rw [hsA]; exact hdrift)
  obtain ⟨sB, hsB⟩ : ∃ sB, sB =
      { sA with bLiftOffHappened := false, EventCheck := .PickUp,
                UpdateFunctionPtr := .Update_PickUp } := ⟨_, rfl⟩
  rw [← hsB] at hlost
  rw [hsA] at hsB
  have hstepB : FPaPInput.apply c sA (.Tick w1) = some (sB, []) := hlost
  have hidleB : ∀ w ∈ B, sB.Update c w = some (sB, []) := fun w hw =>
    Update_PickUp_before_liftoff c sB w O CSI (by rw [hsB]) (by rw [hsB]) (by rw [hsB])
      (hB w hw).1 (by rw [hsB]) (by rw [hsB]; exact (hB w hw).2.1)
      (by rw [hsB]; exact (hB w hw).2.2)
  -- lift-off is recorded
  have hlift := Update_PickUp_liftoff c sB w2 O CSI (by rw [hsB]) (by rw [hsB]) (by rw [hsB])
    hun2 (by rw [hsB]) (by rw [hsB]; exact hrise2)
  obtain ⟨sC, hsC⟩ : ∃ sC, sC =
      { sB with bLiftOffHappened := true, LiftOffLocation := w2.ActorLocation O } := ⟨_, rfl⟩
  rw [← hsC] at hlift
  rw [hsB] at hsC
  have hstepC : FPaPInput.apply c sB (.Tick w2) = some (sC, []) := hlift
  have hidleC : ∀ w ∈ C, sC.Update c w = some (sC, []) := fun w hw =>
    Update_PickUp_within_limits c sC w O CSI (by rw [hsC]) (by rw [hsC]) (by rw [hsC])
      (hC w hw).1 (by rw [hsC]) (by rw [hsC]; exact (hC w hw).2.1)
      (by rw [hsC]; exact (hC w hw).2.2)
  -- the pick-up ends
  have hend := Update_PickUp_rise c sC w3 O CSI (by rw [hsC]) (by rw [hsC]) (by rw [hsC])
    hun3 (by rw [hsC]) (by rw [hsC]; exact hrise3)
  obtain ⟨sD, hsD⟩ : ∃ sD, sD =
      { sC with bLiftOffHappened := false, PrevRelevantTime := w3.TimeSeconds,
                PrevRelevantLocation := w3.ActorLocation O,
                EventCheck := .TransportOrPutDown,
                UpdateFunctionPtr := .Update_TransportOrPutDown } := ⟨_, rfl⟩
  rw [← hsD] at hend
  have hownC : sC.SemanticOwner = s0.SemanticOwner := by rw [hsC]
  have htimeC : sC.PrevRelevantTime = w0.TimeSeconds := by rw [hsC]
  rw [hownC, htimeC] at hend
  have hstepD : FPaPInput.apply c sC (.Tick w3) =
      some (sD, [⟨.OnManipulatorPickUpEvent, s0.SemanticOwner, some O, w0.TimeSeconds,
        w3.TimeSeconds⟩]) := hend
  constructor
  · refine ⟨sB, ?_, by rw [hsB], by rw [hsB], by rw [hsB]⟩
    have hrunB : FPaPInput.run c sA (A.map .Tick ++ [.Tick w1]) = some (sB, []) := by
      rw [FPaPInput_run_idle_ticks c sA A _ hidleA]
      exact FPaPInput_run_cons c sA sB sB _ [] [] [] hstepB rfl
    exact FPaPInput_run_cons c s0 sA sB _ _ [] [] hstepA hrunB
  · refine ⟨sD, ?_, by rw [hsD]⟩
    have hrunD : FPaPInput.run c sC (C.map .Tick ++ [.Tick w3]) =
        some (sD, [⟨.OnManipulatorPickUpEvent, s0.SemanticOwner, some O, w0.TimeSeconds,
          w3.TimeSeconds⟩]) := by
      rw [FPaPInput_run_idle_ticks c sC C _ hidleC]
      simpa using FPaPInput_run_cons c sC sD sD _ [] _ [] hstepD rfl
    have hrunC : FPaPInput.run c sB (B.map .Tick ++ .Tick w2 :: (C.map .Tick ++ [.Tick w3])) =
        some (sD, [⟨.OnManipulatorPickUpEvent, s0.SemanticOwner, some O, w0.TimeSeconds,
          w3.TimeSeconds⟩]) := by
      rw [FPaPInput_run_idle_ticks c sB B _ hidleB]
      simpa using FPaPInput_run_cons c sB sC sD _ _ [] _ hstepC hrunD
    have hrunB : FPaPInput.run c sA
        (A.map .Tick ++ .Tick w1 :: (B.map .Tick ++ .Tick w2 :: (C.map .Tick ++ [.Tick w3]))) =
        some (sD, [⟨.OnManipulatorPickUpEvent, s0.SemanticOwner, some O, w0.TimeSeconds,
          w3.TimeSeconds⟩]) := by
      rw [FPaPInput_run_idle_ticks c sA A _ hidleA]
      simpa using FPaPInput_run_cons c sA sB sD _ _ [] _ hstepB hrunC
    simpa using FPaPInput_run_cons c s0 sA sD _ _ [] _ hstepA hrunB

/-- C9, concrete instance of the amended statement: the run of the counterexample
broadcasts exactly the PickUp event `[0, 3]` and ends in `TransportOrPutDown`. -/
theorem C9_end_to_end_pickup_witness :
    ∃ s3, FPaPInput.run SampleConstants SampleListener
        [.GraspBegin (SampleWorld 0 ⟨0, 0, 0⟩ true 0) SampleOwner ⟨7⟩ (F32.ofInt 0) "power",
         .Tick (SampleWorld 1 ⟨0, 0, 0⟩ false 1),
         .Tick (SampleWorld 2 ⟨0, 0, 4⟩ false 1),
         .Tick (SampleWorld 3 ⟨0, 0, 15⟩ false 1)] =
        some (s3, [⟨.OnManipulatorPickUpEvent, SampleOwner, some ⟨7⟩, F32.ofInt 0, F32.ofInt 3⟩]) ∧
      s3.EventCheck = .TransportOrPutDown :=
  (C9_end_to_end_pickup SampleConstants SampleListener (SampleWorld 0 ⟨0, 0, 0⟩ true 0)
    (SampleWorld 1 ⟨0, 0, 0⟩ false 1) (SampleWorld 2 ⟨0, 0, 4⟩ false 1)
    (SampleWorld 3 ⟨0, 0, 15⟩ false 1) [] [] [] SampleOwner ⟨7⟩ (F32.ofInt 0) "power" 0
    rfl rfl rfl (by simp) (by decide) rfl (by decide) (by simp) rfl (by decide) (by simp) rfl
    (by decide)).2

/-- C10: support regained during PickUp.  In state `PickUp`, a tick at time `t` on
which the object is supported again always returns the machine to `Slide` with the
anchors reset to `t` and the current location; it broadcasts exactly one PickUp event
`[previous PrevRelevantTime, t]` if and only if lift-off had been recorded, and
nothing otherwise. -/
theorem C10_support_regained_in_pickup (c : FPaPConstants) (s : USLPickAndPlaceListener)
    (w : FWorld) (Obj : UObject) (CSI : Nat)
    (_hstate : s.EventCheck = .PickUp) (hptr : s.UpdateFunctionPtr = .Update_PickUp)
    (hobj : s.CurrGraspedObj = some Obj) (hcsi : s.GraspedObjectContactShape = some CSI)
    (hsup : w.IsSupportedBySomething CSI = true) :
    ∃ s' evs, s.Update c w = some (s', evs) ∧
      s'.EventCheck = .Slide ∧ s'.UpdateFunctionPtr = .Update_Slide ∧
      s'.PrevRelevantTime = w.TimeSeconds ∧
      s'.PrevRelevantLocation = w.ActorLocation Obj ∧
      (evs = [⟨.OnManipulatorPickUpEvent, s.SemanticOwner, some Obj, s.PrevRelevantTime,
                w.TimeSeconds⟩] ↔ s.bLiftOffHappened = true) ∧
      (s.bLiftOffHappened = false → evs = []) := by
  refine ⟨{ s with PrevRelevantTime := w.TimeSeconds,
                   PrevRelevantLocation := w.ActorLocation Obj,
                   EventCheck := .Slide, UpdateFunctionPtr := .Update_Slide },
    if s.bLiftOffHappened then
      [⟨.OnManipulatorPickUpEvent, s.SemanticOwner, some Obj, s.PrevRelevantTime,
        w.TimeSeconds⟩]
    else [], ?_, rfl, rfl, rfl, rfl, ?_, ?_⟩
  · simp only [USLPickAndPlaceListener.Update, hptr, USLPickAndPlaceListener.Update_PickUp,
      hobj, hcsi, hsup]
    simp
  · cases hl : s.bLiftOffHappened <;> simp
  · intro hl; simp [hl]

/-- C10, concrete instance: lift-off recorded, anchors at time 0; at time 6 the object
is supported again at `(2, 0, 1)`.  The tick broadcasts the PickUp event `[0, 6]` and the
machine is in `Slide` with the anchors at time 6 and `(2, 0, 1)`. -/
theorem C10_support_regained_in_pickup_witness :
    ∃ s' evs,
      (SampleGrasping .PickUp .Update_PickUp 0 ⟨0, 0, 0⟩ true ⟨0, 0, 4⟩).Update SampleConstants
        (SampleWorld 6 ⟨2, 0, 1⟩ true 1) = some (s', evs) ∧
      s'.EventCheck = .Slide ∧ s'.PrevRelevantTime = F32.ofInt 6 ∧
      s'.PrevRelevantLocation = FVector.ofInt ⟨2, 0, 1⟩ ∧
      evs = [⟨.OnManipulatorPickUpEvent, SampleOwner, some ⟨7⟩, F32.ofInt 0, F32.ofInt 6⟩] :=
  match C10_support_regained_in_pickup SampleConstants
      (SampleGrasping .PickUp .Update_PickUp 0 ⟨0, 0, 0⟩ true ⟨0, 0, 4⟩)
      (SampleWorld 6 ⟨2, 0, 1⟩ true 1) ⟨7⟩ 0 rfl rfl rfl rfl rfl with
  | ⟨s', evs, hrun, hstate, _, htime, hloc, hiff, _⟩ =>
    ⟨s', evs, hrun, hstate, htime, hloc, hiff.mpr rfl⟩


/-- C11, evaluated on the code: object 7 is grasped at the origin at time 0 and loses
support at time 1 without having moved, so the machine is in `PickUp` with no lift-off
recorded and the anchors at the origin.  At time 2 the unsupported object has drifted
100 horizontally (more than `MaxPickUpDistXY = 10`) without rising; the tick leaves the
machine in `PickUp`, because the skip test compares the stored `LiftOffLocation` with
`PrevRelevantLocation` and never reads the current location.  Conversely, with a
stale `LiftOffLocation` 50 away from the anchor the machine skips to
`TransportOrPutDown` although the object has not moved at all. -/
theorem C11_skip_pickup_ignores_drift :
    FVector.DistXYGreater (FVector.ofInt ⟨0, 0, 0⟩) (FVector.ofInt ⟨100, 0, 0⟩)
      SampleConstants.MaxPickUpDistXY = true ∧
    (FPaPInput.run SampleConstants SampleListener
      [.GraspBegin (SampleWorld 0 ⟨0, 0, 0⟩ true 0) SampleOwner ⟨7⟩ (F32.ofInt 0) "power",
       .Tick (SampleWorld 1 ⟨0, 0, 0⟩ false 1),
       .Tick (SampleWorld 2 ⟨100, 0, 0⟩ false 1)]).map (fun r => (r.1.EventCheck, r.2)) =
      some (.PickUp, []) ∧
    (SampleGrasping .PickUp .Update_PickUp 0 ⟨0, 0, 0⟩ false ⟨0, 0, 0⟩).Update SampleConstants
        (SampleWorld 2 ⟨100, 0, 0⟩ false 1) =
      some (SampleGrasping .PickUp .Update_PickUp 0 ⟨0, 0, 0⟩ false ⟨0, 0, 0⟩, []) ∧
    ((SampleGrasping .PickUp .Update_PickUp 0 ⟨0, 0, 0⟩ false ⟨50, 0, 0⟩).Update SampleConstants
        (SampleWorld 2 ⟨0, 0, 0⟩ false 1)).map (fun r => (r.1.EventCheck, r.2)) =
      some (.TransportOrPutDown, []) := by
  decide

/-- C12, as stated, fails: during transport the object is sampled at times 4, 5 and 50,
and at time 5 it is 100 above the location at which it regains support at time 51
(more than `MinPutDownHeight = 2`).  That sample is 46 old, outside the backtrack
window of 5, so the scan stops there and reports that no put-down happened. -/
theorem C12_put_down_detection_counterexample :
    (FPaPInput.run SamplePutDownConstants SampleListener
      (SampleTransportRun [(4, ⟨0, 0, 0⟩), (5, ⟨0, 0, 100⟩), (50, ⟨0, 0, 0⟩)])).map
        (fun r => r.1.RecentMovementBuffer) =
      some (SampleBuffer [(4, ⟨0, 0, 0⟩), (5, ⟨0, 0, 100⟩), (50, ⟨0, 0, 0⟩)]) ∧
    USLPickAndPlaceListener.HasPutDownEventHappened SamplePutDownConstants
        (SampleTransporting [(4, ⟨0, 0, 0⟩), (5, ⟨0, 0, 100⟩), (50, ⟨0, 0, 0⟩)])
        (F32.ofInt 51) (FVector.ofInt ⟨0, 0, 0⟩) =
      some (false, 1) ∧
    (∃ S ∈ (SampleTransporting
        [(4, ⟨0, 0, 0⟩), (5, ⟨0, 0, 100⟩), (50, ⟨0, 0, 0⟩)]).RecentMovementBuffer,
      F32.Sub S.2.Z (F32.ofInt 0) > SamplePutDownConstants.MinPutDownHeight) := by
  refine ⟨by decide, by decide, (F32.ofInt 5, FVector.ofInt ⟨0, 0, 100⟩), by decide,
    by decide⟩

/-- C12, amended: for a non-empty movement buffer ordered by time whose oldest sample
is not itself a detection, `HasPutDownEventHappened` returns without fault, and it
returns true exactly when some buffered sample inside the backtrack window (younger
than `PutDownMovementBacktrackDuration`) lies more than `MinPutDownHeight` above the
final location; the reported index is then that of the most recent such sample.  Age
and height above the final location are the `float` differences the code computes. -/
theorem C12_put_down_detection (c : FPaPConstants) (s : USLPickAndPlaceListener)
    (CurrTime : Int) (CurrObjLocation : FVector)
    (hne : 0 < s.RecentMovementBuffer.length)
    (hlen : s.RecentMovementBuffer.length < 2 ^ 32)
    (hsorted : ∀ (j k : Nat) (Sj Sk : Int × FVector), j ≤ k → s.RecentMovementBuffer[j]? = some Sj →
      s.RecentMovementBuffer[k]? = some Sk → Sj.1 ≤ Sk.1)
    (holdest : ∀ S : Int × FVector, s.RecentMovementBuffer[0]? = some S →
      ¬ (F32.Sub CurrTime S.1 < c.PutDownMovementBacktrackDuration ∧
        F32.Sub S.2.Z CurrObjLocation.Z > c.MinPutDownHeight)) :
    ∃ b i, s.HasPutDownEventHappened c CurrTime CurrObjLocation = some (b, i) ∧
      (b = true ↔ ∃ (k : Nat) (S : Int × FVector), s.RecentMovementBuffer[k]? = some S ∧
        F32.Sub CurrTime S.1 < c.PutDownMovementBacktrackDuration ∧
        F32.Sub S.2.Z CurrObjLocation.Z > c.MinPutDownHeight) ∧
      (b = true →
        (∃ S : Int × FVector, s.RecentMovementBuffer[i]? = some S ∧
          F32.Sub CurrTime S.1 < c.PutDownMovementBacktrackDuration ∧
          F32.Sub S.2.Z CurrObjLocation.Z > c.MinPutDownHeight) ∧
        ∀ (k : Nat) (S : Int × FVector), i < k → s.RecentMovementBuffer[k]? = some S →
          ¬ (F32.Sub CurrTime S.1 < c.PutDownMovementBacktrackDuration ∧
            F32.Sub S.2.Z CurrObjLocation.Z > c.MinPutDownHeight)) := by
  obtain ⟨b, i, hrun, hle, hpassed, htrue, hfalse⟩ :=
    HasPutDownEventHappenedLoop_spec c s.RecentMovementBuffer CurrTime CurrObjLocation
      (s.RecentMovementBuffer.length - 1) (by omega)
  have hrecent : ∀ (k : Nat) (S : Int × FVector), i < k → s.RecentMovementBuffer[k]? = some S →
      ¬ (F32.Sub CurrTime S.1 < c.PutDownMovementBacktrackDuration ∧
        F32.Sub S.2.Z CurrObjLocation.Z > c.MinPutDownHeight) := by
    intro k S hik hS hboth
    have hk : k < s.RecentMovementBuffer.length := by
      by_contra hcon
      rw [List.getElem?_eq_none (by omega)] at hS
      cases hS
    exact (hpassed k S hik (by omega) hS).2 hboth.2
  refine ⟨b, i, ?_, ?_, ?_⟩
  · unfold USLPickAndPlaceListener.HasPutDownEventHappened
    rw [HasPutDownEventHappened_start _ hne hlen]
    exact hrun
  · constructor
    · intro hb
      obtain ⟨_, S, hS, hy, ha⟩ := htrue hb
      exact ⟨i, S, hS, hy, ha⟩
    · rintro ⟨k, S, hS, hy, ha⟩
      by_contra hb
      have hbf : b = false := by simpa using hb
      have hki : k ≤ i := by
        by_contra hcon
        exact hrecent k S (by omega) hS ⟨hy, ha⟩
      rcases hfalse hbf with h0 | ⟨Si, hSi, hold⟩
      · have hk0 : k = 0 := by omega
        subst hk0
        exact holdest S hS ⟨hy, ha⟩
      · have htime := hsorted k i S Si hki hS hSi
        have hmono := F32.Sub_anti_right CurrTime S.1 Si.1 htime
        omega
  · intro hb
    obtain ⟨_, S, hS, hy, ha⟩ := htrue hb
    exact ⟨⟨S, hS, hy, ha⟩, hrecent⟩

/-- C12, concrete instance: three samples at times 5, 11, 12 and heights 9, 6, 3 above
the final location, scanned at time 13 with a window of 5; the newest sample is more
than 2 above, so the scan reports a put-down at index 2. -/
theorem C12_put_down_detection_witness :
    ∃ b i, (SampleTransporting [(5, ⟨3, 0, 9⟩), (11, ⟨2, 0, 6⟩), (12, ⟨1, 0, 3⟩)]
        ).HasPutDownEventHappened SamplePutDownConstants (F32.ofInt 13)
          (FVector.ofInt ⟨0, 0, 0⟩) = some (b, i) ∧
      (b = true ↔ ∃ (k : Nat) (S : Int × FVector),
        (SampleTransporting [(5, ⟨3, 0, 9⟩), (11, ⟨2, 0, 6⟩), (12, ⟨1, 0, 3⟩)]
          ).RecentMovementBuffer[k]? = some S ∧
        F32.Sub (F32.ofInt 13) S.1 < SamplePutDownConstants.PutDownMovementBacktrackDuration ∧
        F32.Sub S.2.Z (F32.ofInt 0) > SamplePutDownConstants.MinPutDownHeight) :=
  match C12_put_down_detection SamplePutDownConstants
      (SampleTransporting [(5, ⟨3, 0, 9⟩), (11, ⟨2, 0, 6⟩), (12, ⟨1, 0, 3⟩)]) (F32.ofInt 13)
      (FVector.ofInt ⟨0, 0, 0⟩) (by decide) (by decide)
      (by
        intro j k Sj Sk hjk hj hk
        have hk3 : k < 3 := by
          by_contra hcon
          rw [List.getElem?_eq_none
            (by simpa [SampleTransporting, SampleBuffer] using not_lt.mp hcon)] at hk
          cases hk
        interval_cases k <;> interval_cases j <;>
          simp [SampleTransporting, SampleBuffer] at hj hk <;> subst hj <;> subst hk <;> decide)
      (by
        intro S hS
        simp [SampleTransporting, SampleBuffer] at hS
        subst hS
        decide) with
  | ⟨b, i, hrun, hiff, _⟩ => ⟨b, i, hrun, hiff⟩


/-- C13, evaluated on the code: after a pick-up that ended at time 3 the object is
sampled at times 9, 10, 11, 12 and regains support at the origin at time 13.  Put-down is
detected at index 3.  The sample at index 2 is 8 above and 8 beside the final location,
within `MaxPutDownHeight = 10` and, horizontally, within `MaxPutDownDistXY = 10`; the
first sample beyond a limit is the one at index 1 (30 above, time 10).  The code
nevertheless splits at index 2 (time 11), because it compares the three-dimensional
distance with `MaxPutDownDistXY`. -/
theorem C13_put_down_split_uses_3d_distance :
    (FPaPInput.run SamplePutDownConstants SampleListener
      (SampleTransportRun
          [(9, ⟨40, 0, 40⟩), (10, ⟨30, 0, 30⟩), (11, ⟨8, 0, 8⟩), (12, ⟨1, 0, 3⟩)] ++
        [.Tick (SampleWorld 13 ⟨0, 0, 0⟩ true 13)])).map (fun r => r.2) =
      some [⟨.OnManipulatorPickUpEvent, SampleOwner, some ⟨7⟩, F32.ofInt 0, F32.ofInt 3⟩,
            ⟨.OnManipulatorTransportEvent, SampleOwner, some ⟨7⟩, F32.ofInt 3, F32.ofInt 11⟩,
            ⟨.OnManipulatorPutDownEvent, SampleOwner, some ⟨7⟩, F32.ofInt 11, F32.ofInt 13⟩] ∧
    ((SampleTransporting [(9, ⟨40, 0, 40⟩), (10, ⟨30, 0, 30⟩), (11, ⟨8, 0, 8⟩), (12, ⟨1, 0, 3⟩)]
        ).Update SamplePutDownConstants (SampleWorld 13 ⟨0, 0, 0⟩ true 13)).map (fun r => r.2) =
      some [⟨.OnManipulatorTransportEvent, SampleOwner, some ⟨7⟩, F32.ofInt 3, F32.ofInt 11⟩,
            ⟨.OnManipulatorPutDownEvent, SampleOwner, some ⟨7⟩, F32.ofInt 11, F32.ofInt 13⟩] ∧
    (SampleTransporting [(9, ⟨40, 0, 40⟩), (10, ⟨30, 0, 30⟩), (11, ⟨8, 0, 8⟩), (12, ⟨1, 0, 3⟩)]
        ).HasPutDownEventHappened SamplePutDownConstants (F32.ofInt 13)
          (FVector.ofInt ⟨0, 0, 0⟩) = some (true, 3) ∧
    ¬ (F32.Sub (F32.ofInt 8) (F32.ofInt 0) > SamplePutDownConstants.MaxPutDownHeight) ∧
    FVector.DistXYGreater (FVector.ofInt ⟨8, 0, 8⟩) (FVector.ofInt ⟨0, 0, 0⟩)
      SamplePutDownConstants.MaxPutDownDistXY = false ∧
    FVector.DistanceGreater (FVector.ofInt ⟨8, 0, 8⟩) (FVector.ofInt ⟨0, 0, 0⟩)
      SamplePutDownConstants.MaxPutDownDistXY = true ∧
    F32.Sub (F32.ofInt 30) (F32.ofInt 0) > SamplePutDownConstants.MaxPutDownHeight := by
  decide

/-- C14, evaluated on the code: after a pick-up that ended at time 3 the object is
sampled at times 10, 11, 12 and regains support at time 13.  Put-down is detected and no
examined sample crosses a limit, so the oldest sample's time 10 is the boundary; the
tick makes two broadcasts on the PutDown delegate, `[3, 10]` and `[10, 13]`, and none
on the Transport delegate. -/
theorem C14_put_down_fallback_broadcasts :
    (FPaPInput.run SamplePutDownConstants SampleListener
      (SampleTransportRun [(10, ⟨3, 0, 9⟩), (11, ⟨2, 0, 6⟩), (12, ⟨1, 0, 3⟩)] ++
        [.Tick (SampleWorld 13 ⟨0, 0, 0⟩ true 13)])).map (fun r => r.2) =
      some [⟨.OnManipulatorPickUpEvent, SampleOwner, some ⟨7⟩, F32.ofInt 0, F32.ofInt 3⟩,
            ⟨.OnManipulatorPutDownEvent, SampleOwner, some ⟨7⟩, F32.ofInt 3, F32.ofInt 10⟩,
            ⟨.OnManipulatorPutDownEvent, SampleOwner, some ⟨7⟩, F32.ofInt 10, F32.ofInt 13⟩] ∧
    ((SampleTransporting [(10, ⟨3, 0, 9⟩), (11, ⟨2, 0, 6⟩), (12, ⟨1, 0, 3⟩)]
        ).Update SamplePutDownConstants (SampleWorld 13 ⟨0, 0, 0⟩ true 13)).map (fun r => r.2) =
      some [⟨.OnManipulatorPutDownEvent, SampleOwner, some ⟨7⟩, F32.ofInt 3, F32.ofInt 10⟩,
            ⟨.OnManipulatorPutDownEvent, SampleOwner, some ⟨7⟩, F32.ofInt 10, F32.ofInt 13⟩] ∧
    USLPickAndPlaceListener.PutDownStartLoop SamplePutDownConstants
        (SampleTransporting [(10, ⟨3, 0, 9⟩), (11, ⟨2, 0, 6⟩), (12, ⟨1, 0, 3⟩)]) (F32.ofInt 13)
        (FVector.ofInt ⟨0, 0, 0⟩) 2 =
      some (F32.ofInt (-1), []) := by
  decide

/-- C15: transport without put-down.  In state `TransportOrPutDown`, on a tick at time
`t` on which the object is supported again and the detection scan reports no put-down,
exactly one Transport event `[PrevRelevantTime, t]` is broadcast and nothing else;
afterwards the movement buffer is empty and the machine is in `Slide` with the anchors
at `t` and the current location. -/
theorem C15_transport_without_put_down (c : FPaPConstants) (s : USLPickAndPlaceListener)
    (w : FWorld) (Obj : UObject) (CSI : Nat) (i : Nat)
    (_hstate : s.EventCheck = .TransportOrPutDown)
    (hptr : s.UpdateFunctionPtr = .Update_TransportOrPutDown)
    (hobj : s.CurrGraspedObj = some Obj) (hcsi : s.GraspedObjectContactShape = some CSI)
    (hsup : w.IsSupportedBySomething CSI = true)
    (hscan : s.HasPutDownEventHappened c w.TimeSeconds (w.ActorLocation Obj) =
      some (false, i)) :
    ∃ s', s.Update c w =
        some (s', [⟨.OnManipulatorTransportEvent, s.SemanticOwner, some Obj,
          s.PrevRelevantTime, w.TimeSeconds⟩]) ∧
      s'.RecentMovementBuffer = [] ∧ s'.EventCheck = .Slide ∧
      s'.UpdateFunctionPtr = .Update_Slide ∧
      s'.PrevRelevantTime = w.TimeSeconds ∧
      s'.PrevRelevantLocation = w.ActorLocation Obj := by
  refine ⟨{ s with RecentMovementBuffer := [], PrevRelevantTime := w.TimeSeconds,
                   PrevRelevantLocation := w.ActorLocation Obj, EventCheck := .Slide,
                   UpdateFunctionPtr := .Update_Slide }, ?_, rfl, rfl, rfl, rfl, rfl⟩
  simp [USLPickAndPlaceListener.Update, USLPickAndPlaceListener.Update_TransportOrPutDown,
    hptr, hobj, hcsi, hsup, hscan]

/-- C15, concrete instance: three samples at most 2 above the final location; support
is regained at time 13; the Transport event `[3, 13]` is broadcast and the machine is
in `Slide` with an empty buffer. -/
theorem C15_transport_without_put_down_witness :
    ∃ s', (SampleTransporting [(10, ⟨3, 0, 2⟩), (11, ⟨2, 0, 1⟩), (12, ⟨1, 0, 0⟩)]).Update
        SamplePutDownConstants (SampleWorld 13 ⟨0, 0, 0⟩ true 13) =
        some (s', [⟨.OnManipulatorTransportEvent, SampleOwner, some ⟨7⟩, F32.ofInt 3,
                    F32.ofInt 13⟩]) ∧
      s'.RecentMovementBuffer = [] ∧ s'.EventCheck = .Slide :=
  match C15_transport_without_put_down SamplePutDownConstants
      (SampleTransporting [(10, ⟨3, 0, 2⟩), (11, ⟨2, 0, 1⟩), (12, ⟨1, 0, 0⟩)])
      (SampleWorld 13 ⟨0, 0, 0⟩ true 13) ⟨7⟩ 0 0 rfl rfl rfl rfl rfl (by decide) with
  | ⟨s', hrun, hbuf, hstate, _⟩ => ⟨s', hrun, hbuf, hstate⟩

/-- C16, evaluated on the code: object 7 is grasped at time 0, loses support at time 1
and lifts off at time 2, so the machine is in `PickUp` with lift-off recorded.
Grasp-end for the object at time 9 resets the machine to `NONE` and broadcasts
nothing; the same holds in state `Slide`.  (Called from `Finish` instead,
`FinishActiveEvent` does broadcast `[0, 9]` for the same `PickUp` state, on the Slide
delegate.) -/
theorem C16_grasp_end_broadcasts_nothing :
    (FPaPInput.run SampleConstants SampleListener
      SampleLiftOffRun).map (fun r => (r.1.EventCheck, r.1.bLiftOffHappened, r.2)) =
      some (.PickUp, true, []) ∧
    (FPaPInput.run SampleConstants SampleListener
      (SampleLiftOffRun ++ [.GraspEnd SampleOwner ⟨7⟩ (F32.ofInt 9)])).map
        (fun r => (r.1.EventCheck, r.2)) = some (.NONE, []) ∧
    ((SampleGrasping .Slide .Update_Slide 0 ⟨0, 0, 0⟩ false ⟨0, 0, 0⟩).OnSLGraspEnd
        SampleOwner ⟨7⟩ (F32.ofInt 9)).2 = [] ∧
    (FPaPInput.run SampleConstants SampleListener
      (SampleLiftOffRun ++ [.Finish (F32.ofInt 9) true])).map
        (fun r => (r.1.EventCheck, r.2)) =
      some (.NONE,
        [⟨.OnManipulatorSlideEvent, SampleOwner, some ⟨7⟩, F32.ofInt 0, F32.ofInt 9⟩]) := by
  decide

/-! ## Reach listener: claims -/

/-- C17: contact concatenation.  With no object grasped, let `O` be a candidate in
contact with the manipulator since `ct`.  If the contact ends at time `e` and a
contact with `O` begins again at time `b` with `b - e < MaxPreGraspEventTimeGap` (the
`float` difference the code computes), and the delayed callback has not run in
between, then no new contact record is made: the in-contact map is unchanged, so the
contact time of `O` is still `ct`; one recently-ended record is removed again, and
when no older record for `O` was pending, the buffer of recently-ended records is
exactly as before the contact ended.  In general the record removed is the oldest
record for `O` that ended less than the gap before `b`, and the other records keep
their order. -/
theorem C17_contact_concatenation (c : FReachConstants) (s s1 s2 : USLReachListener)
    (w1 w2 : FReachWorld) (bWorldValid : Bool) (Self O : FSLEntity) (rd : FSLTimeAndDist)
    (ct e b : Int)
    (hfree : s.CurrGraspedObj = none)
    (hsma1 : w1.IsStaticMeshActor O.Obj = true) (hsma2 : w2.IsStaticMeshActor O.Obj = true)
    (hcand : TMapFind s.CandidatesWithTimeAndDistance O.Obj = some rd)
    (hcontact : TMapFind s.ObjectsInContactWithManipulator O.Obj = some ct)
    (hgap : F32.Sub b e < c.MaxPreGraspEventTimeGap)
    (hs1 : s1 = s.OnSLManipulatorContactEnd w1 bWorldValid Self O e)
    (hs2 : s2 = s1.OnSLManipulatorContactBegin c w2 ⟨O, b⟩) :
    s2.ObjectsInContactWithManipulator = s.ObjectsInContactWithManipulator ∧
    TMapFind s2.ObjectsInContactWithManipulator O.Obj = some ct ∧
    s2.CandidatesWithTimeAndDistance = s.CandidatesWithTimeAndDistance ∧
    s2.RecentlyEndedManipulatorContactEvents.length =
      s.RecentlyEndedManipulatorContactEvents.length ∧
    ((∀ Ev ∈ s.RecentlyEndedManipulatorContactEvents, Ev.Other ≠ O.Obj) →
      s2.RecentlyEndedManipulatorContactEvents = s.RecentlyEndedManipulatorContactEvents) ∧
    (∃ pre Ev post,
      s.RecentlyEndedManipulatorContactEvents ++ [⟨O.Obj, e⟩] = pre ++ Ev :: post ∧
      (∀ x ∈ pre, ¬ (x.Other = O.Obj ∧ F32.Sub b x.Time < c.MaxPreGraspEventTimeGap)) ∧
      Ev.Other = O.Obj ∧ F32.Sub b Ev.Time < c.MaxPreGraspEventTimeGap ∧
      s2.RecentlyEndedManipulatorContactEvents = pre ++ post) := by
  have hnone : s.CurrGraspedObj.isSome = false := by simp [hfree]
  have hinc : TMapContains s.ObjectsInContactWithManipulator O.Obj = true := by
    simp [TMapContains, hcontact]
  have hcc : TMapContains s.CandidatesWithTimeAndDistance O.Obj = true := by
    simp [TMapContains, hcand]
  -- the state after the contact ended
  have h1rec : s1.RecentlyEndedManipulatorContactEvents =
      s.RecentlyEndedManipulatorContactEvents ++ [⟨O.Obj, e⟩] := by
    rw [hs1]
    unfold USLReachListener.OnSLManipulatorContactEnd
    simp only [hnone, hsma1, hinc, if_true, Bool.false_eq_true, if_false]
    split <;> [rfl; split <;> rfl]
  have h1in : s1.ObjectsInContactWithManipulator = s.ObjectsInContactWithManipulator := by
    rw [hs1]
    unfold USLReachListener.OnSLManipulatorContactEnd
    simp only [hnone, hsma1, hinc, if_true, Bool.false_eq_true, if_false]
    split <;> [rfl; split <;> rfl]
  have h1cand : s1.CandidatesWithTimeAndDistance = s.CandidatesWithTimeAndDistance := by
    rw [hs1]
    unfold USLReachListener.OnSLManipulatorContactEnd
    simp only [hnone, hsma1, hinc, if_true, Bool.false_eq_true, if_false]
    split <;> [rfl; split <;> rfl]
  have h1free : s1.CurrGraspedObj.isSome = false := by
    rw [hs1]
    unfold USLReachListener.OnSLManipulatorContactEnd
    simp only [hnone, hsma1, hinc, if_true, Bool.false_eq_true, if_false]
    split <;> [exact hnone; split <;> exact hnone]
  -- the scan of the new contact finds a record to concatenate with
  have hmatch : ∃ Ev ∈ s1.RecentlyEndedManipulatorContactEvents,
      Ev.Other = O.Obj ∧ F32.Sub b Ev.Time < c.MaxPreGraspEventTimeGap := by
    rw [h1rec]
    exact ⟨⟨O.Obj, e⟩, by simp, rfl, hgap⟩
  obtain ⟨hfound, hlen⟩ := SkipRecentLoop_some_match c O.Obj b _ hmatch
  have h2 : s2 = (USLReachListener.SkipRecentManipulatorContactEndEventTime c s1 O.Obj b).2 := by
    rw [hs2]
    unfold USLReachListener.OnSLManipulatorContactBegin
    simp [h1free, hsma2, h1cand, hcc, USLReachListener.SkipRecentManipulatorContactEndEventTime,
      hfound]
  have h2in : s2.ObjectsInContactWithManipulator = s.ObjectsInContactWithManipulator := by
    rw [h2, ← h1in]
    rfl
  refine ⟨h2in, by rw [h2in]; exact hcontact, ?_, ?_, ?_, ?_⟩
  · rw [h2, ← h1cand]
    rfl
  · have hl : s2.RecentlyEndedManipulatorContactEvents =
        (USLReachListener.SkipRecentLoop c O.Obj b
          s1.RecentlyEndedManipulatorContactEvents).2 := by
      rw [h2]
      rfl
    rw [hl]
    rw [h1rec] at hlen ⊢
    simp only [List.length_append, List.length_singleton] at hlen
    omega
  · intro hfresh
    have hl : s2.RecentlyEndedManipulatorContactEvents =
        (USLReachListener.SkipRecentLoop c O.Obj b
          s1.RecentlyEndedManipulatorContactEvents).2 := by
      rw [h2]
      rfl
    rw [hl, h1rec, SkipRecentLoop_first_match c O.Obj b _ [] ⟨O.Obj, e⟩
      (fun x hx hcon => hfresh x hx hcon.1) ⟨rfl, hgap⟩]
    simp
  · have hl : s2.RecentlyEndedManipulatorContactEvents =
        (USLReachListener.SkipRecentLoop c O.Obj b
          s1.RecentlyEndedManipulatorContactEvents).2 := by
      rw [h2]
      rfl
    obtain ⟨pre, Ev, post, hsplit, hpre, hEv, hrun⟩ := SkipRecentLoop_split c O.Obj b _ hmatch
    refine ⟨pre, Ev, post, ?_, hpre, hEv.1, hEv.2, ?_⟩
    · rw [← h1rec]
      exact hsplit
    · rw [hl, hrun]

/-- C17, concrete instance: the cup has been in contact since time 1; the contact ends
at time 10 and begins again at time 19, with a gap below 10.  The contact time is
still 1 and no recently-ended record is left. -/
theorem C17_contact_concatenation_witness :
    TMapFind ((SampleReachInContact.OnSLManipulatorContactEnd (SampleReachWorld 10 5) true
        SampleOwner SampleCup (F32.ofInt 10)).OnSLManipulatorContactBegin SampleReachConstants
        (SampleReachWorld 19 5) ⟨SampleCup, F32.ofInt 19⟩).ObjectsInContactWithManipulator
      SampleCup.Obj = some (F32.ofInt 1) ∧
    ((SampleReachInContact.OnSLManipulatorContactEnd (SampleReachWorld 10 5) true
        SampleOwner SampleCup (F32.ofInt 10)).OnSLManipulatorContactBegin SampleReachConstants
        (SampleReachWorld 19 5)
        ⟨SampleCup, F32.ofInt 19⟩).RecentlyEndedManipulatorContactEvents =
      SampleReachInContact.RecentlyEndedManipulatorContactEvents :=
  have h := C17_contact_concatenation SampleReachConstants SampleReachInContact _ _
    (SampleReachWorld 10 5) (SampleReachWorld 19 5) true SampleOwner SampleCup
    ⟨F32.ofInt 0, F32.ofInt 20⟩ (F32.ofInt 1) (F32.ofInt 10) (F32.ofInt 19)
    rfl rfl rfl (by decide) (by decide) (by decide) rfl rfl
  ⟨h.2.1, h.2.2.2.2.1 (by decide)⟩


/-- C18: composite event.  With no object grasped, grasp-begin at time `g` for a
static mesh actor `O` that is a candidate with reach time `r` and has the contact time
`ct` broadcasts exactly one composite event carrying `(r, ct, g)`, makes `O` the
grasped object, and leaves the candidates and the objects in contact empty. -/
theorem C18_reach_composite_event (s : USLReachListener) (w : FReachWorld) (Self : FSLEntity)
    (O : UObject) (g : Int) (GraspType : String) (rd : FSLTimeAndDist) (ct : Int)
    (hfree : s.CurrGraspedObj = none) (hsma : w.IsStaticMeshActor O = true)
    (hcand : TMapFind s.CandidatesWithTimeAndDistance O = some rd)
    (hcontact : TMapFind s.ObjectsInContactWithManipulator O = some ct) :
    (s.OnSLGraspBegin w Self O g GraspType).2 = [⟨s.SemanticOwner, O, rd.Time, ct, g⟩] ∧
    (s.OnSLGraspBegin w Self O g GraspType).1.CurrGraspedObj = some O ∧
    (s.OnSLGraspBegin w Self O g GraspType).1.CandidatesWithTimeAndDistance = [] ∧
    (s.OnSLGraspBegin w Self O g GraspType).1.ObjectsInContactWithManipulator = [] := by
  simp [USLReachListener.OnSLGraspBegin, hfree, hsma, hcand, hcontact]

/-- C18, concrete instance: the cup, a candidate since time 0 and in contact since
time 1, is grasped at time 15; the composite event carries `(0, 1, 15)`. -/
theorem C18_reach_composite_event_witness :
    (SampleReachInContact.OnSLGraspBegin (SampleReachWorld 15 1) SampleOwner ⟨7⟩
      (F32.ofInt 15) "power").2 =
      [⟨SampleOwner, ⟨7⟩, F32.ofInt 0, F32.ofInt 1, F32.ofInt 15⟩] ∧
    (SampleReachInContact.OnSLGraspBegin (SampleReachWorld 15 1) SampleOwner ⟨7⟩
      (F32.ofInt 15) "power").1.CurrGraspedObj = some ⟨7⟩ :=
  have h := C18_reach_composite_event SampleReachInContact (SampleReachWorld 15 1) SampleOwner
    ⟨7⟩ (F32.ofInt 15) "power" ⟨F32.ofInt 0, F32.ofInt 20⟩ (F32.ofInt 1) rfl rfl (by decide)
    (by decide)
  ⟨h.1, h.2.1⟩

/-- C19: polling tick.  A tick at time `t` keeps the candidates and their order; for a
candidate `O` with reach time `r` and previous distance `p`, whose current distance is
`d`: if `p - d > MinDist` only the distance becomes `d`; otherwise, if
`p - d < -MinDist`, the reach time becomes `t` and the distance `d`; otherwise the
record is unchanged.  (For `MinDist ≥ 0` the second case needs no "otherwise".)
Nothing else in the listener changes.  The difference `p - d` is the `float`
difference the code computes. -/
theorem C19_reach_polling_tick (c : FReachConstants) (s : USLReachListener) (w : FReachWorld) :
    (s.ReachUpdate c w).CandidatesWithTimeAndDistance.map Prod.fst =
      s.CandidatesWithTimeAndDistance.map Prod.fst ∧
    { s.ReachUpdate c w with
      CandidatesWithTimeAndDistance := s.CandidatesWithTimeAndDistance } = s ∧
    ∀ (k : Nat) (O : UObject) (r p : Int),
      s.CandidatesWithTimeAndDistance[k]? = some (O, ⟨r, p⟩) →
      (F32.Sub p (w.DistanceToOwner O) > c.MinDist →
        (s.ReachUpdate c w).CandidatesWithTimeAndDistance[k]? =
          some (O, ⟨r, w.DistanceToOwner O⟩)) ∧
      ((0 ≤ c.MinDist ∨ ¬ F32.Sub p (w.DistanceToOwner O) > c.MinDist) →
        F32.Sub p (w.DistanceToOwner O) < -c.MinDist →
        (s.ReachUpdate c w).CandidatesWithTimeAndDistance[k]? =
          some (O, ⟨w.TimeSeconds, w.DistanceToOwner O⟩)) ∧
      (¬ F32.Sub p (w.DistanceToOwner O) > c.MinDist →
        ¬ F32.Sub p (w.DistanceToOwner O) < -c.MinDist →
        (s.ReachUpdate c w).CandidatesWithTimeAndDistance[k]? = some (O, ⟨r, p⟩)) := by
  refine ⟨?_, rfl, ?_⟩
  · simp only [USLReachListener.ReachUpdate, List.map_map]
    apply List.map_congr_left
    intro C _
    simp only [Function.comp, USLReachListener.ReachUpdateCandidate]
    split <;> [rfl; split <;> rfl]
  · intro k O r p hk
    have hget : (s.ReachUpdate c w).CandidatesWithTimeAndDistance[k]? =
        some (USLReachListener.ReachUpdateCandidate c w (O, ⟨r, p⟩)) := by
      simp [USLReachListener.ReachUpdate, List.getElem?_map, hk]
    rw [hget]
    refine ⟨?_, ?_, ?_⟩
    · intro h1
      simp [USLReachListener.ReachUpdateCandidate, h1]
    · intro h0 h2
      have h1 : ¬ F32.Sub p (w.DistanceToOwner O) > c.MinDist := by
        rcases h0 with h0 | h0
        · omega
        · exact h0
      simp [USLReachListener.ReachUpdateCandidate, h1, h2]
    · intro h1 h2
      simp [USLReachListener.ReachUpdateCandidate, h1, h2]

/-- C19, concrete instance: the cup is a candidate since time 0 at distance 20; at time 3
it is at distance 30, further away by more than `MinDist = 2`, so its reach time
becomes 3 and its distance 30. -/
theorem C19_reach_polling_tick_witness :
    ((SampleReachListener.OnOverlapBegin (SampleReachWorld 0 20) ⟨7⟩).ReachUpdate
        SampleReachConstants (SampleReachWorld 3 30)).CandidatesWithTimeAndDistance[0]? =
      some (⟨7⟩, ⟨F32.ofInt 3, F32.ofInt 30⟩) :=
  ((C19_reach_polling_tick SampleReachConstants
    (SampleReachListener.OnOverlapBegin (SampleReachWorld 0 20) ⟨7⟩)
    (SampleReachWorld 3 30)).2.2 0 ⟨7⟩ (F32.ofInt 0) (F32.ofInt 20) (by decide)).2.1
      (Or.inl (by decide)) (by decide)

/-- C20, as stated, fails: the cup has a record that ended at time 2 and a record that
ended at time 13, and has been in contact again since time 12.  When the delayed
callback runs at time 14 the record of time 13 is kept (`14 - 13 ≤ 10`), yet the
contact time of the cup is dropped and its reach time is reset to 14, because its
record of time 2 has expired. -/
theorem C20_delayed_contact_end_counterexample :
    (SampleReachTwoContacts.DelayedManipulatorContactEndEventCallback SampleReachConstants
        (SampleReachWorld 14 5)).RecentlyEndedManipulatorContactEvents =
      [⟨⟨7⟩, F32.ofInt 13⟩] ∧
    F32.Sub (F32.ofInt 14) (F32.ofInt 13) ≤ SampleReachConstants.MaxPreGraspEventTimeGap ∧
    TMapFind SampleReachTwoContacts.ObjectsInContactWithManipulator ⟨7⟩ =
      some (F32.ofInt 12) ∧
    TMapFind (SampleReachTwoContacts.DelayedManipulatorContactEndEventCallback
        SampleReachConstants (SampleReachWorld 14 5)).ObjectsInContactWithManipulator ⟨7⟩ =
      none ∧
    TMapFind SampleReachTwoContacts.CandidatesWithTimeAndDistance ⟨7⟩ =
      some ⟨F32.ofInt 0, F32.ofInt 20⟩ ∧
    TMapFind (SampleReachTwoContacts.DelayedManipulatorContactEndEventCallback
        SampleReachConstants (SampleReachWorld 14 5)).CandidatesWithTimeAndDistance ⟨7⟩ =
      some ⟨F32.ofInt 14, F32.ofInt 20⟩ := by
  decide

/-- C20, amended: when the delayed callback runs at time `t`, the recently-ended
records kept are exactly those with `t - e ≤ MaxPreGraspEventTimeGap`, in order; for
every record `(O, e)` with `t - e > MaxPreGraspEventTimeGap` whose object is a
candidate in the in-contact map, `O` is dropped from the in-contact map and its reach
time is set to `t`; and for every object none of whose records has expired, the
contact time and the candidate record are unchanged.  The set of candidates and their
distances never change.  The difference `t - e` is the `float` difference the code
computes. -/
theorem C20_delayed_contact_end (c : FReachConstants) (s : USLReachListener) (w : FReachWorld) :
    (s.DelayedManipulatorContactEndEventCallback c w).RecentlyEndedManipulatorContactEvents =
      s.RecentlyEndedManipulatorContactEvents.filter
        (fun Ev => decide (F32.Sub w.TimeSeconds Ev.Time ≤ c.MaxPreGraspEventTimeGap)) ∧
    (s.DelayedManipulatorContactEndEventCallback c w).CandidatesWithTimeAndDistance.map
        Prod.fst = s.CandidatesWithTimeAndDistance.map Prod.fst ∧
    (∀ Ev ∈ s.RecentlyEndedManipulatorContactEvents,
      F32.Sub w.TimeSeconds Ev.Time > c.MaxPreGraspEventTimeGap →
      ∀ (rd : FSLTimeAndDist) (ct : Int),
        TMapFind s.CandidatesWithTimeAndDistance Ev.Other = some rd →
        TMapFind s.ObjectsInContactWithManipulator Ev.Other = some ct →
        TMapFind (s.DelayedManipulatorContactEndEventCallback c
            w).ObjectsInContactWithManipulator Ev.Other = none ∧
        TMapFind (s.DelayedManipulatorContactEndEventCallback c
            w).CandidatesWithTimeAndDistance Ev.Other = some ⟨w.TimeSeconds, rd.Dist⟩) ∧
    (∀ O : UObject,
      (∀ Ev ∈ s.RecentlyEndedManipulatorContactEvents, Ev.Other = O →
        F32.Sub w.TimeSeconds Ev.Time ≤ c.MaxPreGraspEventTimeGap) →
      TMapFind (s.DelayedManipulatorContactEndEventCallback c
          w).ObjectsInContactWithManipulator O =
        TMapFind s.ObjectsInContactWithManipulator O ∧
      TMapFind (s.DelayedManipulatorContactEndEventCallback c
          w).CandidatesWithTimeAndDistance O =
        TMapFind s.CandidatesWithTimeAndDistance O) := by
  obtain ⟨hkept, hkeys, hfind⟩ := DelayedManipulatorContactEndLoop_spec c w.TimeSeconds
    s.RecentlyEndedManipulatorContactEvents s.CandidatesWithTimeAndDistance
    s.ObjectsInContactWithManipulator
  refine ⟨hkept, hkeys, ?_, ?_⟩
  · intro Ev hmem hexp rd ct hcand hin
    have hhas : HasExpiredRecord c w.TimeSeconds s.RecentlyEndedManipulatorContactEvents
        Ev.Other = true := by
      simp only [HasExpiredRecord, List.any_eq_true]
      exact ⟨Ev, hmem, by simp [hexp]⟩
    obtain ⟨h1, h2⟩ := hfind Ev.Other
    constructor
    · show TMapFind (USLReachListener.DelayedManipulatorContactEndLoop c w.TimeSeconds
        s.CandidatesWithTimeAndDistance s.ObjectsInContactWithManipulator
        s.RecentlyEndedManipulatorContactEvents).2.1 Ev.Other = none
      rw [h2]
      simp [hhas, TMapContains, hcand]
    · show TMapFind (USLReachListener.DelayedManipulatorContactEndLoop c w.TimeSeconds
        s.CandidatesWithTimeAndDistance s.ObjectsInContactWithManipulator
        s.RecentlyEndedManipulatorContactEvents).1 Ev.Other = some ⟨w.TimeSeconds, rd.Dist⟩
      rw [h1]
      simp [hhas, TMapContains, hcand, hin]
  · intro O hnone
    have hhas : HasExpiredRecord c w.TimeSeconds s.RecentlyEndedManipulatorContactEvents
        O = false := by
      rw [Bool.eq_false_iff]
      intro hcon
      simp only [HasExpiredRecord, List.any_eq_true, Bool.and_eq_true,
        decide_eq_true_eq] at hcon
      obtain ⟨Ev, hmem, hexp, hO⟩ := hcon
      have := hnone Ev hmem hO
      omega
    obtain ⟨h1, h2⟩ := hfind O
    constructor
    · show TMapFind (USLReachListener.DelayedManipulatorContactEndLoop c w.TimeSeconds
        s.CandidatesWithTimeAndDistance s.ObjectsInContactWithManipulator
        s.RecentlyEndedManipulatorContactEvents).2.1 O = _
      rw [h2]
      simp [hhas]
    · show TMapFind (USLReachListener.DelayedManipulatorContactEndLoop c w.TimeSeconds
        s.CandidatesWithTimeAndDistance s.ObjectsInContactWithManipulator
        s.RecentlyEndedManipulatorContactEvents).1 O = _
      rw [h1]
      simp [hhas]


/-- C20, concrete instance: for the cup's two records, of times 2 and 13, the callback
at time 14 keeps exactly the records not older than 10. -/
theorem C20_delayed_contact_end_witness :
    (SampleReachTwoContacts.DelayedManipulatorContactEndEventCallback SampleReachConstants
        (SampleReachWorld 14 5)).RecentlyEndedManipulatorContactEvents =
      SampleReachTwoContacts.RecentlyEndedManipulatorContactEvents.filter
        (fun Ev => decide (F32.Sub (SampleReachWorld 14 5).TimeSeconds Ev.Time ≤
          SampleReachConstants.MaxPreGraspEventTimeGap)) :=
  (C20_delayed_contact_end SampleReachConstants SampleReachTwoContacts
    (SampleReachWorld 14 5)).1

/-! ## Grasp event handler: interval and frame claims -/

/-- C23: for a non-negative `GraspEventMin`, every event published by `FinishEvent` or
by `FinishAllEvents` has its end time set, and that end time is strictly greater than
its start time. -/
theorem C23_published_grasp_has_positive_duration
    (h : FSLGraspEventHandler) (o : UObject) (t : Int) (hmin : 0 ≤ h.GraspEventMin) :
    (∀ e ∈ (h.FinishEvent o t).2.2, ∃ en, e.End = some en ∧ e.Start < en) ∧
    (∀ e ∈ (h.FinishAllEvents t).2, ∃ en, e.End = some en ∧ e.Start < en) := by
  constructor
  · intro e he
    obtain ⟨ev, _, hgt, rfl⟩ :=
      FinishEventLoop_published h.GraspEventMin o t h.StartedEvents e he
    exact ⟨t, rfl, F32.lt_of_Sub_pos t ev.Start (by omega)⟩
  · intro e he
    simp only [FSLGraspEventHandler.FinishAllEvents, FinishAllEventsLoop_eq_filter_map,
      List.mem_map, List.mem_filter, decide_eq_true_eq] at he
    obtain ⟨ev, ⟨_, hgt⟩, rfl⟩ := he
    exact ⟨t, rfl, F32.lt_of_Sub_pos t ev.Start (by omega)⟩

/-- C23, concrete instance: with `GraspEventMin = 2`, what the sample handler publishes
when the grasp of the pot ends at time 10, and when all events are finished at time 10,
has `End > Start`. -/
theorem C23_published_grasp_has_positive_duration_witness :
    (0 : Int) ≤ SampleGraspHandler.GraspEventMin ∧
    (SampleGraspHandler.FinishEvent ⟨9⟩ (F32.ofInt 10)).2.2.length = 1 ∧
    (SampleGraspHandler.FinishAllEvents (F32.ofInt 10)).2.length = 2 ∧
    (∀ e ∈ (SampleGraspHandler.FinishEvent ⟨9⟩ (F32.ofInt 10)).2.2,
      ∃ en, e.End = some en ∧ e.Start < en) ∧
    (∀ e ∈ (SampleGraspHandler.FinishAllEvents (F32.ofInt 10)).2,
      ∃ en, e.End = some en ∧ e.Start < en) :=
  ⟨by decide, by decide, by decide,
   C23_published_grasp_has_positive_duration SampleGraspHandler ⟨9⟩ (F32.ofInt 10)
     (by decide)⟩

/-- C24: `FinishAllEvents t` publishes, in list order, exactly the open events `e` with
`t - e.Start > GraspEventMin` (the `float` difference the code computes), each with
`End = t`, and leaves no open event. -/
theorem C24_finish_all_events_filter (h : FSLGraspEventHandler) (t : Int) :
    (h.FinishAllEvents t).2 =
      (h.StartedEvents.filter (fun e => decide (F32.Sub t e.Start > h.GraspEventMin))).map
        (fun e => { e with End := some t }) ∧
    (h.FinishAllEvents t).1 = { h with StartedEvents := [] } := by
  exact ⟨FinishAllEventsLoop_eq_filter_map _ _ _, rfl⟩

/-- C25: when some open event has item `o`, `FinishEvent o t` returns true and removes
exactly the first such event, published or not (it is published when the `float`
difference `t - e.Start` exceeds `GraspEventMin`), keeping every other open event in
order; when no open event has item `o`, it returns false, publishes nothing and
leaves the handler unchanged. -/
theorem C25_finish_event_removes_first_match
    (h : FSLGraspEventHandler) (o : UObject) (t : Int) :
    ((∃ x ∈ h.StartedEvents, x.Item.Obj = o) →
      (h.FinishEvent o t).1 = true ∧
      ∃ pre e post, h.StartedEvents = pre ++ e :: post ∧
        (∀ x ∈ pre, x.Item.Obj ≠ o) ∧ e.Item.Obj = o ∧
        (h.FinishEvent o t).2.1 = { h with StartedEvents := pre ++ post } ∧
        (h.FinishEvent o t).2.2 =
          (if F32.Sub t e.Start > h.GraspEventMin then [{ e with End := some t }] else [])) ∧
    ((∀ x ∈ h.StartedEvents, x.Item.Obj ≠ o) →
      (h.FinishEvent o t).1 = false ∧ (h.FinishEvent o t).2.2 = [] ∧
      (h.FinishEvent o t).2.1 = h) := by
  constructor
  · rintro ⟨x, hx, hxo⟩
    rcases first_match_split o h.StartedEvents with hno | ⟨pre, e, post, hl, hpre, he⟩
    · exact absurd hxo (hno x hx)
    · have hloop := FinishEventLoop_first_match h.GraspEventMin o t pre post e hpre he
      refine ⟨?_, pre, e, post, hl, hpre, he, ?_, ?_⟩
      · simp [FSLGraspEventHandler.FinishEvent, hl, hloop]
      · simp [FSLGraspEventHandler.FinishEvent, hl, hloop]
      · simp [FSLGraspEventHandler.FinishEvent, hl, hloop]
  · intro hno
    have hloop := FinishEventLoop_no_match h.GraspEventMin o t h.StartedEvents hno
    simp [FSLGraspEventHandler.FinishEvent, hloop]

/-- C25, concrete instance: on the sample handler, ending the grasp of the pot
(object 9) returns true and leaves only the grasp of the cup open; ending a grasp of
object 5, which has no open event, returns false and changes nothing. -/
theorem C25_finish_event_removes_first_match_witness :
    ((SampleGraspHandler.FinishEvent ⟨9⟩ (F32.ofInt 4)).1 = true ∧
      GraspIds (SampleGraspHandler.FinishEvent ⟨9⟩ (F32.ofInt 4)).2.1.StartedEvents = ["a"] ∧
      (SampleGraspHandler.FinishEvent ⟨9⟩ (F32.ofInt 4)).2.2 = []) ∧
    ((SampleGraspHandler.FinishEvent ⟨5⟩ (F32.ofInt 4)).1 = false ∧
      (SampleGraspHandler.FinishEvent ⟨5⟩ (F32.ofInt 4)).2.2 = [] ∧
      (SampleGraspHandler.FinishEvent ⟨5⟩ (F32.ofInt 4)).2.1 = SampleGraspHandler) :=
  ⟨⟨((C25_finish_event_removes_first_match SampleGraspHandler ⟨9⟩ (F32.ofInt 4)).1 (by decide)).1,
      by decide, by decide⟩,
   (C25_finish_event_removes_first_match SampleGraspHandler ⟨5⟩ (F32.ofInt 4)).2 (by decide)⟩

/-! ## Pick-and-place and reach listeners: ignored signals -/

/-- C26: a grasp-begin while an object is already grasped, a grasp-end while no object
is grasped, and a grasp-end for an object other than the grasped one each return the
listener state unchanged (so the grasped object, the machine state, the anchors, the
lift-off flag and the movement buffer are kept) and broadcast nothing. -/
theorem C26_precondition_violations_are_noops
    (c : FPaPConstants) (s : USLPickAndPlaceListener) :
    (∀ (w : FWorld) (Self : FSLEntity) (Other : UObject) (Time : Int) (GraspType : String),
      s.CurrGraspedObj.isSome = true →
      s.OnSLGraspBegin w Self Other Time GraspType = s ∧
      FPaPInput.apply c s (.GraspBegin w Self Other Time GraspType) = some (s, [])) ∧
    (∀ (Self : FSLEntity) (Other : UObject) (Time : Int),
      s.CurrGraspedObj = none →
      s.OnSLGraspEnd Self Other Time = (s, []) ∧
      FPaPInput.apply c s (.GraspEnd Self Other Time) = some (s, [])) ∧
    (∀ (Self : FSLEntity) (Other Obj : UObject) (Time : Int),
      s.CurrGraspedObj = some Obj → Obj ≠ Other →
      s.OnSLGraspEnd Self Other Time = (s, []) ∧
      FPaPInput.apply c s (.GraspEnd Self Other Time) = some (s, [])) := by
  refine ⟨?_, ?_, ?_⟩
  · intro w Self Other Time GraspType hsome
    simp [FPaPInput.apply, USLPickAndPlaceListener.OnSLGraspBegin, hsome]
  · intro Self Other Time hnone
    simp [FPaPInput.apply, USLPickAndPlaceListener.OnSLGraspEnd, hnone]
  · intro Self Other Obj Time hobj hne
    simp [FPaPInput.apply, USLPickAndPlaceListener.OnSLGraspEnd, hobj, hne]

/-- C26, concrete instances: while the sample listener slides object 7, a grasp-begin
for object 8 and a grasp-end for object 8 change nothing; while it holds nothing, a
grasp-end for object 7 changes nothing. -/
theorem C26_precondition_violations_are_noops_witness :
    (USLPickAndPlaceListener.OnSLGraspBegin (SampleGrasping .Slide .Update_Slide 0 ⟨0, 0, 0⟩
        false ⟨0, 0, 0⟩) (SampleWorld 1 ⟨0, 0, 0⟩ true 0) SampleOwner ⟨8⟩ (F32.ofInt 1)
        "power" =
      SampleGrasping .Slide .Update_Slide 0 ⟨0, 0, 0⟩ false ⟨0, 0, 0⟩) ∧
    (SampleListener.OnSLGraspEnd SampleOwner ⟨7⟩ (F32.ofInt 1) = (SampleListener, [])) ∧
    (USLPickAndPlaceListener.OnSLGraspEnd (SampleGrasping .Slide .Update_Slide 0 ⟨0, 0, 0⟩
        false ⟨0, 0, 0⟩) SampleOwner ⟨8⟩ (F32.ofInt 1) =
      (SampleGrasping .Slide .Update_Slide 0 ⟨0, 0, 0⟩ false ⟨0, 0, 0⟩, [])) :=
  ⟨((C26_precondition_violations_are_noops SampleConstants
      (SampleGrasping .Slide .Update_Slide 0 ⟨0, 0, 0⟩ false ⟨0, 0, 0⟩)).1
      (SampleWorld 1 ⟨0, 0, 0⟩ true 0) SampleOwner ⟨8⟩ (F32.ofInt 1) "power" rfl).1,
   ((C26_precondition_violations_are_noops SampleConstants SampleListener).2.1
      SampleOwner ⟨7⟩ (F32.ofInt 1) rfl).1,
   ((C26_precondition_violations_are_noops SampleConstants
      (SampleGrasping .Slide .Update_Slide 0 ⟨0, 0, 0⟩ false ⟨0, 0, 0⟩)).2.2
      SampleOwner ⟨8⟩ ⟨7⟩ (F32.ofInt 1) rfl (by decide)).1⟩

/-- C27: a grasp-begin for an object that is not a candidate, or that is a candidate
without a recorded contact time, broadcasts nothing and returns the reach listener
state unchanged: no object becomes grasped, and the candidates and the contact
records are kept. -/
theorem C27_reach_grasp_begin_inconsistent
    (s : USLReachListener) (w : FReachWorld) (Self : FSLEntity) (Other : UObject)
    (Time : Int) (GraspType : String)
    (hmiss : TMapFind s.CandidatesWithTimeAndDistance Other = none ∨
      TMapFind s.ObjectsInContactWithManipulator Other = none) :
    s.OnSLGraspBegin w Self Other Time GraspType = (s, []) := by
  unfold USLReachListener.OnSLGraspBegin
  split
  · rfl
  · split
    · rcases hmiss with h | h
      · simp [h]
      · cases hc : TMapFind s.CandidatesWithTimeAndDistance Other <;> simp [h]
    · rfl

/-- C27, concrete instances: on the sample reach listener, a grasp of the cup at time 5
is ignored both when the cup never overlapped the reach sphere and when it is a
candidate that never touched the hand. -/
theorem C27_reach_grasp_begin_inconsistent_witness :
    (SampleReachListener.OnSLGraspBegin (SampleReachWorld 5 5) SampleOwner ⟨7⟩ (F32.ofInt 5)
        "power" = (SampleReachListener, [])) ∧
    (USLReachListener.OnSLGraspBegin
        (SampleReachListener.OnOverlapBegin (SampleReachWorld 0 20) ⟨7⟩)
        (SampleReachWorld 5 5) SampleOwner ⟨7⟩ (F32.ofInt 5) "power" =
      (SampleReachListener.OnOverlapBegin (SampleReachWorld 0 20) ⟨7⟩, [])) ∧
    TMapFind (SampleReachListener.OnOverlapBegin (SampleReachWorld 0 20)
        ⟨7⟩).CandidatesWithTimeAndDistance ⟨7⟩ = some ⟨F32.ofInt 0, F32.ofInt 20⟩ :=
  ⟨C27_reach_grasp_begin_inconsistent SampleReachListener (SampleReachWorld 5 5) SampleOwner
      ⟨7⟩ (F32.ofInt 5) "power" (Or.inl (by decide)),
   C27_reach_grasp_begin_inconsistent
      (SampleReachListener.OnOverlapBegin (SampleReachWorld 0 20) ⟨7⟩)
      (SampleReachWorld 5 5) SampleOwner ⟨7⟩ (F32.ofInt 5) "power" (Or.inr (by decide)),
   by decide⟩

/-! ## Event data logger: claims -/

/-- C22, counterexample: a pending event that started at time 10 is finished by
`FinishPendingEvents 5` with `End = 5`, and is in the finished events afterwards with
its end before its start. -/
theorem C22_finish_pending_events_counterexample :
    (USLEventDataLogger.FinishPendingEvents
        { PendingEvents := [⟨"e", 10, none⟩], FinishedEvents := [] } 5).FinishedEvents =
      [⟨"e", 10, some 5⟩] ∧
    ¬ (∀ e ∈ (USLEventDataLogger.FinishPendingEvents
        { PendingEvents := [⟨"e", 10, none⟩], FinishedEvents := [] } 5).FinishedEvents,
      e.EndNotBeforeStart = true) := by
  decide

/-- C22, amended: `FinishPendingEvents t` appends every pending event, in order and with
`End = t`, to the finished events and empties the pending events; when `t` is not
earlier than the start of any pending event and every event finished before has its
end set and not before its start, the same holds of every finished event afterwards. -/
theorem C22_finish_pending_events (s : USLEventDataLogger) (t : Int)
    (hpending : ∀ e ∈ s.PendingEvents, e.Start ≤ t)
    (hfinished : ∀ e ∈ s.FinishedEvents, e.EndNotBeforeStart = true) :
    (s.FinishPendingEvents t).FinishedEvents =
      s.FinishedEvents ++ s.PendingEvents.map (fun PE => { PE with End := some t }) ∧
    (s.FinishPendingEvents t).PendingEvents = [] ∧
    (∀ e ∈ (s.FinishPendingEvents t).FinishedEvents, e.EndNotBeforeStart = true) := by
  have heq := FinishPendingEventsLoop_eq t s.PendingEvents s.FinishedEvents
  refine ⟨heq, rfl, ?_⟩
  intro e he
  simp only [USLEventDataLogger.FinishPendingEvents, heq, List.mem_append, List.mem_map] at he
  rcases he with he | ⟨PE, hPE, rfl⟩
  · exact hfinished e he
  · simpa [ISLEvent.EndNotBeforeStart] using hpending PE hPE

/-- C22, concrete instance: with one finished event `[0, 3]` and pending events started
at times 2 and 4, `FinishPendingEvents 6` leaves three finished events, all with
`End >= Start`, and no pending event. -/
theorem C22_finish_pending_events_witness :
    (USLEventDataLogger.FinishPendingEvents
        { PendingEvents := [⟨"b", 2, none⟩, ⟨"c", 4, none⟩],
          FinishedEvents := [⟨"a", 0, some 3⟩] } 6).FinishedEvents =
      [⟨"a", 0, some 3⟩, ⟨"b", 2, some 6⟩, ⟨"c", 4, some 6⟩] ∧
    (USLEventDataLogger.FinishPendingEvents
        { PendingEvents := [⟨"b", 2, none⟩, ⟨"c", 4, none⟩],
          FinishedEvents := [⟨"a", 0, some 3⟩] } 6).PendingEvents = [] ∧
    (∀ e ∈ (USLEventDataLogger.FinishPendingEvents
        { PendingEvents := [⟨"b", 2, none⟩, ⟨"c", 4, none⟩],
          FinishedEvents := [⟨"a", 0, some 3⟩] } 6).FinishedEvents,
      e.EndNotBeforeStart = true) :=
  C22_finish_pending_events
    { PendingEvents := [⟨"b", 2, none⟩, ⟨"c", 4, none⟩], FinishedEvents := [⟨"a", 0, some 3⟩] } 6
    (by decide) (by decide)

/-! ## Pick-and-place listener: movement buffer and state invariant -/

/-- C28, counterexample: with a buffer window of 2, the object is sampled unsupported at
times 4 and 50 after entering `TransportOrPutDown`.  The second tick finds one sample in
the buffer and pushes without evicting, so the buffer then holds the sample of time 4,
which is 46 older than the newest. -/
theorem C28_movement_buffer_window_counterexample :
    (FPaPInput.run SampleConstants SampleListener
      (SampleTransportRun [(4, ⟨60, 0, 20⟩), (50, ⟨60, 0, 20⟩)])).map
        (fun r => (r.1.EventCheck, r.1.RecentMovementBuffer)) =
      some (.TransportOrPutDown, SampleBuffer [(4, ⟨60, 0, 20⟩), (50, ⟨60, 0, 20⟩)]) ∧
    (0 : Int) ≤ SampleConstants.RecentMovementBufferDuration ∧
    F32.Sub (F32.ofInt 50) (F32.ofInt 4) > SampleConstants.RecentMovementBufferDuration := by
  decide

/-- C28, amended: on a `TransportOrPutDown` tick on which the object is unsupported, with
a non-negative buffer window, a time-ordered buffer and a tick time not earlier than any
buffered sample, the update returns (the eviction scan stays inside the buffer),
broadcasts nothing and changes only the buffer, which becomes the old buffer with the
new sample pushed and some oldest samples dropped; it ends with the new sample, is
time-ordered and holds no sample newer than the tick.  When the buffer held more than
one sample before the tick every retained sample is within the window of the new
sample (the `float` difference of their times, as the scan computes it, does not
exceed the window); when it held at most one, the new sample is pushed and nothing is
evicted. -/
theorem C28_movement_buffer_window (c : FPaPConstants) (s : USLPickAndPlaceListener)
    (w : FWorld) (Obj : UObject) (CSI : Nat)
    (hptr : s.UpdateFunctionPtr = .Update_TransportOrPutDown)
    (hobj : s.CurrGraspedObj = some Obj) (hcsi : s.GraspedObjectContactShape = some CSI)
    (hunsup : w.IsSupportedBySomething CSI = false)
    (hD : 0 ≤ c.RecentMovementBufferDuration)
    (hsorted : s.RecentMovementBuffer.Pairwise (fun a b => a.1 ≤ b.1))
    (htime : ∀ S ∈ s.RecentMovementBuffer, S.1 ≤ w.TimeSeconds) :
    ∃ Count, Count ≤ s.RecentMovementBuffer.length ∧
      s.Update c w =
        some ({ s with RecentMovementBuffer :=
                  (s.RecentMovementBuffer ++ [(w.TimeSeconds, w.ActorLocation Obj)]).drop Count },
              []) ∧
      ((s.RecentMovementBuffer ++ [(w.TimeSeconds, w.ActorLocation Obj)]).drop Count).getLast? =
        some (w.TimeSeconds, w.ActorLocation Obj) ∧
      ((s.RecentMovementBuffer ++ [(w.TimeSeconds, w.ActorLocation Obj)]).drop Count).Pairwise
        (fun a b => a.1 ≤ b.1) ∧
      (∀ S ∈ (s.RecentMovementBuffer ++ [(w.TimeSeconds, w.ActorLocation Obj)]).drop Count,
        S.1 ≤ w.TimeSeconds) ∧
      (s.RecentMovementBuffer.length > 1 →
        ∀ S ∈ (s.RecentMovementBuffer ++ [(w.TimeSeconds, w.ActorLocation Obj)]).drop Count,
          F32.Sub w.TimeSeconds S.1 ≤ c.RecentMovementBufferDuration) ∧
      (s.RecentMovementBuffer.length ≤ 1 → Count = 0) := by
  have hpushed : (s.RecentMovementBuffer ++ [(w.TimeSeconds, w.ActorLocation Obj)]).Pairwise
      (fun a b => a.1 ≤ b.1) := by
    rw [List.pairwise_append]
    refine ⟨hsorted, List.pairwise_singleton _ _, ?_⟩
    intro a ha b hb
    simp only [List.mem_singleton] at hb
    subst hb
    exact htime a ha
  have hkeys : ∀ S ∈ s.RecentMovementBuffer ++ [(w.TimeSeconds, w.ActorLocation Obj)],
      S.1 ≤ w.TimeSeconds := by
    intro S hS
    rcases List.mem_append.mp hS with h | h
    · exact htime S h
    · simp only [List.mem_singleton] at h
      subst h
      exact le_refl _
  have hfinal : ∀ Count, Count ≤ s.RecentMovementBuffer.length →
      ((s.RecentMovementBuffer ++ [(w.TimeSeconds, w.ActorLocation Obj)]).drop Count).getLast? =
        some (w.TimeSeconds, w.ActorLocation Obj) := by
    intro Count hle
    rw [List.drop_append_of_le_length hle]
    simp
  by_cases hlen : s.RecentMovementBuffer.length > 1
  · obtain ⟨Count, hec, hle, hwin⟩ := EvictCount_window c.RecentMovementBufferDuration
      w.TimeSeconds (w.ActorLocation Obj) hD s.RecentMovementBuffer hsorted
    refine ⟨Count, hle, ?_, hfinal Count hle, hpushed.sublist (List.drop_sublist _ _),
      fun S hS => hkeys S (List.mem_of_mem_drop hS), fun _ => hwin, fun h => by omega⟩
    simp [USLPickAndPlaceListener.Update, hptr, USLPickAndPlaceListener.Update_TransportOrPutDown,
      hobj, hcsi, hunsup, hlen, hec]
  · refine ⟨0, Nat.zero_le _, ?_, hfinal 0 (Nat.zero_le _), hpushed.sublist (List.drop_sublist _ _),
      fun S hS => hkeys S (List.mem_of_mem_drop hS), fun h => absurd h hlen, fun _ => rfl⟩
    simp [USLPickAndPlaceListener.Update, hptr, USLPickAndPlaceListener.Update_TransportOrPutDown,
      hobj, hcsi, hunsup, hlen]

/-- C28, concrete instance: with a buffer window of 2 and samples of times 4, 5 and 6
buffered, an unsupported tick at time 7 leaves the samples of times 5, 6 and 7. -/
theorem C28_movement_buffer_window_witness :
    ∃ Count, Count ≤ 3 ∧
      (SampleTransporting SampleWindowBuffer).Update SampleConstants
          (SampleWorld 7 ⟨0, 0, 20⟩ false 1) =
        some ({ SampleTransporting SampleWindowBuffer with
                RecentMovementBuffer :=
                  (SampleBuffer SampleWindowBuffer ++
                    [(F32.ofInt 7, FVector.ofInt (FVector.mk 0 0 20))]).drop Count }, []) ∧
      (SampleTransporting SampleWindowBuffer).Update SampleConstants
          (SampleWorld 7 ⟨0, 0, 20⟩ false 1) =
        some (SampleTransporting [(5, ⟨0, 0, 20⟩), (6, ⟨0, 0, 20⟩), (7, ⟨0, 0, 20⟩)], []) :=
  match C28_movement_buffer_window SampleConstants (SampleTransporting SampleWindowBuffer)
      (SampleWorld 7 ⟨0, 0, 20⟩ false 1) ⟨7⟩ 0 rfl rfl rfl (by decide) (by decide) (by decide)
      (by decide) with
  | ⟨Count, hle, hrun, _⟩ => ⟨Count, hle, hrun, by decide⟩

/-- C29, evaluated on the code: after a pick-up that ended at time 3 the listener is in
`TransportOrPutDown` with an empty movement buffer; when the object is supported again
on the next tick, at time 4, `HasPutDownEventHappened` starts its scan at index
`2 ^ 32 - 1` of the empty buffer and the tick faults on the read outside the buffer.
With one sample buffered the same tick reads only valid indices. -/
theorem C29_put_down_backtracking_empty_buffer :
    (FPaPInput.run SampleConstants SampleListener (SampleTransportRun [])).map
        (fun r => (r.1.EventCheck, r.1.RecentMovementBuffer)) =
      some (.TransportOrPutDown, []) ∧
    FPaPInput.run SampleConstants SampleListener
        (SampleTransportRun [] ++ [.Tick (SampleWorld 4 ⟨60, 0, 20⟩ true 4)]) = none ∧
    (((([] : List (Int × FVector)).length : Int) - 1) % 2 ^ 32).toNat = 4294967295 ∧
    USLPickAndPlaceListener.HasPutDownEventHappened SampleConstants (SampleTransporting [])
        (F32.ofInt 4) (FVector.ofInt ⟨60, 0, 20⟩) = none ∧
    ((SampleTransporting []).Update SampleConstants (SampleWorld 4 ⟨60, 0, 20⟩ true 4)) = none ∧
    ((SampleTransporting [(4, ⟨60, 0, 20⟩)]).Update SampleConstants
        (SampleWorld 5 ⟨60, 0, 20⟩ true 5)).isSome = true := by
  decide

/-- C30: in every state reached from the constructed listener, or from the constructed,
initialized and started listener, through any sequence of grasp-begin, grasp-end, tick
and `Finish` calls that does not fault, the grasped object is unset if and only if the
machine state is `NONE`, and `UpdateFunctionPtr` is the update function of the machine
state. -/
theorem C30_state_invariant (c : FPaPConstants) (Uninit : USLPickAndPlaceListener)
    (Owner : FSLEntity) (bOwnerIsSet bSubscribed : Bool) (inputs : List FPaPInput)
    (r : USLPickAndPlaceListener × List FPaPBroadcast) :
    (FPaPInput.run c (USLPickAndPlaceListener.New Uninit) inputs = some r →
      (r.1.CurrGraspedObj = none ↔ r.1.EventCheck = .NONE) ∧
      r.1.UpdateFunctionPtr = UpdateFunctionOf r.1.EventCheck) ∧
    (FPaPInput.run c
        (((USLPickAndPlaceListener.New Uninit).Init Owner bOwnerIsSet).2.Start bSubscribed)
        inputs = some r →
      (r.1.CurrGraspedObj = none ↔ r.1.EventCheck = .NONE) ∧
      r.1.UpdateFunctionPtr = UpdateFunctionOf r.1.EventCheck) := by
  have hnew : (USLPickAndPlaceListener.New Uninit).StateInvariant := by
    simp [USLPickAndPlaceListener.New, USLPickAndPlaceListener.StateInvariant, UpdateFunctionOf]
  have hstarted : (((USLPickAndPlaceListener.New Uninit).Init Owner bOwnerIsSet).2.Start
      bSubscribed).StateInvariant := by
    cases bOwnerIsSet <;> cases bSubscribed <;>
      simp [USLPickAndPlaceListener.New, USLPickAndPlaceListener.Init,
        USLPickAndPlaceListener.Start, USLPickAndPlaceListener.StateInvariant, UpdateFunctionOf]
  exact ⟨fun hrun => FPaPInput_run_invariant c inputs _ r hnew hrun,
    fun hrun => FPaPInput_run_invariant c inputs _ r hstarted hrun⟩

/-- C30, concrete instance: the sample run into transport ends, without fault, in state
`TransportOrPutDown` with object 7 grasped and `Update_TransportOrPutDown` dispatched. -/
theorem C30_state_invariant_witness :
    FPaPInput.run SampleConstants SampleListener (SampleTransportRun []) =
      some ({ SampleGrasping .TransportOrPutDown .Update_TransportOrPutDown 3 ⟨60, 0, 20⟩ false
                ⟨60, 0, 4⟩ with bIsInit := true },
            [⟨.OnManipulatorPickUpEvent, SampleOwner, some ⟨7⟩, F32.ofInt 0, F32.ofInt 3⟩]) ∧
    (((some (⟨7⟩ : UObject)) = none ↔ ESLPaPStateCheck.TransportOrPutDown = .NONE) ∧
      EPaPUpdateFunction.Update_TransportOrPutDown =
        UpdateFunctionOf ESLPaPStateCheck.TransportOrPutDown) :=
  ⟨by decide,
   (C30_state_invariant SampleConstants
      { bIgnore := false, bIsInit := false, bIsStarted := false, bIsFinished := false,
        SemanticOwner := SampleOwner, CurrGraspedObj := none, GraspedObjectContactShape := none,
        EventCheck := .NONE, UpdateFunctionPtr := .Update_NONE,
        PrevRelevantLocation := ⟨0, 0, 0⟩, PrevRelevantTime := 0, bLiftOffHappened := false,
        LiftOffLocation := ⟨0, 0, 0⟩, RecentMovementBuffer := [],
        bUpdateTimerPaused := false }
      SampleOwner true true (SampleTransportRun [])
      ({ SampleGrasping .TransportOrPutDown .Update_TransportOrPutDown 3 ⟨60, 0, 20⟩ false
           ⟨60, 0, 4⟩ with bIsInit := true },
       [⟨.OnManipulatorPickUpEvent, SampleOwner, some ⟨7⟩, F32.ofInt 0, F32.ofInt 3⟩])).2
    (by decide)⟩

/-! ## Reach listener: interval order -/

/-- C21, counterexample: in the sample run the timestamps 0, 1, 5, 7, 8 are
non-decreasing, and the timer runs and the contact is recorded when the polling tick
at time 7 finds the cup 3 further away than before (more than `MinDist = 2`) and resets
its reach start time to 7.  The grasp at time 8 broadcasts the composite event with
reach start 7 and contact time 5: the reach interval ends before it starts. -/
theorem C21_reach_intervals_counterexample :
    FReachInput.NonDecreasing SampleReachRun ∧
    (FReachInput.run SampleReachConstants SampleReachListener (SampleReachRun.take 3)).1 =
      { SampleReachListener with
        CandidatesWithTimeAndDistance := [(⟨7⟩, ⟨F32.ofInt 0, F32.ofInt 10⟩)],
        ObjectsInContactWithManipulator := [(⟨7⟩, F32.ofInt 5)],
        bUpdateTimerPaused := false } ∧
    (FReachInput.run SampleReachConstants SampleReachListener SampleReachRun).2 =
      [⟨SampleOwner, ⟨7⟩, F32.ofInt 7, F32.ofInt 5, F32.ofInt 8⟩] ∧
    (∃ ev ∈ (FReachInput.run SampleReachConstants SampleReachListener SampleReachRun).2,
      ev.ReachEndTime < ev.ReachStartTime) := by
  refine ⟨?_, by decide, by decide, by decide⟩
  unfold FReachInput.NonDecreasing SampleReachRun
  decide

/-- C21, amended: over every sequence of overlap, polling-tick, contact, delayed
contact-end and grasp inputs with non-decreasing timestamps, handled from a state
that holds no reach start time or contact time later than a timestamp of the sequence
(in particular from the constructed listener, whose maps are empty), every composite
event broadcast has its reach start time and its contact time not later than its
grasp time. -/
theorem C21_reach_intervals (c : FReachConstants) (s : USLReachListener)
    (inputs : List FReachInput) (hord : FReachInput.NonDecreasing inputs) :
    ((∀ i ∈ inputs, ∀ b ∈ i.Times, s.TimesBoundedBy b) →
      ∀ ev ∈ (FReachInput.run c s inputs).2,
        ev.ReachStartTime ≤ ev.Time ∧ ev.ReachEndTime ≤ ev.Time) ∧
    (∀ ev ∈ (FReachInput.run c (USLReachListener.New s) inputs).2,
      ev.ReachStartTime ≤ ev.Time ∧ ev.ReachEndTime ≤ ev.Time) := by
  refine ⟨fun hstate => FReachInput_run_events c inputs s hstate hord, ?_⟩
  refine FReachInput_run_events c inputs _ ?_ hord
  intro i _ b _
  exact ⟨by simp [USLReachListener.New], by simp [USLReachListener.New]⟩

/-- C21, concrete instance: in the sample run, handled from the started sample listener,
the composite event has reach start 7 and contact time 5, both before the grasp time 8. -/
theorem C21_reach_intervals_witness :
    FReachInput.NonDecreasing SampleReachRun ∧
    (FReachInput.run SampleReachConstants SampleReachListener SampleReachRun).2 =
      [⟨SampleOwner, ⟨7⟩, F32.ofInt 7, F32.ofInt 5, F32.ofInt 8⟩] ∧
    (∀ ev ∈ (FReachInput.run SampleReachConstants SampleReachListener SampleReachRun).2,
      ev.ReachStartTime ≤ ev.Time ∧ ev.ReachEndTime ≤ ev.Time) := by
  have hord : FReachInput.NonDecreasing SampleReachRun := by
    unfold FReachInput.NonDecreasing SampleReachRun
    decide
  have hcand : SampleReachListener.CandidatesWithTimeAndDistance = [] := by decide
  have hcont : SampleReachListener.ObjectsInContactWithManipulator = [] := by decide
  exact ⟨hord, by decide,
    (C21_reach_intervals SampleReachConstants SampleReachListener SampleReachRun hord).1
      (fun i _ b _ => ⟨by simp [hcand], by simp [hcont]⟩)⟩

end USemLog
